import Mathlib

/-! mobile-mgr-nng: the envelope codec and the request router.

A shallow embedding of `src/src/databuf.c`, `src/src/nng_server.c` and the entry
points of `src/src/mbim.c` / `src/src/qmi.c`.

Conventions of the embedding (LP64: `int`, `unsigned int` and `uint32_t` have 32
bits, `size_t` has 64 bits, the byte order is little-endian):

* a byte is a `Nat`, read modulo 256; a block of memory is a `List Nat`;
* an `int` is kept as its 32-bit two's-complement pattern, a `Nat` below `2^32`;
  patterns from `2^31` on are the negative values;
* a `size_t` that measures an object is a `Nat`;
* a pointer into an envelope is the offset from `buf->buf`; `NULL` is `none`;
* a read past the end of a block returns what the adjacent memory holds, given
  by the parameter `junk`;
* a loop that the source does not bound takes a `fuel` argument, the number of
  iterations it may run; `none` means that it has not returned within them.
-/

namespace MbimNng

/-! ## databuf.h / databuf.c -/

/-- The growth step of an envelope, `#define CHUNK_SIZE 512`. -/
def CHUNK_SIZE : Nat := 512

/-- Type marker `DT_RAW = 1` of `enum data_type`. -/
def DT_RAW : Nat := 1

/-- Type marker `DT_UINT` of `enum data_type`. -/
def DT_UINT : Nat := 2

/-- Type marker `DT_STRING` of `enum data_type`. -/
def DT_STRING : Nat := 3

/-- The struct `Databuf`: `buf` holds the `len` bytes in use (`none` is `NULL`),
`size` is the capacity of the allocation. -/
structure Databuf where
  buf : Option (List Nat)
  size : Nat
  len : Nat
deriving DecidableEq, Repr

/-- The four bytes of a `uint32_t` store; the value is truncated to 32 bits. -/
def le32 (v : Nat) : List Nat :=
  [v % 256, v / 256 % 256, v / 65536 % 256, v / 16777216 % 256]

/-- The byte at index `i` of a block, or of the memory behind it. -/
def peek (junk : Nat → Nat) (mem : List Nat) (i : Nat) : Nat :=
  mem.getD i (junk i) % 256

/-- A `uint32_t` load (`memcpy` of four bytes) at index `i`. -/
def rd32 (junk : Nat → Nat) (mem : List Nat) (i : Nat) : Nat :=
  peek junk mem i + 256 * peek junk mem (i + 1) + 65536 * peek junk mem (i + 2)
    + 16777216 * peek junk mem (i + 3)

/-- A `memcpy(mem + off, data, data.length)` into a block. -/
def store (mem : List Nat) (off : Nat) (data : List Nat) : List Nat :=
  mem.take off ++ data ++ mem.drop (off + data.length)

/-- The `len` bytes that `memcpy` takes from a source object; bytes past the
object read as 0. -/
def fetch (obj : List Nat) (len : Nat) : List Nat :=
  obj.take len ++ List.replicate (len - obj.length) 0

/-- Conversion of a `size_t` to `int`: the low 32 bits. -/
def int_of_size (n : Nat) : Nat := n % 2 ^ 32

/-- Conversion of an `int` pattern to `size_t` (sign extension to 64 bits). -/
def size_of_int (bits : Nat) : Nat :=
  if bits < 2 ^ 31 then bits else bits + (2 ^ 64 - 2 ^ 32)

/-- The comparison `offset < buf->len` of an `int` with a `size_t`: the `int` is
converted to `size_t` first. -/
def int_lt_size (offset len : Nat) : Bool :=
  decide (size_of_int offset < len)

/-- The loop `while (size > new_size) new_size += CHUNK_SIZE;` of
`databuf_realloc`. -/
def databuf_realloc_size (size new_size : Nat) : Nat :=
  if size > new_size then databuf_realloc_size size (new_size + CHUNK_SIZE) else new_size
termination_by size - new_size
decreasing_by simp only [CHUNK_SIZE]; omega

/-- The function `databuf_realloc`; `alloc` tells whether `realloc` succeeds. -/
def databuf_realloc (alloc : Bool) (b : Databuf) (size : Nat) : Bool × Databuf :=
  let new_size := databuf_realloc_size size b.size
  if alloc then (true, { b with size := new_size }) else (false, b)

/-- The function `databuf_add`: the envelope after the call and the value
returned. `value` is the source object (`none` is `NULL`), `len` its length.
The sum `size` is a `size_t` and wraps modulo 2^64. The result describes the
call where the block has room for the field (`buf->len + len + 8` does not
wrap) and the source object holds `len` bytes; elsewhere the `memcpy` of the
source leaves the two objects. -/
def databuf_add (alloc : Bool) (b : Databuf) (var : Nat) (value : Option (List Nat))
    (len : Nat) : Databuf × Nat :=
  match b.buf with
  | none => (b, 0)
  | some mem =>
    let size := (b.len + len + 8) % 2 ^ 64
    let r := if size > b.size then databuf_realloc alloc b size else (true, b)
    if r.1 = false then (b, 0)
    else
      let mem1 := store mem b.len (le32 var ++ le32 len)
      let len1 := b.len + 8
      let w : List Nat × Nat :=
        match value with
        | some obj => if len > 0 then (store mem1 len1 (fetch obj len), len1 + len)
                      else (mem1, len1)
        | none => (mem1, len1)
      let hdr := (rd32 (fun _ => 0) w.1 4 + (len + 8)) % 2 ^ 32
      ({ buf := some (store w.1 4 (le32 hdr)), size := r.2.size, len := w.2 }, len)

/-- The function `databuf_init`; `alloc` tells whether `calloc` succeeds. -/
def databuf_init (alloc : Bool) (b : Databuf) : Bool × Databuf :=
  if alloc then
    (true, { buf := some (le32 DT_RAW ++ le32 0), size := CHUNK_SIZE, len := 8 })
  else (false, { b with buf := none })

/-- The function `databuf_free`. -/
def databuf_free (_b : Databuf) : Databuf :=
  { buf := none, size := 0, len := 0 }

/-- The function `databuf_set_buf`: `buffer` is the received block of `size`
bytes. -/
def databuf_set_buf (_b : Databuf) (buffer : Option (List Nat)) (size : Nat) : Databuf :=
  { buf := buffer, size := size, len := size }

/-- The function `strlen`: the number of bytes before the first NUL. -/
def strlen (s : List Nat) : Nat :=
  (s.takeWhile (fun c => c % 256 != 0)).length

/-- The object a `const char *` points to: the characters and the closing NUL. -/
def cstring (s : List Nat) : List Nat :=
  s.takeWhile (fun c => c % 256 != 0) ++ [0]

/-- The function `databuf_add_string`. -/
def databuf_add_string (alloc : Bool) (b : Databuf) (var : Nat) (value : Option (List Nat)) :
    Databuf :=
  if var % 256 ≠ DT_STRING then b
  else
    let len : Nat :=
      match value with
      | some s => int_of_size (strlen s + 1)
      | none => 0
    (databuf_add alloc b var (value.map cstring) (size_of_int len)).1

/-- The function `databuf_add_uint`. -/
def databuf_add_uint (alloc : Bool) (b : Databuf) (var : Nat) (value : Nat) : Databuf :=
  if var % 256 ≠ DT_UINT then b
  else (databuf_add alloc b var (some (le32 value)) 4).1

/-- The loop of `databuf_is_valid`, entered with `offset`. -/
def databuf_is_valid_loop (junk : Nat → Nat) (mem : List Nat) (len : Nat) :
    Nat → Nat → Option Bool
  | 0, offset => if int_lt_size offset len then none else some true
  | fuel + 1, offset =>
    if int_lt_size offset len then
      let size := rd32 junk mem (offset + 4)
      if (size + offset + 8) % 2 ^ 32 > len then some false
      else databuf_is_valid_loop junk mem len fuel ((offset + (8 + size) % 2 ^ 32) % 2 ^ 32)
    else some true

/-- The function `databuf_is_valid`. -/
def databuf_is_valid (fuel : Nat) (junk : Nat → Nat) (p : Option Databuf) : Option Bool :=
  match p with
  | none => some false
  | some b =>
    match b.buf with
    | none => some false
    | some mem =>
      if b.len < 8 then some false
      else
        let type := rd32 junk mem 0
        let size := rd32 junk mem 4
        if size ≠ b.len - 8 ∨ type % 256 ≠ DT_RAW then some false
        else databuf_is_valid_loop junk mem b.len fuel 8

/-- The loop of `databuf_get`, entered with `offset`. -/
def databuf_get_loop (junk : Nat → Nat) (mem : List Nat) (len : Nat) (var : Nat)
    (prev : Option Nat) : Nat → Nat → Option (Option Nat)
  | 0, offset => if int_lt_size offset len then none else some none
  | fuel + 1, offset =>
    if int_lt_size offset len then
      let type := rd32 junk mem offset
      let size := rd32 junk mem (offset + 4)
      let value := offset + 8
      let hit : Bool :=
        decide (var = type) &&
          (match prev with
           | none => true
           | some p => decide (p < value))
      if hit then some (some value)
      else databuf_get_loop junk mem len var prev fuel ((offset + (size + 8) % 2 ^ 32) % 2 ^ 32)
    else some none

/-- The function `databuf_get`: the payload found (`some none` is `NULL`). -/
def databuf_get (fuel : Nat) (junk : Nat → Nat) (p : Option Databuf) (var : Nat)
    (prev : Option Nat) : Option (Option Nat) :=
  match p with
  | none => some none
  | some b =>
    match b.buf with
    | none => some none
    | some mem => databuf_get_loop junk mem b.len var prev fuel 8

/-- The function `databuf_get_next_string`. -/
def databuf_get_next_string (fuel : Nat) (junk : Nat → Nat) (p : Option Databuf) (var : Nat)
    (prev : Option Nat) : Option (Option Nat) :=
  if var % 256 ≠ DT_STRING then some none
  else databuf_get fuel junk p var prev

/-- The function `databuf_get_string`. -/
def databuf_get_string (fuel : Nat) (junk : Nat → Nat) (p : Option Databuf) (var : Nat) :
    Option (Option Nat) :=
  databuf_get_next_string fuel junk p var none

/-- The block `buf->buf` of an envelope given by pointer; empty for `NULL`. -/
def bytes_of (p : Option Databuf) : List Nat :=
  match p with
  | some b => b.buf.getD []
  | none => []

/-- The function `databuf_get_next_uint`: the pointer returned and the content
of `*value` after the call. -/
def databuf_get_next_uint (fuel : Nat) (junk : Nat → Nat) (p : Option Databuf) (var : Nat)
    (value : Nat) (prev : Option Nat) : Option (Option Nat × Nat) :=
  if var % 256 ≠ DT_UINT then some (none, value)
  else
    match databuf_get fuel junk p var prev with
    | none => none
    | some none => some (none, value)
    | some (some buffer) => some (some buffer, rd32 junk (bytes_of p) buffer)

/-- The function `databuf_get_uint`. -/
def databuf_get_uint (fuel : Nat) (junk : Nat → Nat) (p : Option Databuf) (var : Nat)
    (value : Nat) : Option (Option Nat × Nat) :=
  databuf_get_next_uint fuel junk p var value none


/-! ## Reference definitions, from the specification -/

/-- The walk of the specification with exact arithmetic: from `offset` on, the
bytes split into fields (4-byte tag, 4-byte size, `size` payload bytes), each
inside the first `len` bytes, the last one ending at `len`. -/
def wire_fields_fit (junk : Nat → Nat) (mem : List Nat) (len : Nat) : Nat → Nat → Bool
  | 0, offset => decide (offset = len)
  | fuel + 1, offset =>
    if offset = len then true
    else if offset + 8 > len then false
    else
      let size := rd32 junk mem (offset + 4)
      if offset + 8 + size > len then false
      else wire_fields_fit junk mem len fuel (offset + 8 + size)

/-- The envelope a server holds after `databuf_set_buf` on a received block. -/
def received (buffer : List Nat) : Databuf :=
  databuf_set_buf (databuf_free { buf := none, size := 0, len := 0 }) (some buffer) buffer.length

/-- A 16-byte block: header (Raw, size 8), one field of tag 0x202 that declares
0xFFFFFFF0 payload bytes. -/
def wrap_accepted : List Nat := le32 1 ++ le32 8 ++ le32 0x202 ++ le32 0xFFFFFFF0

/-- A 16-byte block: header (Raw, size 8), one field of tag 0x202 that declares
0xFFFFFFF8 payload bytes. -/
def wrap_stuck : List Nat := le32 1 ++ le32 8 ++ le32 0x202 ++ le32 0xFFFFFFF8


/-! ## Envelopes built through the public interface -/

/-- One call of the public append interface, `databuf_add_uint` or
`databuf_add_string` (`none` is a NULL string). -/
inductive Append where
  | uint (var : Nat) (value : Nat)
  | string (var : Nat) (value : Option (List Nat))
deriving DecidableEq, Repr

/-- The call made on an envelope; the allocation succeeds. -/
def Append.run (b : Databuf) : Append → Databuf
  | Append.uint var value => databuf_add_uint true b var value
  | Append.string var value => databuf_add_string true b var value

/-- The envelope after a successful `databuf_init`. -/
def fresh : Databuf :=
  (databuf_init true { buf := none, size := 0, len := 0 }).2

/-- The envelope after `databuf_init` and the calls of `ops`, in order. -/
def build (ops : List Append) : Databuf :=
  ops.foldl Append.run fresh

/-- A field of the wire format: its 32-bit tag and its payload. -/
structure Field where
  tag : Nat
  payload : List Nat
deriving DecidableEq, Repr

/-- The field a call is meant to append: none when the low byte of the tag is
not the type of the call; a NULL string gives an empty payload. -/
def Append.field : Append → Option Field
  | Append.uint var value =>
    if var % 256 = DT_UINT then some { tag := var % 2 ^ 32, payload := le32 value } else none
  | Append.string var value =>
    if var % 256 = DT_STRING then
      some { tag := var % 2 ^ 32,
             payload := match value with
               | some s => cstring s
               | none => [] }
    else none

/-- The fields of a sequence of calls. -/
def fields (ops : List Append) : List Field :=
  ops.filterMap Append.field

/-- The bytes of a field on the wire: tag, size, payload. -/
def Field.wire (f : Field) : List Nat :=
  le32 f.tag ++ le32 f.payload.length ++ f.payload

/-- The bytes of a sequence of fields on the wire. -/
def wire : List Field → List Nat
  | [] => []
  | f :: fs => f.wire ++ wire fs

/-- The number of bytes of a sequence of fields on the wire. -/
def wire_length : List Field → Nat
  | [] => 0
  | f :: fs => 8 + f.payload.length + wire_length fs

/-- The length of the envelope that a sequence of calls describes: the header
and its fields. -/
def envelope_length (ops : List Append) : Nat :=
  8 + wire_length (fields ops)

/-- The fields of a sequence with the positions of their payloads, the first
field header standing at `offset`. -/
def layout : List Field → Nat → List (Nat × Field)
  | [], _ => []
  | f :: fs, offset => (offset + 8, f) :: layout fs (offset + 8 + f.payload.length)

/-- The test of the lookup on a field at its position: the tag is `var` and,
for a cursor that is not null, the payload lies strictly behind the cursor. -/
def lookup_hit (var : Nat) (prev : Option Nat) (e : Nat × Field) : Bool :=
  decide (e.2.tag = var) &&
    (match prev with
     | none => true
     | some p => decide (p < e.1))

/-- The lookup of the specification: the payload position of the first field, in
buffer order behind the header, that passes the test. -/
def find_field (fs : List Field) (var : Nat) (prev : Option Nat) : Option Nat :=
  ((layout fs 8).find? (lookup_hit var prev)).map Prod.fst

/-- The state of an envelope that holds the header and exactly the fields `fs`:
the header size field carries the low 32 bits of their length. -/
def Shaped (b : Databuf) (fs : List Field) : Prop :=
  b.buf = some (le32 DT_RAW ++ (le32 (wire_length fs) ++ wire fs)) ∧ b.len = 8 + wire_length fs

/-- The size field of the header, `((Data_var *) buf->buf)->size`. -/
def header_size (junk : Nat → Nat) (b : Databuf) : Nat :=
  match b.buf with
  | some mem => rd32 junk mem 4
  | none => 0

/-! ## mbim_enum.h -/

/-- Tag `MB_ERROR = ((1 << 8) | DT_STRING)`. -/
def MB_ERROR : Nat := 1 * 256 + DT_STRING

/-- Tag `MB_REQUEST = ((2 << 8) | DT_UINT)`. -/
def MB_REQUEST : Nat := 2 * 256 + DT_UINT

/-- Tag `MB_RESPONSE = ((3 << 8) | DT_UINT)`. -/
def MB_RESPONSE : Nat := 3 * 256 + DT_UINT

/-- Tag `MB_SESSION_TID = ((4 << 8) | DT_UINT)`. -/
def MB_SESSION_TID : Nat := 4 * 256 + DT_UINT

/-- Tag `MB_PROTOCOL = ((12 << 8) | DT_UINT)`. -/
def MB_PROTOCOL : Nat := 12 * 256 + DT_UINT

/-! ## Inputs used by the evaluations -/

/-- A string of 2^30 - 9 letters `A`: its field takes 2^30 bytes on the wire. -/
def long_string : List Nat := List.replicate (2 ^ 30 - 9) 65

/-- Five appends of `long_string` under `MB_ERROR`: 5 * 2^30 bytes of fields. -/
def large_ops : List Append :=
  [Append.string MB_ERROR (some long_string), Append.string MB_ERROR (some long_string),
   Append.string MB_ERROR (some long_string), Append.string MB_ERROR (some long_string),
   Append.string MB_ERROR (some long_string)]

/-- An append of a string, a call with a tag of the wrong type, an append of a
status and an append of a NULL string. -/
def sample_ops : List Append :=
  [Append.string MB_ERROR (some [83, 101, 114, 118, 101, 114]), Append.uint MB_ERROR 7,
   Append.uint MB_RESPONSE 1, Append.string MB_ERROR none]

/-- A string of 2^31 - 2 letters `A`: its payload takes 2^31 - 1 bytes. -/
def far_string : List Nat := List.replicate (2 ^ 31 - 2) 65

/-- An append of `far_string` under `MB_ERROR`, then `MB_RESPONSE = 1`. -/
def far_ops : List Append :=
  [Append.string MB_ERROR (some far_string), Append.uint MB_RESPONSE 1]

/-! ## The reader of the sample client -/

/-- The C string a `char *` into a block points to: the bytes before the first
NUL of the block. It is the string that the code reads when a NUL stands in
the block from `pos` on; a string that does not end inside the block goes on
in the memory behind it, which this definition leaves out. -/
def string_at (mem : List Nat) (pos : Nat) : List Nat :=
  ((mem.drop pos).map (fun c => c % 256)).takeWhile (fun c => c != 0)

/-- Up to `n` calls of `databuf_get_next_string` for one tag, the pointer returned
by a call being the cursor of the next one, as in `ip_state` of the sample
client: the string read at each pointer, and `none` for the call that returned
`NULL`, after which no call is made. -/
def get_next_strings (fuel : Nat) (junk : Nat → Nat) (p : Option Databuf) (var : Nat) :
    Nat → Option Nat → Option (List (Option (List Nat)))
  | 0, _ => some []
  | n + 1, prev =>
    match databuf_get_next_string fuel junk p var prev with
    | none => none
    | some none => some [none]
    | some (some pos) =>
      (get_next_strings fuel junk p var n (some pos)).map
        (fun rest => some (string_at (bytes_of p) pos) :: rest)

/-- Up to `n` calls of `databuf_get_next_uint` for one tag, the pointer returned
by a call being the cursor of the next one: the value stored by each call, and
`none` for the call that returned `NULL`, after which no call is made. -/
def get_next_uints (fuel : Nat) (junk : Nat → Nat) (p : Option Databuf) (var : Nat) :
    Nat → Option Nat → Option (List (Option Nat))
  | 0, _ => some []
  | n + 1, prev =>
    match databuf_get_next_uint fuel junk p var 0 prev with
    | none => none
    | some (none, _) => some [none]
    | some (some pos, value) =>
      (get_next_uints fuel junk p var n (some pos)).map (fun rest => some value :: rest)

/-- A value to encode: a `UInt32` or a string. -/
inductive Value where
  | uint (v : Nat)
  | string (s : List Nat)
deriving DecidableEq, Repr

/-- The append call that encodes a value under a tag. -/
def Value.append (tag : Nat) : Value → Append
  | Value.uint v => Append.uint tag v
  | Value.string s => Append.string tag (some s)

/-- The envelope built by `databuf_init` and one append for each (tag, value),
in list order. -/
def encode (vs : List (Nat × Value)) : Databuf :=
  build (vs.map fun e => e.2.append e.1)

/-- A (tag, value) with valid tag and type: the tag is a 32-bit value whose low
byte is the type of the value; a `UInt32` is below 2^32; the characters of a
string are bytes other than NUL. -/
def well_typed (e : Nat × Value) : Prop :=
  e.1 < 2 ^ 32 ∧
    (match e.2 with
     | Value.uint v => e.1 % 256 = DT_UINT ∧ v < 2 ^ 32
     | Value.string s => e.1 % 256 = DT_STRING ∧ ∀ c ∈ s, 0 < c ∧ c < 256)

/-- The strings given under a tag, in list order. -/
def strings_under (var : Nat) (vs : List (Nat × Value)) : List (List Nat) :=
  vs.filterMap fun e =>
    match e.2 with
    | Value.string s => if e.1 = var then some s else none
    | Value.uint _ => none

/-- The `UInt32` values given under a tag, in list order. -/
def uints_under (var : Nat) (vs : List (Nat × Value)) : List Nat :=
  vs.filterMap fun e =>
    match e.2 with
    | Value.uint v => if e.1 = var then some v else none
    | Value.string _ => none

/-- The field that encodes a (tag, value). -/
def to_field (e : Nat × Value) : Field :=
  match e.2 with
  | Value.uint v => { tag := e.1, payload := le32 v }
  | Value.string s => { tag := e.1, payload := s ++ [0] }

/-- Tag `MB_IPV4_NB = ((70 << 8) | DT_UINT)`. -/
def MB_IPV4_NB : Nat := 70 * 256 + DT_UINT

/-- Tag `MB_IPV4_ADDR = ((74 << 8) | DT_STRING)`. -/
def MB_IPV4_ADDR : Nat := 74 * 256 + DT_STRING

/-- A count and three addresses under one tag, as the IP request answers. -/
def sample_values : List (Nat × Value) :=
  [(MB_IPV4_NB, Value.uint 3), (MB_IPV4_ADDR, Value.string [49, 48]),
   (MB_IPV4_ADDR, Value.string [49, 49]), (MB_IPV4_ADDR, Value.string [49, 50])]

/-! ## mbim_enum.h, mbim.h -/

/-- Request type `MBIM_PIN_STATUS = 0` of `Mbim_req_type`. -/
def MBIM_PIN_STATUS : Nat := 0

/-- Request type `MBIM_PIN_ENTER` of `Mbim_req_type`. -/
def MBIM_PIN_ENTER : Nat := 1

/-- Request type `MBIM_SUBSCRIBER` of `Mbim_req_type`. -/
def MBIM_SUBSCRIBER : Nat := 2

/-- Request type `MBIM_REGISTER` of `Mbim_req_type`. -/
def MBIM_REGISTER : Nat := 3

/-- Request type `MBIM_ATTACH` of `Mbim_req_type`. -/
def MBIM_ATTACH : Nat := 4

/-- Request type `MBIM_CONNECT` of `Mbim_req_type`. -/
def MBIM_CONNECT : Nat := 5

/-- Request type `MBIM_IP` of `Mbim_req_type`. -/
def MBIM_IP : Nat := 6

/-- Request type `MBIM_STATUS` of `Mbim_req_type`. -/
def MBIM_STATUS : Nat := 7

/-- Request type `MBIM_DEVICE_CAPS` of `Mbim_req_type`. -/
def MBIM_DEVICE_CAPS : Nat := 8

/-- Request type `MBIM_PACKET_SERVICE` of `Mbim_req_type`. -/
def MBIM_PACKET_SERVICE : Nat := 9

/-- Request type `MBIM_SIGNAL` of `Mbim_req_type`. -/
def MBIM_SIGNAL : Nat := 10

/-- The last enumerator `MBIM_UNKOWN` of `Mbim_req_type`. -/
def MBIM_UNKOWN : Nat := 11

/-- Backend selector `MB_PROT_MBIM = 0` of `Mbim_protocol`. -/
def MB_PROT_MBIM : Nat := 0

/-- Backend selector `MB_PROT_QMI` of `Mbim_protocol`. -/
def MB_PROT_QMI : Nat := 1

/-- The last enumerator `MB_PROT_UNKOWN` of `Mbim_protocol`. -/
def MB_PROT_UNKOWN : Nat := 2

/-- Status `MBIM_OK = 0` of `Mbim_resp_status`. -/
def MBIM_OK : Nat := 0

/-- Status `MBIM_ERROR` of `Mbim_resp_status`. -/
def MBIM_ERROR : Nat := 1

/-- The struct `Mbim_request`. -/
structure Mbim_request where
  type : Nat
  proto : Nat
  tid : Nat
  user_data : Nat
  req : Databuf
  resp : Databuf
deriving DecidableEq, Repr

/-- The bytes of a string literal of the source, without the closing NUL. -/
def literal (s : String) : List Nat :=
  s.toList.map Char.toNat

/-! ## mbim.c, qmi.c: the entry points -/

/-- The function `set_error`, the same in `mbim.c` and `qmi.c`. -/
def set_error (alloc : Bool) (request : Mbim_request) (error : Option (List Nat)) :
    Mbim_request :=
  let resp := databuf_add_string alloc request.resp MB_ERROR error
  { request with resp := databuf_add_uint alloc resp MB_RESPONSE MBIM_ERROR }

/-- The function `mbim_perform_request` up to the creation of the device:
`access` tells whether the device file is readable. The result is the request
and whether the function went on to create the device and to run the main
loop; what the callbacks of that loop append is not part of this result. -/
def mbim_perform_request (access alloc : Bool) (request : Mbim_request) :
    Mbim_request × Bool :=
  if access = false then (set_error alloc request (some (literal "No mbim device file")), false)
  else (request, true)

/-- The function `qmi_perform_request` up to the creation of the device:
`access` tells whether the device file is readable. The result is the request
and whether the function went on to create the device and to run the main
loop; what the callbacks of that loop append is not part of this result. -/
def qmi_perform_request (access alloc : Bool) (request : Mbim_request) :
    Mbim_request × Bool :=
  if access = false then (set_error alloc request (some (literal "No qmi device file")), false)
  else if request.type = MBIM_PIN_STATUS ∨ request.type = MBIM_PIN_ENTER
      ∨ request.type = MBIM_REGISTER ∨ request.type = MBIM_PACKET_SERVICE
      ∨ request.type = MBIM_SIGNAL ∨ request.type = MBIM_CONNECT ∨ request.type = MBIM_IP
      ∨ request.type = MBIM_STATUS ∨ request.type = MBIM_ATTACH then (request, true)
  else (set_error alloc request (some (literal "Unsupported request")), false)

/-! ## nng_server.c -/

/-- The two backends. -/
inductive Backend where
  | mbim
  | qmi
deriving DecidableEq, Repr

/-- What `handle_request` has done when it returns: the request, the backend
it has invoked (none when it has invoked neither), and whether that backend
went on to create the device and to run its main loop, in which case the
response holds in addition what the callbacks of the loop have appended. -/
structure Handled where
  request : Mbim_request
  backend : Option Backend
  session : Bool
deriving DecidableEq, Repr

/-- The function `handle_request` of `nng_server.c`. -/
def handle_request (fuel : Nat) (junk : Nat → Nat) (access alloc : Bool)
    (request : Mbim_request) : Option Handled :=
  let r0 : Mbim_request := { request with type := MBIM_UNKOWN, proto := MB_PROT_UNKOWN }
  match databuf_is_valid fuel junk (some r0.req) with
  | none => none
  | some false =>
    let resp := databuf_add_string alloc r0.resp MB_ERROR (some (literal "Server : Invalid request"))
    some { request := { r0 with resp := databuf_add_uint alloc resp MB_RESPONSE MBIM_ERROR },
           backend := none, session := false }
  | some true =>
    match databuf_get_uint fuel junk (some r0.req) MB_REQUEST r0.type with
    | none => none
    | some g1 =>
      let r1 : Mbim_request := { r0 with type := g1.2 }
      if r1.type = MBIM_UNKOWN then
        let resp := databuf_add_string alloc r1.resp MB_ERROR
          (some (literal "Server : Unknown request"))
        some { request := { r1 with resp := databuf_add_uint alloc resp MB_RESPONSE MBIM_ERROR },
               backend := none, session := false }
      else
        match databuf_get_uint fuel junk (some r1.req) MB_PROTOCOL r1.proto with
        | none => none
        | some g2 =>
          let r2 : Mbim_request := { r1 with proto := g2.2 }
          if r2.proto = MB_PROT_UNKOWN then
            let resp := databuf_add_string alloc r2.resp MB_ERROR
              (some (literal "Server : Unknown protocol"))
            some { request :=
                     { r2 with resp := databuf_add_uint alloc resp MB_RESPONSE MBIM_ERROR },
                   backend := none, session := false }
          else
            let r3 : Mbim_request := { r2 with tid := 0 }
            match databuf_get_uint fuel junk (some r3.req) MB_SESSION_TID r3.tid with
            | none => none
            | some g3 =>
              let r4 : Mbim_request := { r3 with tid := g3.2 }
              if r4.proto = MB_PROT_MBIM then
                let m := mbim_perform_request access alloc r4
                some { request := m.1, backend := some Backend.mbim, session := m.2 }
              else
                let q := qmi_perform_request access alloc r4
                some { request := q.1, backend := some Backend.qmi, session := q.2 }

/-- The request as `rep_server_perform_request` hands it to `handle_request`:
the received block adopted with `databuf_set_buf`, the response set up by a
successful `databuf_init`. -/
def inbound (request : Mbim_request) (buffer : List Nat) : Mbim_request :=
  { request with
    req := databuf_set_buf request.req (some buffer) buffer.length,
    resp := (databuf_init true request.resp).2 }

/-- The response of a rejection: `MB_ERROR` with the message, then
`MB_RESPONSE = MBIM_ERROR`. -/
def error_response (message : List Nat) : Databuf :=
  build [Append.string MB_ERROR (some message), Append.uint MB_RESPONSE MBIM_ERROR]

/-- A letter in lower case. -/
def lower (c : Nat) : Nat :=
  if 65 ≤ c ∧ c ≤ 90 then c + 32 else c

/-- Whether a text contains a word, the case of the letters left aside. -/
def mentions (text word : List Nat) : Bool :=
  (text.map lower).tails.any fun t => (word.map lower).isPrefixOf t

/-- The request an envelope carries: request type and backend selector. -/
def request_envelope (type proto : Nat) : List Nat :=
  (encode [(MB_REQUEST, Value.uint type), (MB_PROTOCOL, Value.uint proto)]).buf.getD []

/-- A request structure between two requests, as `main` sets it up
(`Mbim_request request = {0}`). -/
def idle : Mbim_request :=
  { type := 0, proto := 0, tid := 0, user_data := 0,
    req := { buf := none, size := 0, len := 0 }, resp := { buf := none, size := 0, len := 0 } }

/-- What a client reads in a response, as `check_resp` of the sample client
does: the status `MBIM_ERROR` under `MB_RESPONSE` and the string `message`
under `MB_ERROR`. -/
def answers_error (fuel : Nat) (junk : Nat → Nat) (resp : Databuf) (message : List Nat) : Prop :=
  (∃ pos, databuf_get_uint fuel junk (some resp) MB_RESPONSE 0 = some (some pos, MBIM_ERROR))
    ∧ ∃ pos, databuf_get_string fuel junk (some resp) MB_ERROR = some (some pos)
        ∧ string_at (bytes_of (some resp)) pos = message

/-! ## mbim.c, qmi.c: the callbacks of a session -/

/-- Tag `MB_APN = ((5 << 8) | DT_STRING)`. -/
def MB_APN : Nat := 5 * 256 + DT_STRING

/-- Tag `MB_USERNAME = ((6 << 8) | DT_STRING)`. -/
def MB_USERNAME : Nat := 6 * 256 + DT_STRING

/-- Tag `MB_PASSWORD = ((7 << 8) | DT_STRING)`. -/
def MB_PASSWORD : Nat := 7 * 256 + DT_STRING

/-- Tag `MB_AUTH = ((8 << 8) | DT_UINT)`. -/
def MB_AUTH : Nat := 8 * 256 + DT_UINT

/-- Tag `MB_DEVICE = ((9 << 8) | DT_STRING)`. -/
def MB_DEVICE : Nat := 9 * 256 + DT_STRING

/-- Tag `MB_PIN_CODE = ((11 << 8) | DT_STRING)`. -/
def MB_PIN_CODE : Nat := 11 * 256 + DT_STRING

/-- Tag `MB_STATE_ACTIVATION = ((60 << 8) | DT_UINT)`. -/
def MB_STATE_ACTIVATION : Nat := 60 * 256 + DT_UINT

/-- Authentication `MBIM_AUTH_NONE = 0` of `Mbim_auth`. -/
def MBIM_AUTH_NONE : Nat := 0

/-- Authentication `MBIM_AUTH_PAP` of `Mbim_auth`. -/
def MBIM_AUTH_PAP : Nat := 1

/-- Authentication `MBIM_AUTH_CHAP` of `Mbim_auth`. -/
def MBIM_AUTH_CHAP : Nat := 2

/-- Authentication `MBIM_AUTH_MSCHAPV2` of `Mbim_auth`. -/
def MBIM_AUTH_MSCHAPV2 : Nat := 3

/-- The pattern of the `int` value -1. -/
def INT_MINUS_ONE : Nat := 2 ^ 32 - 1

/-- The message built for `mbim_device_command` in `device_open_ready` of
`mbim.c`, with the values taken from the request. -/
inductive Mbim_message where
  | pin_query
  | pin_set (pin_code : List Nat)
  | subscriber_ready_status_query
  | register_state_query
  | packet_service_set
  | connect_set (apn : List Nat) (username password : Option (List Nat)) (auth : Nat)
  | ip_configuration_query
  | connect_query
  | device_caps_query
  | packet_service_query
  | atds_signal_query
deriving DecidableEq, Repr

/-- The completion callbacks of `mbim.c`. -/
inductive Mbim_callback where
  | pin_ready
  | query_subscriber_ready_status_ready
  | register_state_ready
  | packet_service_ready
  | connect_ready
  | ip_configuration_query_ready
  | query_device_caps_ready
  | query_signal_ready
deriving DecidableEq, Repr

/-- The authentication preference set on a start-network input. -/
inductive Qmi_authentication where
  | pap
  | chap
deriving DecidableEq, Repr

/-- What `allocate_client_ready` of `qmi.c` has set on the start-network input
(none for a setter that was not called). -/
structure Start_network_input where
  apn : Option (List Nat)
  authentication_preference : Option Qmi_authentication
  username : Option (List Nat)
  password : Option (List Nat)
deriving DecidableEq, Repr

/-- The client command issued in `allocate_client_ready` of `qmi.c`. -/
inductive Qmi_call where
  | uim_get_card_status
  | uim_verify_pin (pin_code : List Nat)
  | nas_get_serving_system
  | wds_start_network (input : Start_network_input)
  | wds_get_current_settings
  | wds_get_packet_service_status
  | nas_get_signal_info
deriving DecidableEq, Repr

/-- The completion callbacks of `qmi.c`. -/
inductive Qmi_callback where
  | get_card_status_ready
  | verify_pin_ready
  | get_serving_system_ready
  | start_network_ready
  | get_current_settings_ready
  | get_packet_service_status_ready
  | get_signal_info_ready
deriving DecidableEq, Repr

/-- A call that a function of `mbim.c` or `qmi.c` makes on the device, the main
loop or the session. `user_data` tells whether the completion callback is
registered with the request (`false` for `NULL`). -/
inductive Event where
  | mbim_device_new
  | mbim_device_in_session (tid : Nat)
  | mbim_device_open_full (timeout : Nat)
  | mbim_device_command (message : Option Mbim_message) (timeout : Nat)
      (callback : Mbim_callback) (user_data : Bool)
  | mbim_close
  | qmi_device_new
  | qmi_device_open (timeout : Nat)
  | qmi_device_allocate_client (timeout : Nat)
  | g_release_cid (value : Bool)
  | qmi_client_command (call : Qmi_call) (timeout : Nat) (callback : Qmi_callback)
      (user_data : Bool)
  | operation_shutdown
  | g_idle_add
  | g_main_loop_quit
deriving DecidableEq, Repr

/-- What the libmbim calls of `device_new_ready` and `device_open_ready`
return: the message of the error for a call that fails, the path string of
the device. -/
structure Mbim_env where
  new_error : Option (List Nat)
  open_error : Option (List Nat)
  path : Option (List Nat)
  message_error : Option (List Nat)
deriving DecidableEq, Repr

/-- What the libqmi calls of `device_new_ready`, `device_open_ready` and
`allocate_client_ready` return: the message of the error for a call that
fails, the path string of the device. -/
structure Qmi_env where
  new_error : Option (List Nat)
  open_error : Option (List Nat)
  client_error : Option (List Nat)
  path : Option (List Nat)
  input_error : Option (List Nat)
deriving DecidableEq, Repr

/-- The string a pointer returned by `databuf_get_string` points to. -/
def request_string (request : Mbim_request) (pos : Option Nat) : Option (List Nat) :=
  pos.map fun p => string_at (bytes_of (some request.req)) p

/-- The function `device_new_ready` of `mbim.c`. -/
def Mbim.device_new_ready (alloc : Bool) (env : Mbim_env) (request : Mbim_request) :
    Mbim_request × List Event :=
  match env.new_error with
  | some message => (set_error alloc request (some message), [Event.g_main_loop_quit])
  | none =>
    if request.tid ≠ 0 then
      (request, [Event.mbim_device_in_session request.tid, Event.mbim_device_open_full 5])
    else (request, [Event.mbim_device_open_full 5])

/-- The end of `device_open_ready` of `mbim.c`, behind the `switch`: the
command is issued when `callback` is set, and an `error` left by a message
constructor is answered and followed by `mbim_close`. -/
def Mbim.device_open_end (alloc : Bool) (request : Mbim_request)
    (message : Option Mbim_message) (callback : Option Mbim_callback) (timeout : Nat)
    (error : Option (List Nat)) : Mbim_request × List Event :=
  let issued : List Event :=
    match callback with
    | some cb => [Event.mbim_device_command message timeout cb true]
    | none => []
  match error with
  | some text => (set_error alloc request (some text), issued ++ [Event.mbim_close])
  | none => (request, issued)

/-- The function `device_open_ready` of `mbim.c`. -/
def Mbim.device_open_ready (fuel : Nat) (junk : Nat → Nat) (alloc : Bool) (env : Mbim_env)
    (request : Mbim_request) : Option (Mbim_request × List Event) :=
  match env.open_error with
  | some text => some (set_error alloc request (some text), [Event.g_main_loop_quit])
  | none =>
    let r1 : Mbim_request :=
      { request with
        resp := databuf_add_string alloc request.resp MB_DEVICE env.path, user_data := 0 }
    if r1.type = MBIM_PIN_STATUS then
      some (Mbim.device_open_end alloc r1 (some Mbim_message.pin_query)
        (some Mbim_callback.pin_ready) 40 none)
    else if r1.type = MBIM_PIN_ENTER then
      match databuf_get_string fuel junk (some r1.req) MB_PIN_CODE with
      | none => none
      | some none =>
        some (Mbim.device_open_end alloc
          (set_error alloc r1 (some (literal "You must provide a pin code (MB_PIN_CODE)")))
          none none 40 none)
      | some (some pos) =>
        match env.message_error with
        | some text => some (Mbim.device_open_end alloc r1 none none 40 (some text))
        | none =>
          some (Mbim.device_open_end alloc { r1 with user_data := 1 }
            (some (Mbim_message.pin_set (string_at (bytes_of (some r1.req)) pos)))
            (some Mbim_callback.pin_ready) 40 none)
    else if r1.type = MBIM_SUBSCRIBER then
      some (Mbim.device_open_end alloc r1 (some Mbim_message.subscriber_ready_status_query)
        (some Mbim_callback.query_subscriber_ready_status_ready) 40 none)
    else if r1.type = MBIM_REGISTER then
      some (Mbim.device_open_end alloc r1 (some Mbim_message.register_state_query)
        (some Mbim_callback.register_state_ready) 40 none)
    else if r1.type = MBIM_ATTACH then
      match env.message_error with
      | some text => some (Mbim.device_open_end alloc r1 none none 40 (some text))
      | none =>
        some (Mbim.device_open_end alloc r1 (some Mbim_message.packet_service_set)
          (some Mbim_callback.packet_service_ready) 120 none)
    else if r1.type = MBIM_CONNECT then
      match databuf_get_string fuel junk (some r1.req) MB_APN with
      | none => none
      | some none =>
        some (Mbim.device_open_end alloc
          (set_error alloc r1 (some (literal "You must provide an APN (MB_APN)")))
          none none 40 none)
      | some (some apn) =>
        match databuf_get_uint fuel junk (some r1.req) MB_AUTH INT_MINUS_ONE with
        | none => none
        | some a =>
          if a.2 = INT_MINUS_ONE then
            some (Mbim.device_open_end alloc
              (set_error alloc r1 (some (literal "You must provide a auth protocol (MB_AUTH)")))
              none none 40 none)
          else
            match databuf_get_string fuel junk (some r1.req) MB_USERNAME,
              databuf_get_string fuel junk (some r1.req) MB_PASSWORD with
            | some username, some password =>
              match env.message_error with
              | some text => some (Mbim.device_open_end alloc r1 none none 40 (some text))
              | none =>
                some (Mbim.device_open_end alloc r1
                  (some (Mbim_message.connect_set (string_at (bytes_of (some r1.req)) apn)
                    (request_string r1 username) (request_string r1 password) a.2))
                  (some Mbim_callback.connect_ready) 120 none)
            | _, _ => none
    else if r1.type = MBIM_IP then
      match env.message_error with
      | some text => some (Mbim.device_open_end alloc r1 none none 40 (some text))
      | none =>
        some (Mbim.device_open_end alloc r1 (some Mbim_message.ip_configuration_query)
          (some Mbim_callback.ip_configuration_query_ready) 60 none)
    else if r1.type = MBIM_STATUS then
      match env.message_error with
      | some text => some (Mbim.device_open_end alloc r1 none none 40 (some text))
      | none =>
        some (Mbim.device_open_end alloc { r1 with user_data := 1 }
          (some Mbim_message.connect_query) (some Mbim_callback.connect_ready) 40 none)
    else if r1.type = MBIM_DEVICE_CAPS then
      some (Mbim.device_open_end alloc r1 (some Mbim_message.device_caps_query)
        (some Mbim_callback.query_device_caps_ready) 40 none)
    else if r1.type = MBIM_PACKET_SERVICE then
      some (Mbim.device_open_end alloc r1 (some Mbim_message.packet_service_query)
        (some Mbim_callback.packet_service_ready) 40 none)
    else if r1.type = MBIM_SIGNAL then
      some (Mbim.device_open_end alloc r1 (some Mbim_message.atds_signal_query)
        (some Mbim_callback.query_signal_ready) 40 none)
    else some (Mbim.device_open_end alloc r1 none none 40 none)

/-- The device path `MBIM_NNG_DEVICE`, by default "/dev/cdc-wdm0". -/
def MBIM_NNG_DEVICE : List Nat := literal "/dev/cdc-wdm0"

/-- The function `device_new_ready` of `qmi.c`. -/
def Qmi.device_new_ready (alloc : Bool) (env : Qmi_env) (request : Mbim_request) :
    Mbim_request × List Event :=
  match env.new_error with
  | some text => (set_error alloc request (some text), [Event.g_main_loop_quit])
  | none => (request, [Event.qmi_device_open 15])

/-- The function `device_open_ready` of `qmi.c`. -/
def Qmi.device_open_ready (alloc : Bool) (env : Qmi_env) (request : Mbim_request) :
    Mbim_request × List Event :=
  match env.open_error with
  | some _ => (request, [])
  | none =>
    if request.type = MBIM_ATTACH then
      ({ request with
         resp := databuf_add_string alloc request.resp MB_DEVICE (some MBIM_NNG_DEVICE) },
       [Event.g_idle_add])
    else (request, [Event.qmi_device_allocate_client 10])

/-- The username that the two `qmi_message_wds_start_network_input_set_username`
calls of `allocate_client_ready` leave on the input: each call is made for a
string that is present and not empty, the second one with the password. -/
def start_network_username (username password : Option (List Nat)) : Option (List Nat) :=
  let first : Option (List Nat) :=
    match username with
    | some u => if u ≠ [] then some u else none
    | none => none
  match password with
  | some p => if p ≠ [] then some p else first
  | none => first

/-- The authentication preference that the `switch (auth)` of
`allocate_client_ready` sets. -/
def start_network_authentication (auth : Nat) : Option Qmi_authentication :=
  if auth = MBIM_AUTH_PAP then some Qmi_authentication.pap
  else if auth = MBIM_AUTH_CHAP ∨ auth = MBIM_AUTH_MSCHAPV2 then some Qmi_authentication.chap
  else none

/-- The function `allocate_client_ready` of `qmi.c`. -/
def Qmi.allocate_client_ready (fuel : Nat) (junk : Nat → Nat) (alloc : Bool) (env : Qmi_env)
    (request : Mbim_request) : Option (Mbim_request × List Event) :=
  match env.client_error with
  | some text =>
    some (set_error alloc request (some text),
      [Event.g_release_cid true, Event.g_main_loop_quit])
  | none =>
    let r1 : Mbim_request :=
      { request with resp := databuf_add_string alloc request.resp MB_DEVICE env.path }
    if r1.type = MBIM_PIN_STATUS then
      some (r1, [Event.g_release_cid true,
        Event.qmi_client_command Qmi_call.uim_get_card_status 10
          Qmi_callback.get_card_status_ready true])
    else if r1.type = MBIM_PIN_ENTER then
      match databuf_get_string fuel junk (some r1.req) MB_PIN_CODE with
      | none => none
      | some none =>
        some (set_error alloc r1 (some (literal "You must provide a pin code (MB_PIN_CODE)")),
          [Event.g_release_cid true])
      | some (some pos) =>
        match env.input_error with
        | some text =>
          some (set_error alloc r1 (some text),
            [Event.g_release_cid true, Event.operation_shutdown])
        | none =>
          some (r1, [Event.g_release_cid true,
            Event.qmi_client_command
              (Qmi_call.uim_verify_pin (string_at (bytes_of (some r1.req)) pos)) 10
              Qmi_callback.verify_pin_ready true])
    else if r1.type = MBIM_REGISTER ∨ r1.type = MBIM_PACKET_SERVICE then
      some (r1, [Event.g_release_cid true,
        Event.qmi_client_command Qmi_call.nas_get_serving_system 10
          Qmi_callback.get_serving_system_ready true])
    else if r1.type = MBIM_CONNECT then
      match databuf_get_string fuel junk (some r1.req) MB_APN with
      | none => none
      | some none =>
        some (set_error alloc r1 (some (literal "You must provide an APN (MB_APN)")),
          [Event.g_release_cid true, Event.g_release_cid false])
      | some (some apn) =>
        match databuf_get_uint fuel junk (some r1.req) MB_AUTH INT_MINUS_ONE with
        | none => none
        | some a =>
          if a.2 = INT_MINUS_ONE then
            some (set_error alloc r1
                (some (literal "You must provide a auth protocol (MB_AUTH)")),
              [Event.g_release_cid true, Event.g_release_cid false])
          else
            match databuf_get_string fuel junk (some r1.req) MB_USERNAME,
              databuf_get_string fuel junk (some r1.req) MB_PASSWORD with
            | some username, some password =>
              some (r1, [Event.g_release_cid true, Event.g_release_cid false,
                Event.qmi_client_command
                  (Qmi_call.wds_start_network
                    { apn := some (string_at (bytes_of (some r1.req)) apn),
                      authentication_preference := start_network_authentication a.2,
                      username := start_network_username (request_string r1 username)
                        (request_string r1 password),
                      password := none })
                  180 Qmi_callback.start_network_ready true])
            | _, _ => none
    else if r1.type = MBIM_IP then
      some (r1, [Event.g_release_cid true,
        Event.qmi_client_command Qmi_call.wds_get_current_settings 10
          Qmi_callback.get_current_settings_ready true])
    else if r1.type = MBIM_STATUS then
      some (r1, [Event.g_release_cid true,
        Event.qmi_client_command Qmi_call.wds_get_packet_service_status 10
          Qmi_callback.get_packet_service_status_ready true])
    else if r1.type = MBIM_SIGNAL then
      some (r1, [Event.g_release_cid true,
        Event.qmi_client_command Qmi_call.nas_get_signal_info 10
          Qmi_callback.get_signal_info_ready false])
    else some (r1, [Event.g_release_cid true])

/-- The function `get_packet_service_status_ready` of `qmi.c`: `finish_error`
and `result_error` are the messages of the errors of the two library calls
that can fail, `status` is the connection status of the output. -/
def Qmi.get_packet_service_status_ready (alloc : Bool) (finish_error result_error : Option (List Nat))
    (status : Nat) (request : Mbim_request) : Mbim_request × List Event :=
  match finish_error with
  | some text => (set_error alloc request (some text), [])
  | none =>
    match result_error with
    | some text => (set_error alloc request (some text), [])
    | none =>
      let resp := databuf_add_uint alloc request.resp MB_RESPONSE MBIM_OK
      ({ request with resp := databuf_add_uint alloc resp MB_STATE_ACTIVATION status },
       [Event.operation_shutdown])

/-! ## The main loop up to the dispatch of the command -/

/-- The calls made from `mbim_device_new` in `mbim_perform_request` to the
return of `device_open_ready`, the main loop running the completion callback
of each call that was made: `device_new_ready` for `mbim_device_new`,
`device_open_ready` for `mbim_device_open_full`. -/
def Mbim.g_main_loop_run (fuel : Nat) (junk : Nat → Nat) (alloc : Bool) (env : Mbim_env)
    (request : Mbim_request) : Option (Mbim_request × List Event) :=
  let n := Mbim.device_new_ready alloc env request
  match env.new_error with
  | some _ => some (n.1, Event.mbim_device_new :: n.2)
  | none =>
    match Mbim.device_open_ready fuel junk alloc env n.1 with
    | none => none
    | some o => some (o.1, Event.mbim_device_new :: (n.2 ++ o.2))

/-- The calls made from `qmi_device_new` in `qmi_perform_request` to the return
of `allocate_client_ready`, the main loop running the completion callback of
each call that was made: `device_new_ready` for `qmi_device_new`,
`device_open_ready` for `qmi_device_open`, `allocate_client_ready` for
`qmi_device_allocate_client`. -/
def Qmi.g_main_loop_run (fuel : Nat) (junk : Nat → Nat) (alloc : Bool) (env : Qmi_env)
    (request : Mbim_request) : Option (Mbim_request × List Event) :=
  let n := Qmi.device_new_ready alloc env request
  match env.new_error with
  | some _ => some (n.1, Event.qmi_device_new :: n.2)
  | none =>
    let o := Qmi.device_open_ready alloc env n.1
    if o.2 = [Event.qmi_device_allocate_client 10] then
      match Qmi.allocate_client_ready fuel junk alloc env o.1 with
      | none => none
      | some a => some (a.1, Event.qmi_device_new :: (n.2 ++ o.2 ++ a.2))
    else some (o.1, Event.qmi_device_new :: (n.2 ++ o.2))

/-- The calls that the backend invoked by `handle_request` makes when it has
gone on to create the device. -/
def session_events (fuel : Nat) (junk : Nat → Nat) (alloc : Bool) (menv : Mbim_env)
    (qenv : Qmi_env) (h : Handled) : Option (Mbim_request × List Event) :=
  if h.session = false then some (h.request, [])
  else
    match h.backend with
    | some Backend.mbim => Mbim.g_main_loop_run fuel junk alloc menv h.request
    | some Backend.qmi => Qmi.g_main_loop_run fuel junk alloc qenv h.request
    | none => some (h.request, [])

/-- A device that is created and opened without an error, under the default
path. -/
def ready_mbim : Mbim_env :=
  { new_error := none, open_error := none, path := some MBIM_NNG_DEVICE, message_error := none }

/-- A device that is created and opened and a client that is allocated without
an error, under the default path. -/
def ready_qmi : Qmi_env :=
  { new_error := none, open_error := none, client_error := none, path := some MBIM_NNG_DEVICE,
    input_error := none }

/-! ## Inputs used by the evaluations of a session -/

/-- The request structure for a received CONNECT envelope that carries the
request type and the backend selector only. -/
def connect_request (proto : Nat) : Mbim_request :=
  inbound idle (request_envelope MBIM_CONNECT proto)

/-- A STATUS envelope for the MBIM backend with two `MB_SESSION_TID` fields,
7 then 9. -/
def tid_envelope : List Nat :=
  (encode [(MB_REQUEST, Value.uint MBIM_STATUS), (MB_PROTOCOL, Value.uint MB_PROT_MBIM),
    (MB_SESSION_TID, Value.uint 7), (MB_SESSION_TID, Value.uint 9)]).buf.getD []

/-- A request structure in which an earlier request has left the transaction
id 99. -/
def stale : Mbim_request :=
  { idle with tid := 99 }

/-- A string of 2^32 + 4 letters `A`. -/
def huge_string : List Nat := List.replicate (2 ^ 32 + 4) 65

/-! ## mbim.c: the completion callback of the PIN commands -/

/-- Tag `MB_PIN_STATUS = ((10 << 8) | DT_UINT)`. -/
def MB_PIN_STATUS : Nat := 10 * 256 + DT_UINT

/-- Status `MBIM_PIN_UNLOCK = 0` of `Mbim_pin_status`. -/
def MBIM_PIN_UNLOCK : Nat := 0

/-- Status `MBIM_PIN_LOCK` of `Mbim_pin_status`. -/
def MBIM_PIN_LOCK : Nat := 1

/-- Enumerator `MBIM_PIN_TYPE_PIN1` of `MbimPinType` (libmbim). -/
def MBIM_PIN_TYPE_PIN1 : Nat := 2

/-- Enumerator `MBIM_PIN_TYPE_PIN2` of `MbimPinType` (libmbim). -/
def MBIM_PIN_TYPE_PIN2 : Nat := 3

/-- Enumerator `MBIM_PIN_STATE_UNLOCKED` of `MbimPinState` (libmbim). -/
def MBIM_PIN_STATE_UNLOCKED : Nat := 0

/-- The function `pin_ready` of `mbim.c`: `finish_error` is the message of the
error when `mbim_device_command_finish` or `mbim_message_response_get_result`
fails, `parse_error` the one when `mbim_message_pin_response_parse` fails,
`pin_type` and `pin_state` are what the parsed response reports. -/
def Mbim.pin_ready (alloc : Bool) (finish_error parse_error : Option (List Nat))
    (pin_type pin_state : Nat) (request : Mbim_request) : Mbim_request × List Event :=
  match finish_error with
  | some text =>
    if request.user_data ≠ 0 then
      (set_error alloc request (some (literal "Unlock SIM failed")), [Event.mbim_close])
    else (set_error alloc request (some text), [Event.mbim_close])
  | none =>
    match parse_error with
    | some _ =>
      (set_error alloc request (some (literal "Couldn't parse response message")),
        [Event.mbim_close])
    | none =>
      if pin_state = MBIM_PIN_STATE_UNLOCKED ∨ pin_type = MBIM_PIN_TYPE_PIN2 then
        let resp := databuf_add_uint alloc request.resp MB_PIN_STATUS MBIM_PIN_UNLOCK
        ({ request with resp := databuf_add_uint alloc resp MB_RESPONSE MBIM_OK },
          [Event.mbim_close])
      else if pin_type ≠ MBIM_PIN_TYPE_PIN1 then
        (set_error alloc request (some (literal "Only PIN1 is supported")), [Event.mbim_close])
      else
        let resp := databuf_add_uint alloc request.resp MB_PIN_STATUS MBIM_PIN_LOCK
        ({ request with resp := databuf_add_uint alloc resp MB_RESPONSE MBIM_OK },
          [Event.mbim_close])

/-- The timeouts passed with the commands of a list of calls. -/
def command_timeouts (events : List Event) : List Nat :=
  events.filterMap fun e =>
    match e with
    | Event.mbim_device_command _ timeout _ _ => some timeout
    | Event.qmi_client_command _ timeout _ _ => some timeout
    | _ => none

/-- The contexts with which the completion callbacks of the commands of a list
of calls are registered (`false` for `NULL`). -/
def command_contexts (events : List Event) : List Bool :=
  events.filterMap fun e =>
    match e with
    | Event.mbim_device_command _ _ _ user_data => some user_data
    | Event.qmi_client_command _ _ _ user_data => some user_data
    | _ => none

/-- The start-network inputs handed to the backend in a list of calls. -/
def start_network_inputs (events : List Event) : List Start_network_input :=
  events.filterMap fun e =>
    match e with
    | Event.qmi_client_command (Qmi_call.wds_start_network input) _ _ _ => some input
    | _ => none

/-! ## nng_server.c: the socket and the service loop -/

/-- The number of attempts, `#define NODE_BIND_RETRIES 3`. -/
def NODE_BIND_RETRIES : Nat := 3

/-- The base delay, `#define NODE_RETRY_SLEEP 200 * 1000`. -/
def NODE_RETRY_SLEEP : Nat := 200 * 1000

/-- Error code `NNG_EAGAIN` of `enum nng_errno_enum` (nng). -/
def NNG_EAGAIN : Nat := 8

/-- A call that a function of `nng_server.c` makes on the socket or the clock. -/
inductive Server_call where
  | nng_rep0_open
  | nng_listen
  | nng_close
  | sleep_us (time_us : Nat)
  | nng_send (buf : Option (List Nat)) (len : Nat)
deriving DecidableEq, Repr

/-- What one attempt to open and bind the socket meets. -/
inductive Server_open where
  | opened
  | open_failed
  | listen_failed
deriving DecidableEq, Repr

/-- The function `server_open`. -/
def server_open : Server_open → Bool × List Server_call
  | Server_open.opened => (true, [Server_call.nng_rep0_open, Server_call.nng_listen])
  | Server_open.open_failed => (false, [Server_call.nng_rep0_open])
  | Server_open.listen_failed =>
    (false, [Server_call.nng_rep0_open, Server_call.nng_listen, Server_call.nng_close])

/-- The loop `while (retry < NODE_BIND_RETRIES)` of `rep_server_open`, entered
with `retry`; `outcome k` is what the attempt made after `k` failures meets. -/
def rep_server_open_loop (outcome : Nat → Server_open) (retry : Nat) :
    Bool × List Server_call :=
  if retry < NODE_BIND_RETRIES then
    let s := server_open (outcome retry)
    if s.1 = true then (true, s.2)
    else
      let r := rep_server_open_loop outcome (retry + 1)
      (r.1, s.2 ++ [Server_call.sleep_us (NODE_RETRY_SLEEP * (retry + 1))] ++ r.2)
  else (false, [])
termination_by NODE_BIND_RETRIES - retry
decreasing_by simp only [NODE_BIND_RETRIES] at *; omega

/-- The function `rep_server_open`: the value returned and the calls made. -/
def rep_server_open (outcome : Nat → Server_open) : Bool × List Server_call :=
  rep_server_open_loop outcome 0

/-- The number of attempts to open the socket in a list of calls. -/
def open_attempts (calls : List Server_call) : Nat :=
  calls.count Server_call.nng_rep0_open

/-- The delays slept in a list of calls, in order. -/
def delays (calls : List Server_call) : List Nat :=
  calls.filterMap fun c =>
    match c with
    | Server_call.sleep_us t => some t
    | _ => none

/-- The function `rep_server_perform_request`: the value returned, the request
structure and the calls made; `none` when it does not return. `ret` and
`buf` are what `nng_recv` returns, `calloc` tells whether the allocation in
`databuf_init` succeeds, `send` is what `nng_send` returns, and `loop` gives
the request as the backend leaves it when its main loop returns (`none` when
the main loop does not return). -/
def rep_server_perform_request (fuel : Nat) (junk : Nat → Nat) (access calloc alloc : Bool)
    (loop : Handled → Option Mbim_request) (ret : Nat) (buf : List Nat) (_send : Nat)
    (request : Mbim_request) : Option (Bool × Mbim_request × List Server_call) :=
  if ret = NNG_EAGAIN then some (true, request, [Server_call.sleep_us (100 * 1000)])
  else if ret ≠ 0 then some (false, request, [Server_call.nng_close])
  else
    let r1 : Mbim_request :=
      { request with req := databuf_set_buf request.req (some buf) buf.length }
    let r2 : Mbim_request := { r1 with resp := (databuf_init calloc r1.resp).2 }
    match handle_request fuel junk access alloc r2 with
    | none => none
    | some h =>
      match (if h.session = true then loop h else some h.request) with
      | none => none
      | some r3 =>
        some (true, { r3 with req := databuf_free r3.req, resp := databuf_free r3.resp },
          [Server_call.nng_send r3.resp.buf r3.resp.len])

/-! ## Inputs used by the evaluations of the reads and of the QMI session -/

/-- A 16-byte block: header (Raw, size 8), one field of tag `MB_REQUEST` that
declares no payload byte. -/
def short_uint : List Nat := le32 DT_RAW ++ le32 8 ++ le32 MB_REQUEST ++ le32 0

/-- An 18-byte block: header (Raw, size 10), one field of tag `MB_APN` whose
payload is the two letters `AB`, without a NUL. -/
def open_string : List Nat := le32 DT_RAW ++ le32 10 ++ le32 MB_APN ++ le32 2 ++ [65, 66]

/-- A CONNECT envelope for the QMI backend with the APN "a", the authentication
protocol PAP, the user name "u" and the password "p". -/
def credentials_envelope : List Nat :=
  (encode [(MB_REQUEST, Value.uint MBIM_CONNECT), (MB_PROTOCOL, Value.uint MB_PROT_QMI),
    (MB_APN, Value.string [97]), (MB_AUTH, Value.uint MBIM_AUTH_PAP),
    (MB_USERNAME, Value.string [117]), (MB_PASSWORD, Value.string [112])]).buf.getD []

/-- A QMI device that is created and then fails to open. -/
def closed_qmi : Qmi_env :=
  { new_error := none, open_error := some (literal "endpoint hangup"), client_error := none,
    path := some MBIM_NNG_DEVICE, input_error := none }

/-- Attempts to open the socket of which the second is the first to succeed. -/
def second_attempt : Nat → Server_open :=
  fun k => if k = 1 then Server_open.opened else Server_open.listen_failed

/-- The request structure that `handle_request` hands to the backend for
`credentials_envelope`. -/
def credentials_request : Mbim_request :=
  { inbound idle credentials_envelope with type := MBIM_CONNECT, proto := MB_PROT_QMI }

/-- The request structure that `handle_request` hands to the backend for an IP
envelope that carries the request type and the backend selector only. -/
def ip_request : Mbim_request :=
  { inbound idle (request_envelope MBIM_IP MB_PROT_QMI) with
    type := MBIM_IP, proto := MB_PROT_QMI }

/-- The request structure of a PIN_STATUS request on the MBIM backend when the
PIN query completes: `device_open_ready` has appended the path of the device
to the response. -/
def pin_request : Mbim_request :=
  { inbound idle (request_envelope MBIM_PIN_STATUS MB_PROT_MBIM) with
    type := MBIM_PIN_STATUS, proto := MB_PROT_MBIM,
    resp := databuf_add_string true fresh MB_DEVICE (some MBIM_NNG_DEVICE) }

/-- The length that a call of the append interface passes to `databuf_add`,
converted from `int` to `size_t` for a string. -/
def Append.len : Append → Nat
  | Append.uint _ _ => 4
  | Append.string _ (some s) => size_of_int (int_of_size (strlen s + 1))
  | Append.string _ none => 0

/-! ## Inputs used by the evaluations of the transaction id -/

/-- A request of 50 bytes: header (Raw, size 42), `MB_REQUEST = MBIM_STATUS`,
`MB_PROTOCOL = MB_PROT_MBIM`, a field `MB_SESSION_TID` that declares the two
payload bytes 7 and 0, and an empty field `MB_APN`. -/
def short_tid_envelope : List Nat :=
  le32 DT_RAW ++ le32 42 ++ (le32 MB_REQUEST ++ le32 4 ++ le32 MBIM_STATUS)
    ++ (le32 MB_PROTOCOL ++ le32 4 ++ le32 MB_PROT_MBIM)
    ++ (le32 MB_SESSION_TID ++ le32 2 ++ [7, 0]) ++ (le32 MB_APN ++ le32 0)

/-- The appends of a request whose field `MB_SESSION_TID` follows a string of
2^31 - 2 letters. -/
def far_tid_ops : List Append :=
  [Append.uint MB_REQUEST MBIM_STATUS, Append.uint MB_PROTOCOL MB_PROT_MBIM,
   Append.string MB_APN (some far_string), Append.uint MB_SESSION_TID 7]

/-- The bytes of the request built by `far_tid_ops`. -/
def far_tid_envelope : List Nat :=
  (build far_tid_ops).buf.getD []

/-! ## Inputs used by the evaluations of a lookup behind 2^32 bytes -/

/-- A string of 2^31 - 30 letters `A`. -/
def wrap_string_a : List Nat := List.replicate (2 ^ 31 - 30) 65

/-- A string of 2^31 - 8 letters `A`. -/
def wrap_string_b : List Nat := List.replicate (2 ^ 31 - 8) 65

/-- Four appends that build an envelope of 2^32 + 16 bytes: a `UInt32` whose
value is the number `MB_ERROR`, two long strings of which the second one ends
at offset 2^32, and a string of seven letters. -/
def wrap_ops : List Append :=
  [Append.uint MB_RESPONSE MB_ERROR, Append.string MB_APN (some wrap_string_a),
   Append.string MB_APN (some wrap_string_b), Append.string MB_APN (some (List.replicate 7 65))]
/-! ## The validation walk -/

theorem databuf_is_valid_loop_done (junk : Nat → Nat) (mem : List Nat) (len fuel offset : Nat)
    (h : int_lt_size offset len = false) :
    databuf_is_valid_loop junk mem len fuel offset = some true := by
  cases fuel <;> simp [databuf_is_valid_loop, h]

theorem databuf_is_valid_loop_next (junk : Nat → Nat) (mem : List Nat)
    (len fuel offset size next : Nat) (hlt : int_lt_size offset len = true)
    (hsize : rd32 junk mem (offset + 4) = size) (hfit : (size + offset + 8) % 2 ^ 32 ≤ len)
    (hnext : (offset + (8 + size) % 2 ^ 32) % 2 ^ 32 = next) :
    databuf_is_valid_loop junk mem len (fuel + 1) offset
      = databuf_is_valid_loop junk mem len fuel next := by
  subst hsize hnext
  simp only [databuf_is_valid_loop, hlt, if_true]
  rw [if_neg (Nat.not_lt.mpr hfit)]

theorem databuf_is_valid_some (junk : Nat → Nat) (b : Databuf) (mem : List Nat) (fuel : Nat)
    (hb : b.buf = some mem) (hlen : 8 ≤ b.len) (htype : rd32 junk mem 0 % 256 = DT_RAW)
    (hsize : rd32 junk mem 4 = b.len - 8) :
    databuf_is_valid fuel junk (some b) = databuf_is_valid_loop junk mem b.len fuel 8 := by
  simp only [databuf_is_valid, hb]
  rw [if_neg (by omega), if_neg (by simp [htype, hsize])]

theorem wrap_accepted_bytes :
    wrap_accepted = [1, 0, 0, 0, 8, 0, 0, 0, 2, 2, 0, 0, 240, 255, 255, 255] := by decide

theorem wrap_stuck_bytes :
    wrap_stuck = [1, 0, 0, 0, 8, 0, 0, 0, 2, 2, 0, 0, 248, 255, 255, 255] := by decide

/-- C1 (code evaluated at the failing input): `databuf_is_valid` returns true on
the 16-byte block `wrap_accepted`, whose only field, at offset 8, declares
0xFFFFFFF0 payload bytes, so that 8 + 8 + size exceeds the length 16 and the
bytes after the header do not split into fields that fit. -/
theorem databuf_is_valid_accepts_overrun (fuel : Nat) (junk : Nat → Nat) :
    databuf_is_valid (fuel + 2) junk (some (received wrap_accepted)) = some true
      ∧ rd32 junk wrap_accepted (8 + 4) = 0xFFFFFFF0
      ∧ 8 + 8 + 0xFFFFFFF0 > (received wrap_accepted).len
      ∧ wire_fields_fit junk wrap_accepted 16 (fuel + 1) 8 = false := by
  have hr : rd32 junk wrap_accepted (8 + 4) = 0xFFFFFFF0 := by
    simp only [wrap_accepted_bytes, rd32, peek, List.getD_cons_succ, List.getD_cons_zero]
  have hh : rd32 junk wrap_accepted (0 + 4) = 8 := by
    simp only [wrap_accepted_bytes, rd32, peek, List.getD_cons_succ, List.getD_cons_zero]
  have ht : rd32 junk wrap_accepted 0 = 1 := by
    simp only [wrap_accepted_bytes, rd32, peek, List.getD_cons_succ, List.getD_cons_zero]
  have hl : (received wrap_accepted).len = 16 := by decide
  refine ⟨?_, hr, by rw [hl]; decide, ?_⟩
  · rw [databuf_is_valid_some junk _ wrap_accepted _ rfl (by rw [hl]; decide)
      (by rw [ht]; decide) (by rw [hl]; exact hh), hl,
      databuf_is_valid_loop_next junk _ 16 (fuel + 1) 8 0xFFFFFFF0 0 (by decide) hr (by decide)
        (by decide),
      databuf_is_valid_loop_next junk _ 16 fuel 0 8 16 (by decide) hh (by decide) (by decide)]
    exact databuf_is_valid_loop_done _ _ _ _ _ (by decide)
  · simp only [wire_fields_fit]
    rw [if_neg (by decide), if_neg (by decide), hr, if_pos (by decide)]

/-- C2 (code evaluated at the failing input): on the 16-byte block `wrap_stuck`
the walk of `databuf_is_valid` has the offset 8 again after an iteration, and
the function returns neither true nor false, whatever number of iterations it
is given. -/
theorem databuf_is_valid_never_returns (fuel : Nat) (junk : Nat → Nat) :
    (8 + (8 + rd32 junk wrap_stuck (8 + 4)) % 2 ^ 32) % 2 ^ 32 = 8
      ∧ databuf_is_valid fuel junk (some (received wrap_stuck)) = none := by
  have hr : rd32 junk wrap_stuck (8 + 4) = 0xFFFFFFF8 := by
    simp only [wrap_stuck_bytes, rd32, peek, List.getD_cons_succ, List.getD_cons_zero]
  have hh : rd32 junk wrap_stuck 4 = 8 := by
    simp only [wrap_stuck_bytes, rd32, peek, List.getD_cons_succ, List.getD_cons_zero]
  have ht : rd32 junk wrap_stuck 0 = 1 := by
    simp only [wrap_stuck_bytes, rd32, peek, List.getD_cons_succ, List.getD_cons_zero]
  have hl : (received wrap_stuck).len = 16 := by decide
  have hloop : ∀ f, databuf_is_valid_loop junk wrap_stuck 16 f 8 = none := by
    intro f
    induction f with
    | zero =>
      simp only [databuf_is_valid_loop]
      rw [if_pos (by decide)]
    | succ n ih =>
      rw [databuf_is_valid_loop_next junk _ 16 n 8 0xFFFFFFF8 8 (by decide) hr (by decide)
        (by decide)]
      exact ih
  refine ⟨by rw [hr]; decide, ?_⟩
  rw [databuf_is_valid_some junk _ wrap_stuck _ rfl (by rw [hl]; decide)
      (by rw [ht]; decide) (by rw [hl]; exact hh), hl]
  exact hloop fuel

/-- C5: `databuf_is_valid` returns false for a null envelope, a null buffer, a
buffer shorter than the 8-byte field header (the empty one included), a header
whose tag has a low byte other than Raw (1), and a header whose size field
differs from the buffer length minus 8. -/
theorem databuf_is_valid_rejects_header (fuel : Nat) (junk : Nat → Nat) (p : Option Databuf)
    (h : p = none ∨ ∃ b, p = some b ∧
      (b.buf = none ∨ b.len = 0 ∨ b.len < 8 ∨ ∃ mem, b.buf = some mem ∧
        (rd32 junk mem 0 % 256 ≠ DT_RAW ∨ rd32 junk mem 4 ≠ b.len - 8))) :
    databuf_is_valid fuel junk p = some false := by
  rcases h with rfl | ⟨b, rfl, h⟩
  · rfl
  · rcases hb : b.buf with _ | mem
    · simp only [databuf_is_valid, hb]
    · simp only [databuf_is_valid, hb]
      by_cases hlen : b.len < 8
      · rw [if_pos hlen]
      · rw [if_neg hlen]
        rcases h with h | h | h | ⟨mem', hm, h⟩
        · simp [hb] at h
        · omega
        · omega
        · rw [hb] at hm
          cases hm
          rcases h with h | h
          · rw [if_pos (Or.inr h)]
          · rw [if_pos (Or.inl h)]

theorem databuf_is_valid_rejects_header_witness :
    databuf_is_valid 5 (fun _ => 0) (some (received [1, 0, 0, 0, 7, 0, 0, 0, 2, 2])) = some false :=
  databuf_is_valid_rejects_header 5 (fun _ => 0) (some (received [1, 0, 0, 0, 7, 0, 0, 0, 2, 2]))
    (Or.inr ⟨received [1, 0, 0, 0, 7, 0, 0, 0, 2, 2], rfl,
      Or.inr (Or.inr (Or.inr ⟨[1, 0, 0, 0, 7, 0, 0, 0, 2, 2], rfl, Or.inr (by decide)⟩))⟩)


/-! ## Loads and stores -/

theorem le32_length (v : Nat) : (le32 v).length = 4 := rfl

theorem peek_append_right (junk : Nat → Nat) (pre l : List Nat) (k : Nat) :
    peek junk (pre ++ l) (pre.length + k) = l.getD k (junk (pre.length + k)) % 256 := by
  unfold peek
  rw [List.getD_append_right _ _ _ _ (Nat.le_add_right _ _), Nat.add_sub_cancel_left]

theorem rd32_append_le32 (junk : Nat → Nat) (pre rest : List Nat) (v i : Nat)
    (hi : i = pre.length) : rd32 junk (pre ++ (le32 v ++ rest)) i = v % 2 ^ 32 := by
  subst hi
  unfold rd32
  have h0 := peek_append_right junk pre (le32 v ++ rest) 0
  rw [Nat.add_zero] at h0
  rw [h0, peek_append_right, peek_append_right, peek_append_right]
  simp only [le32, List.cons_append, List.getD_cons_succ, List.getD_cons_zero]
  omega

theorem store_end (mem data : List Nat) (off : Nat) (h : off = mem.length) :
    store mem off data = mem ++ data := by
  subst h
  unfold store
  rw [List.take_length, List.drop_eq_nil_of_le (Nat.le_add_right _ _), List.append_nil]

theorem store_le32 (pre rest : List Nat) (v w off : Nat) (h : off = pre.length) :
    store (pre ++ (le32 v ++ rest)) off (le32 w) = pre ++ (le32 w ++ rest) := by
  subst h
  unfold store
  rw [List.take_left, le32_length, ← le32_length v, ← List.length_append, ← List.append_assoc,
    List.drop_left, List.append_assoc]

theorem fetch_all (obj : List Nat) (len : Nat) (h : len = obj.length) : fetch obj len = obj := by
  subst h
  unfold fetch
  rw [List.take_length, Nat.sub_self, List.replicate_zero, List.append_nil]

theorem le32_congr (a b : Nat) (h : a % 2 ^ 32 = b % 2 ^ 32) : le32 a = le32 b := by
  unfold le32
  have h0 : a % 256 = b % 256 := by omega
  have h1 : a / 256 % 256 = b / 256 % 256 := by omega
  have h2 : a / 65536 % 256 = b / 65536 % 256 := by omega
  have h3 : a / 16777216 % 256 = b / 16777216 % 256 := by omega
  rw [h0, h1, h2, h3]

/-! ## The shape of a built envelope -/

theorem wire_length_eq (fs : List Field) : (wire fs).length = wire_length fs := by
  induction fs with
  | nil => rfl
  | cons f fs ih =>
    simp only [wire, wire_length, Field.wire, List.length_append, le32_length, ih]

theorem wire_append (fs gs : List Field) : wire (fs ++ gs) = wire fs ++ wire gs := by
  induction fs with
  | nil => rfl
  | cons f fs ih =>
    show f.wire ++ wire (fs ++ gs) = f.wire ++ wire fs ++ wire gs
    rw [ih, List.append_assoc]

theorem wire_length_append (fs gs : List Field) :
    wire_length (fs ++ gs) = wire_length fs + wire_length gs := by
  induction fs with
  | nil => simp only [List.nil_append, wire_length, Nat.zero_add]
  | cons f fs ih =>
    show 8 + f.payload.length + wire_length (fs ++ gs) = 8 + f.payload.length + wire_length fs + _
    rw [ih]
    omega

theorem shaped_length (b : Databuf) (fs : List Field) (mem : List Nat)
    (h : Shaped b fs) (hm : b.buf = some mem) : mem.length = b.len := by
  obtain ⟨h1, h2⟩ := h
  rw [h1] at hm
  cases hm
  simp only [List.length_append, le32_length, wire_length_eq, h2]
  omega

theorem shaped_snoc (b : Databuf) (fs : List Field) (var len size : Nat) (payload : List Nat)
    (_h1 : b.buf = some (le32 DT_RAW ++ (le32 (wire_length fs) ++ wire fs)))
    (h2 : b.len = 8 + wire_length fs) (hl : len = payload.length) :
    Shaped
      { buf := some (store (le32 DT_RAW ++ (le32 (wire_length fs) ++
            (wire fs ++ (le32 var ++ le32 len ++ payload)))) 4
          (le32 ((rd32 (fun _ => 0) (le32 DT_RAW ++ (le32 (wire_length fs) ++
            (wire fs ++ (le32 var ++ le32 len ++ payload)))) 4 + (len + 8)) % 2 ^ 32))),
        size := size, len := b.len + 8 + len }
      (fs ++ [{ tag := var % 2 ^ 32, payload := payload }]) := by
  subst hl
  constructor
  · show some _ = some _
    rw [rd32_append_le32 _ _ _ _ _ (le32_length _).symm,
      store_le32 _ _ _ _ _ (le32_length _).symm, wire_append, wire_length_append]
    simp only [wire, wire_length, Field.wire, List.append_nil]
    rw [le32_congr ((wire_length fs % 2 ^ 32 + (payload.length + 8)) % 2 ^ 32)
      (wire_length fs + (8 + payload.length + 0)) (by omega),
      le32_congr (var % 2 ^ 32) var (by omega)]
  · show b.len + 8 + payload.length = _
    simp only [wire_length_append, wire_length]
    omega

theorem databuf_add_shaped (b : Databuf) (fs : List Field) (var len : Nat)
    (value : Option (List Nat)) (payload : List Nat) (h : Shaped b fs)
    (hv : (value = some payload ∧ 0 < len ∧ len = payload.length)
      ∨ (value = none ∧ len = 0 ∧ payload = [])) :
    Shaped (databuf_add true b var value len).1
      (fs ++ [{ tag := var % 2 ^ 32, payload := payload }]) := by
  obtain ⟨h1, h2⟩ := h
  have hlen : b.len = (le32 DT_RAW ++ (le32 (wire_length fs) ++ wire fs)).length := by
    simp only [List.length_append, le32_length, wire_length_eq, h2]
    omega
  have hr : (if (b.len + len + 8) % 2 ^ 64 > b.size
      then databuf_realloc true b ((b.len + len + 8) % 2 ^ 64) else (true, b)).1 = true := by
    split <;> simp only [databuf_realloc, if_true]
  have e1 : store (le32 DT_RAW ++ (le32 (wire_length fs) ++ wire fs)) b.len
      (le32 var ++ le32 len)
      = le32 DT_RAW ++ (le32 (wire_length fs) ++ wire fs) ++ (le32 var ++ le32 len) :=
    store_end _ _ _ hlen
  unfold databuf_add
  rcases hv with ⟨rfl, hpos, hl⟩ | ⟨rfl, rfl, rfl⟩
  · have e2 : store (le32 DT_RAW ++ (le32 (wire_length fs) ++ wire fs) ++ (le32 var ++ le32 len))
        (b.len + 8) (fetch payload len)
        = le32 DT_RAW ++ (le32 (wire_length fs) ++ wire fs) ++ (le32 var ++ le32 len)
          ++ payload := by
      rw [fetch_all _ _ hl]
      exact store_end _ _ _ (by simp only [List.length_append, le32_length] at hlen ⊢; omega)
    simp only [h1, hr, hpos, if_true, Bool.true_eq_false, if_false, e1, e2]
    have := shaped_snoc b fs var len
      (if (b.len + len + 8) % 2 ^ 64 > b.size
        then databuf_realloc true b ((b.len + len + 8) % 2 ^ 64) else (true, b)).2.size
      payload h1 h2 hl
    simpa only [List.append_assoc] using this
  · simp only [h1, hr, Bool.true_eq_false, if_false, e1]
    have := shaped_snoc b fs var 0
      (if (b.len + 0 + 8) % 2 ^ 64 > b.size
        then databuf_realloc true b ((b.len + 0 + 8) % 2 ^ 64) else (true, b)).2.size
      [] h1 h2 rfl
    simpa only [List.append_assoc, List.append_nil, Nat.add_zero] using this

theorem size_of_int_of_size (n : Nat) (h : n < 2 ^ 31) : size_of_int (int_of_size n) = n := by
  unfold size_of_int int_of_size
  have h1 : n % 2 ^ 32 = n := Nat.mod_eq_of_lt (by omega)
  rw [h1, if_pos h]

theorem cstring_length (s : List Nat) : (cstring s).length = strlen s + 1 := by
  simp only [cstring, strlen, List.length_append, List.length_singleton]

theorem run_skip (b : Databuf) (op : Append) (hf : op.field = none) : op.run b = b := by
  cases op with
  | uint var value =>
    simp only [Append.field] at hf
    simp only [Append.run, databuf_add_uint]
    split at hf
    · cases hf
    · rw [if_pos (by assumption)]
  | string var value =>
    simp only [Append.field] at hf
    simp only [Append.run, databuf_add_string]
    split at hf
    · cases hf
    · rw [if_pos (by assumption)]

theorem run_shaped (b : Databuf) (fs : List Field) (op : Append) (f : Field) (h : Shaped b fs)
    (hf : op.field = some f) (hs : f.payload.length < 2 ^ 31) :
    Shaped (op.run b) (fs ++ [f]) := by
  cases op with
  | uint var value =>
    simp only [Append.field] at hf
    split at hf
    · cases hf
      simp only [Append.run, databuf_add_uint]
      rw [if_neg (by simpa using ‹var % 256 = DT_UINT›)]
      exact databuf_add_shaped b fs var 4 _ (le32 value) h (Or.inl ⟨rfl, by decide, rfl⟩)
    · cases hf
  | string var value =>
    simp only [Append.field] at hf
    split at hf
    · cases hf
      simp only [Append.run, databuf_add_string]
      rw [if_neg (by simpa using ‹var % 256 = DT_STRING›)]
      cases value with
      | none =>
        exact databuf_add_shaped b fs var _ _ [] h (Or.inr ⟨rfl, by decide, rfl⟩)
      | some s =>
        simp only [cstring_length] at hs
        simp only [size_of_int_of_size _ hs, Option.map_some']
        exact databuf_add_shaped b fs var _ _ (cstring s) h
          (Or.inl ⟨rfl, Nat.succ_pos _, (cstring_length s).symm⟩)
    · cases hf

theorem fresh_shaped : Shaped fresh [] := ⟨rfl, rfl⟩

theorem build_snoc (ops : List Append) (op : Append) :
    build (ops ++ [op]) = op.run (build ops) := by
  simp only [build, List.foldl_append, List.foldl_cons, List.foldl_nil]

theorem fields_snoc (ops : List Append) (op : Append) :
    fields (ops ++ [op]) = fields ops ++ (match op.field with
      | some f => [f]
      | none => []) := by
  simp only [fields, List.filterMap_append, List.filterMap_cons, List.filterMap_nil]
  cases op.field <;> rfl

theorem build_shaped (ops : List Append)
    (h : ∀ f ∈ fields ops, f.payload.length < 2 ^ 31) : Shaped (build ops) (fields ops) := by
  induction ops using List.reverseRecOn with
  | nil => exact fresh_shaped
  | append_singleton ops op ih =>
    rw [fields_snoc] at h ⊢
    rw [build_snoc]
    have ih1 := ih (fun f hf => h f (List.mem_append_left _ hf))
    cases hop : op.field with
    | none =>
      rw [run_skip _ _ hop]
      simpa only [List.append_nil] using ih1
    | some f =>
      rw [hop] at h
      exact run_shaped _ _ _ _ ih1 hop (h f (List.mem_append_right _ (List.mem_singleton_self f)))

/-! ## Validation of a built envelope -/

theorem int_lt_size_of_lt (offset len : Nat) (h1 : offset < len) (h2 : offset < 2 ^ 31) :
    int_lt_size offset len = true := by
  unfold int_lt_size size_of_int
  rw [if_pos h2]
  exact decide_eq_true h1

theorem int_lt_size_of_le (offset len : Nat) (h : len ≤ offset) :
    int_lt_size offset len = false := by
  unfold int_lt_size size_of_int
  apply decide_eq_false
  split <;> omega

theorem databuf_is_valid_loop_wire (junk : Nat → Nat) (fs : List Field) :
    ∀ (pre : List Nat) (fuel : Nat), fs.length ≤ fuel → (pre ++ wire fs).length < 2 ^ 31 →
      databuf_is_valid_loop junk (pre ++ wire fs) (pre ++ wire fs).length fuel pre.length
        = some true := by
  induction fs with
  | nil =>
    intro pre fuel _ _
    exact databuf_is_valid_loop_done _ _ _ _ _
      (int_lt_size_of_le _ _ (by simp only [wire, List.append_nil, Nat.le_refl]))
  | cons f fs ih =>
    intro pre fuel hfuel hlen
    obtain ⟨n, rfl⟩ : ∃ n, fuel = n + 1 := ⟨fuel - 1, by simp only [List.length_cons] at hfuel; omega⟩
    have hlen' : pre.length + (8 + f.payload.length) + (wire fs).length < 2 ^ 31 := by
      simp only [wire, Field.wire, List.length_append, le32_length] at hlen
      omega
    have hmem : pre ++ wire (f :: fs)
        = (pre ++ le32 f.tag) ++ (le32 f.payload.length ++ (f.payload ++ wire fs)) := by
      simp only [wire, Field.wire, List.append_assoc]
    have hmem2 : pre ++ wire (f :: fs) = (pre ++ f.wire) ++ wire fs := by
      simp only [wire, List.append_assoc]
    have hsize : rd32 junk (pre ++ wire (f :: fs)) (pre.length + 4) = f.payload.length := by
      rw [hmem, rd32_append_le32 _ _ _ _ _ (by simp only [List.length_append, le32_length])]
      exact Nat.mod_eq_of_lt (by omega)
    have htot : (pre ++ wire (f :: fs)).length
        = pre.length + (8 + f.payload.length) + (wire fs).length := by
      simp only [wire, Field.wire, List.length_append, le32_length]
      omega
    rw [databuf_is_valid_loop_next junk _ _ n pre.length f.payload.length (pre ++ f.wire).length
      (int_lt_size_of_lt _ _ (by omega) (by omega)) hsize (by omega)
      (by simp only [Field.wire, List.length_append, le32_length]; omega), hmem2]
    have := ih (pre ++ f.wire) n (by simp only [List.length_cons] at hfuel; omega)
      (by rw [← hmem2]; exact hlen)
    exact this

theorem rd32_header_type (junk : Nat → Nat) (v : Nat) (rest : List Nat) :
    rd32 junk (le32 v ++ rest) 0 = v % 2 ^ 32 :=
  rd32_append_le32 junk [] rest v 0 rfl

theorem rd32_header_size (junk : Nat → Nat) (t v : Nat) (rest : List Nat) :
    rd32 junk (le32 t ++ (le32 v ++ rest)) 4 = v % 2 ^ 32 :=
  rd32_append_le32 junk (le32 t) rest v 4 rfl

theorem databuf_is_valid_shaped (junk : Nat → Nat) (b : Databuf) (fs : List Field) (fuel : Nat)
    (h : Shaped b fs) (hlen : b.len < 2 ^ 31) (hfuel : fs.length ≤ fuel) :
    databuf_is_valid fuel junk (some b) = some true := by
  obtain ⟨h1, h2⟩ := h
  rw [databuf_is_valid_some junk b (le32 DT_RAW ++ (le32 (wire_length fs) ++ wire fs)) fuel h1
    (by omega) (by rw [rd32_header_type]; rfl)
    (by rw [rd32_header_size, h2]; omega)]
  have hl : ((le32 DT_RAW ++ le32 (wire_length fs)) ++ wire fs).length = b.len := by
    simp only [List.length_append, le32_length, wire_length_eq, h2]
  have := databuf_is_valid_loop_wire junk fs (le32 DT_RAW ++ le32 (wire_length fs)) fuel hfuel
    (by rw [hl]; exact hlen)
  rw [hl] at this
  simpa only [List.append_assoc] using this

theorem payload_le_wire_length (fs : List Field) (f : Field) (h : f ∈ fs) :
    8 + f.payload.length ≤ wire_length fs := by
  induction fs with
  | nil => cases h
  | cons g gs ih =>
    simp only [wire_length]
    rcases List.mem_cons.mp h with rfl | h
    · omega
    · have := ih h
      omega

theorem build_shaped_of_length (ops : List Append) (h : envelope_length ops < 2 ^ 31) :
    Shaped (build ops) (fields ops) := by
  apply build_shaped
  intro f hf
  have := payload_le_wire_length _ _ hf
  unfold envelope_length at h
  omega

theorem fields_length_le (ops : List Append) : (fields ops).length ≤ ops.length :=
  List.length_filterMap_le _ _

theorem databuf_is_valid_shaped_large (junk : Nat → Nat) (b : Databuf) (fs : List Field)
    (fuel : Nat) (h : Shaped b fs) (hbig : 2 ^ 32 ≤ wire_length fs) :
    databuf_is_valid fuel junk (some b) = some false := by
  obtain ⟨h1, h2⟩ := h
  simp only [databuf_is_valid, h1]
  rw [if_neg (by omega), if_pos (Or.inl (by rw [rd32_header_size, h2]; omega))]

theorem header_size_shaped (junk : Nat → Nat) (b : Databuf) (fs : List Field)
    (h : Shaped b fs) : header_size junk b = wire_length fs % 2 ^ 32 := by
  obtain ⟨h1, _⟩ := h
  simp only [header_size, h1, rd32_header_size]

theorem strlen_replicate (n c : Nat) (hc : (c % 256 != 0) = true) :
    strlen (List.replicate n c) = n := by
  unfold strlen
  rw [List.takeWhile_replicate, if_pos hc, List.length_replicate]

theorem long_string_length : (cstring long_string).length = 2 ^ 30 - 8 := by
  rw [cstring_length, long_string, strlen_replicate _ _ (by decide)]
  norm_num

theorem fields_large_ops : fields large_ops =
    [{ tag := MB_ERROR % 2 ^ 32, payload := cstring long_string },
     { tag := MB_ERROR % 2 ^ 32, payload := cstring long_string },
     { tag := MB_ERROR % 2 ^ 32, payload := cstring long_string },
     { tag := MB_ERROR % 2 ^ 32, payload := cstring long_string },
     { tag := MB_ERROR % 2 ^ 32, payload := cstring long_string }] := by
  have h : MB_ERROR % 256 = DT_STRING := by decide
  simp only [large_ops, fields, List.filterMap_cons, List.filterMap_nil, Append.field, h, if_true]

theorem wire_length_five (t : Nat) (p : List Nat) (hp : p.length = 2 ^ 30 - 8) :
    wire_length [{ tag := t, payload := p }, { tag := t, payload := p },
      { tag := t, payload := p }, { tag := t, payload := p }, { tag := t, payload := p }]
      = 5 * 2 ^ 30 := by
  simp only [wire_length, hp]
  omega

theorem wire_length_large_ops : wire_length (fields large_ops) = 5 * 2 ^ 30 := by
  rw [fields_large_ops]
  exact wire_length_five _ _ long_string_length

theorem large_ops_shaped : Shaped (build large_ops) (fields large_ops) := by
  apply build_shaped
  intro f hf
  rw [fields_large_ops] at hf
  simp only [List.mem_cons, List.mem_singleton, List.not_mem_nil, or_false, or_self] at hf
  rw [hf]
  show (cstring long_string).length < 2 ^ 31
  rw [long_string_length]
  decide

theorem int_lt_size_of_neg (offset len : Nat) (h1 : 2 ^ 31 ≤ offset) (h2 : len < 2 ^ 63) :
    int_lt_size offset len = false := by
  unfold int_lt_size size_of_int
  apply decide_eq_false
  split <;> omega

theorem databuf_is_valid_loop_wide (junk : Nat → Nat) (fs : List Field) :
    ∀ (pre : List Nat) (fuel : Nat), fs.length ≤ fuel → (pre ++ wire fs).length < 2 ^ 32 →
      databuf_is_valid_loop junk (pre ++ wire fs) (pre ++ wire fs).length fuel pre.length
        = some true := by
  induction fs with
  | nil =>
    intro pre fuel _ _
    exact databuf_is_valid_loop_done _ _ _ _ _
      (int_lt_size_of_le _ _ (by simp only [wire, List.append_nil, Nat.le_refl]))
  | cons f fs ih =>
    intro pre fuel hfuel hlen
    by_cases hpre : pre.length < 2 ^ 31
    · obtain ⟨n, rfl⟩ : ∃ n, fuel = n + 1 :=
        ⟨fuel - 1, by simp only [List.length_cons] at hfuel; omega⟩
      have hlen' : pre.length + (8 + f.payload.length) + (wire fs).length < 2 ^ 32 := by
        simp only [wire, Field.wire, List.length_append, le32_length] at hlen
        omega
      have hmem : pre ++ wire (f :: fs)
          = (pre ++ le32 f.tag) ++ (le32 f.payload.length ++ (f.payload ++ wire fs)) := by
        simp only [wire, Field.wire, List.append_assoc]
      have hmem2 : pre ++ wire (f :: fs) = (pre ++ f.wire) ++ wire fs := by
        simp only [wire, List.append_assoc]
      have hsize : rd32 junk (pre ++ wire (f :: fs)) (pre.length + 4) = f.payload.length := by
        rw [hmem, rd32_append_le32 _ _ _ _ _ (by simp only [List.length_append, le32_length])]
        exact Nat.mod_eq_of_lt (by omega)
      have htot : (pre ++ wire (f :: fs)).length
          = pre.length + (8 + f.payload.length) + (wire fs).length := by
        simp only [wire, Field.wire, List.length_append, le32_length]
        omega
      rw [databuf_is_valid_loop_next junk _ _ n pre.length f.payload.length (pre ++ f.wire).length
        (int_lt_size_of_lt _ _ (by omega) hpre) hsize (by omega)
        (by simp only [Field.wire, List.length_append, le32_length]; omega), hmem2]
      have := ih (pre ++ f.wire) n (by simp only [List.length_cons] at hfuel; omega)
        (by rw [← hmem2]; exact hlen)
      exact this
    · exact databuf_is_valid_loop_done _ _ _ _ _
        (int_lt_size_of_neg _ _ (by omega) (by omega))

theorem databuf_is_valid_shaped_wide (junk : Nat → Nat) (b : Databuf) (fs : List Field)
    (fuel : Nat) (h : Shaped b fs) (hlen : b.len < 2 ^ 32) (hfuel : fs.length ≤ fuel) :
    databuf_is_valid fuel junk (some b) = some true := by
  obtain ⟨h1, h2⟩ := h
  rw [databuf_is_valid_some junk b (le32 DT_RAW ++ (le32 (wire_length fs) ++ wire fs)) fuel h1
    (by omega) (by rw [rd32_header_type]; rfl)
    (by rw [rd32_header_size, h2]; omega)]
  have hl : ((le32 DT_RAW ++ le32 (wire_length fs)) ++ wire fs).length = b.len := by
    simp only [List.length_append, le32_length, wire_length_eq, h2]
  have := databuf_is_valid_loop_wide junk fs (le32 DT_RAW ++ le32 (wire_length fs)) fuel hfuel
    (by rw [hl]; exact hlen)
  rw [hl] at this
  simpa only [List.append_assoc] using this

theorem far_string_length : (cstring far_string).length = 2 ^ 31 - 1 := by
  rw [cstring_length, far_string, strlen_replicate _ _ (by decide)]
  norm_num

theorem fields_far_ops : fields far_ops =
    [{ tag := MB_ERROR, payload := cstring far_string },
     { tag := MB_RESPONSE, payload := le32 1 }] := by
  have h1 : MB_ERROR % 256 = DT_STRING := by decide
  have h2 : MB_RESPONSE % 256 = DT_UINT := by decide
  have h3 : MB_ERROR % 2 ^ 32 = MB_ERROR := by decide
  have h4 : MB_RESPONSE % 2 ^ 32 = MB_RESPONSE := by decide
  simp only [far_ops, fields, List.filterMap_cons, List.filterMap_nil, Append.field, h1, h2, h3,
    h4, if_true]

theorem far_ops_shaped : Shaped (build far_ops) (fields far_ops) := by
  apply build_shaped
  intro f hf
  rw [fields_far_ops] at hf
  simp only [List.mem_cons, List.mem_singleton, List.not_mem_nil, or_false] at hf
  rcases hf with rfl | rfl
  · show (cstring far_string).length < 2 ^ 31
    rw [far_string_length]
    decide
  · decide

theorem far_ops_payload : ∀ f ∈ fields far_ops, f.payload.length < 2 ^ 31 := by
  intro f hf
  rw [fields_far_ops] at hf
  simp only [List.mem_cons, List.mem_singleton, List.not_mem_nil, or_false] at hf
  rcases hf with rfl | rfl
  · show (cstring far_string).length < 2 ^ 31
    rw [far_string_length]
    decide
  · decide

theorem wire_length_far (t v : Nat) (p q : List Nat) (hp : p.length = 2 ^ 31 - 1)
    (hq : q.length = 4) :
    wire_length [{ tag := t, payload := p }, { tag := v, payload := q }] = 2 ^ 31 + 19 := by
  simp only [wire_length, hp, hq]
  omega

theorem wire_length_far_ops : wire_length (fields far_ops) = 2 ^ 31 + 19 := by
  rw [fields_far_ops]
  exact wire_length_far MB_ERROR MB_RESPONSE (cstring far_string) (le32 1) far_string_length rfl

theorem envelope_length_eq (ops : List Append) (n : Nat) (h : wire_length (fields ops) = n) :
    envelope_length ops = 8 + n := by
  unfold envelope_length
  rw [h]

theorem envelope_length_far_ops : envelope_length far_ops = 2 ^ 31 + 27 :=
  (envelope_length_eq far_ops _ wire_length_far_ops).trans (by norm_num)

/-- C4 (amended): every envelope produced by `databuf_init` and a finite
sequence of `databuf_add_uint` / `databuf_add_string` calls, with matching or
mismatching tags and the allocations succeeding, each string shorter than
2^31 - 1 characters, is accepted by `databuf_is_valid` when its header and
fields take fewer than 2^32 bytes, `databuf_is_valid` returning once it may
run one iteration for each call; it is rejected when its header and fields
take 2^32 + 8 bytes or more. -/
theorem built_envelope_is_valid (junk : Nat → Nat) (ops : List Append) (fuel : Nat)
    (hpay : ∀ f ∈ fields ops, f.payload.length < 2 ^ 31) (hfuel : ops.length ≤ fuel) :
    (envelope_length ops < 2 ^ 32 →
        databuf_is_valid fuel junk (some (build ops)) = some true)
      ∧ (2 ^ 32 + 8 ≤ envelope_length ops →
        databuf_is_valid fuel junk (some (build ops)) = some false) := by
  have hs := build_shaped ops hpay
  constructor
  · intro hlen
    have hl : (build ops).len < 2 ^ 32 := by
      rw [hs.2]
      exact hlen
    exact databuf_is_valid_shaped_wide junk _ _ fuel hs hl
      (Nat.le_trans (fields_length_le ops) hfuel)
  · intro hlen
    unfold envelope_length at hlen
    exact databuf_is_valid_shaped_large junk _ _ fuel hs (by omega)

theorem built_envelope_is_valid_witness :
    databuf_is_valid 4 (fun _ => 0) (some (build sample_ops)) = some true
      ∧ envelope_length far_ops = 2 ^ 31 + 27
      ∧ databuf_is_valid 2 (fun _ => 0) (some (build far_ops)) = some true :=
  ⟨(built_envelope_is_valid (fun _ => 0) sample_ops 4 (by decide) (by decide)).1 (by decide),
    envelope_length_far_ops,
    (built_envelope_is_valid (fun _ => 0) far_ops 2 far_ops_payload (by decide)).1
      (by rw [envelope_length_far_ops]; norm_num)⟩

/-- C4 (counterexample): the envelope built by `databuf_init` and five appends
of a string of 2^30 - 9 letters holds 5 * 2^30 bytes of fields, and
`databuf_is_valid` returns false on it. -/
theorem large_envelope_is_rejected :
    databuf_is_valid 5 (fun _ => 0) (some (build large_ops)) = some false :=
  databuf_is_valid_shaped_large _ _ _ _ large_ops_shaped
    (by rw [wire_length_large_ops]; norm_num)

theorem envelope_length_snoc (ops : List Append) (op : Append) :
    envelope_length (ops ++ [op]) = envelope_length ops + wire_length (match op.field with
      | some f => [f]
      | none => []) := by
  unfold envelope_length
  rw [fields_snoc, wire_length_append]
  omega

theorem fields_far_more : fields (far_ops ++ [Append.uint MB_RESPONSE 2]) =
    [{ tag := MB_ERROR, payload := cstring far_string },
     { tag := MB_RESPONSE, payload := le32 1 }, { tag := MB_RESPONSE, payload := le32 2 }] := by
  rw [fields_snoc, fields_far_ops]
  rfl

theorem far_more_payload :
    ∀ f ∈ fields (far_ops ++ [Append.uint MB_RESPONSE 2]), f.payload.length < 2 ^ 31 := by
  intro f hf
  rw [fields_far_more] at hf
  simp only [List.mem_cons, List.mem_singleton, List.not_mem_nil, or_false] at hf
  rcases hf with rfl | rfl | rfl
  · show (cstring far_string).length < 2 ^ 31
    rw [far_string_length]
    decide
  · decide
  · decide

theorem wire_length_far_three (t v w : Nat) (p q r : List Nat) (hp : p.length = 2 ^ 31 - 1)
    (hq : q.length = 4) (hr : r.length = 4) :
    wire_length [{ tag := t, payload := p }, { tag := v, payload := q },
      { tag := w, payload := r }] = 2 ^ 31 + 31 := by
  simp only [wire_length, hp, hq, hr]
  omega

theorem wire_length_far_more :
    wire_length (fields (far_ops ++ [Append.uint MB_RESPONSE 2])) = 2 ^ 31 + 31 := by
  rw [fields_far_more]
  exact wire_length_far_three MB_ERROR MB_RESPONSE MB_RESPONSE (cstring far_string) (le32 1)
    (le32 2) far_string_length rfl rfl

/-- C6 (amended): for every envelope reached from `databuf_init` by public
append calls (a NULL string and a mismatched tag included) and every further
call, each string shorter than 2^31 - 1 characters: the header's size field
equals the envelope length minus 8, modulo 2^32, before and after the call;
when the fields take fewer than 2^32 bytes after the call, the size field
equals the envelope length minus 8 before and after it, and an append that
takes place increases it by the payload length plus 8; a call with a
mismatched tag leaves the envelope as it is. -/
theorem header_size_tracks_length (junk : Nat → Nat) (ops : List Append) (op : Append)
    (hpay : ∀ f ∈ fields (ops ++ [op]), f.payload.length < 2 ^ 31) :
    header_size junk (build ops) = ((build ops).len - 8) % 2 ^ 32
      ∧ header_size junk (build (ops ++ [op])) = ((build (ops ++ [op])).len - 8) % 2 ^ 32
      ∧ (wire_length (fields (ops ++ [op])) < 2 ^ 32 →
          header_size junk (build ops) = (build ops).len - 8
            ∧ header_size junk (build (ops ++ [op])) = (build (ops ++ [op])).len - 8
            ∧ (∀ f, op.field = some f →
                header_size junk (build (ops ++ [op]))
                  = header_size junk (build ops) + (f.payload.length + 8)))
      ∧ (op.field = none → build (ops ++ [op]) = build ops) := by
  have hsnoc := envelope_length_snoc ops op
  have hpay0 : ∀ f ∈ fields ops, f.payload.length < 2 ^ 31 := by
    intro f hf
    apply hpay f
    rw [fields_snoc]
    exact List.mem_append_left _ hf
  have hs0 := build_shaped ops hpay0
  have hs1 := build_shaped (ops ++ [op]) hpay
  have e0 := header_size_shaped junk _ _ hs0
  have e1 := header_size_shaped junk _ _ hs1
  have l0 : (build ops).len - 8 = wire_length (fields ops) := by
    rw [hs0.2]
    omega
  have l1 : (build (ops ++ [op])).len - 8 = wire_length (fields (ops ++ [op])) := by
    rw [hs1.2]
    omega
  unfold envelope_length at hsnoc
  refine ⟨by rw [e0, l0], by rw [e1, l1], ?_, ?_⟩
  · intro hlen
    refine ⟨?_, ?_, ?_⟩
    · rw [e0, l0]
      exact Nat.mod_eq_of_lt (by omega)
    · rw [e1, l1]
      exact Nat.mod_eq_of_lt hlen
    · intro f hf
      rw [hf] at hsnoc
      simp only [wire_length] at hsnoc
      rw [e0, e1]
      omega
  · intro hf
    rw [build_snoc, run_skip _ _ hf]

theorem header_size_tracks_length_witness :
    (header_size (fun _ => 0) (build [Append.uint MB_RESPONSE 1])
        = (build [Append.uint MB_RESPONSE 1]).len - 8
      ∧ header_size (fun _ => 0) (build ([Append.uint MB_RESPONSE 1] ++ [Append.string MB_ERROR none]))
        = (build ([Append.uint MB_RESPONSE 1] ++ [Append.string MB_ERROR none])).len - 8
      ∧ (∀ f, (Append.string MB_ERROR none).field = some f →
          header_size (fun _ => 0) (build ([Append.uint MB_RESPONSE 1] ++ [Append.string MB_ERROR none]))
            = header_size (fun _ => 0) (build [Append.uint MB_RESPONSE 1]) + (f.payload.length + 8)))
      ∧ wire_length (fields (far_ops ++ [Append.uint MB_RESPONSE 2])) = 2 ^ 31 + 31
      ∧ header_size (fun _ => 0) (build (far_ops ++ [Append.uint MB_RESPONSE 2]))
          = (build (far_ops ++ [Append.uint MB_RESPONSE 2])).len - 8 :=
  ⟨(header_size_tracks_length (fun _ => 0) [Append.uint MB_RESPONSE 1]
      (Append.string MB_ERROR none) (by decide)).2.2.1 (by decide),
    wire_length_far_more,
    ((header_size_tracks_length (fun _ => 0) far_ops (Append.uint MB_RESPONSE 2)
      far_more_payload).2.2.1 (by rw [wire_length_far_more]; norm_num)).2.1⟩

/-- C6 (counterexample): after `databuf_init` and five appends of a string of
2^30 - 9 letters the header's size field is 2^30, while the envelope length
minus 8 is 5 * 2^30. -/
theorem large_envelope_header_size :
    header_size (fun _ => 0) (build large_ops) = 2 ^ 30
      ∧ (build large_ops).len - 8 = 5 * 2 ^ 30 := by
  have e := header_size_shaped (fun _ => 0) _ _ large_ops_shaped
  have l := large_ops_shaped.2
  have w := wire_length_large_ops
  constructor
  · rw [e, w]
    norm_num
  · omega

/-! ## The lookup -/

theorem databuf_get_loop_done (junk : Nat → Nat) (mem : List Nat) (len var : Nat)
    (prev : Option Nat) (fuel offset : Nat) (h : int_lt_size offset len = false) :
    databuf_get_loop junk mem len var prev fuel offset = some none := by
  cases fuel <;> simp [databuf_get_loop, h]

theorem databuf_get_loop_hit (junk : Nat → Nat) (mem : List Nat) (len var : Nat)
    (prev : Option Nat) (fuel offset : Nat) (hlt : int_lt_size offset len = true)
    (htype : rd32 junk mem offset = var)
    (hprev : (match prev with
      | none => true
      | some p => decide (p < offset + 8)) = true) :
    databuf_get_loop junk mem len var prev (fuel + 1) offset = some (some (offset + 8)) := by
  simp only [databuf_get_loop, hlt, if_true, htype, decide_True, Bool.true_and, hprev]

theorem databuf_get_loop_miss (junk : Nat → Nat) (mem : List Nat) (len var : Nat)
    (prev : Option Nat) (fuel offset size next : Nat) (hlt : int_lt_size offset len = true)
    (hmiss : (decide (var = rd32 junk mem offset) &&
      (match prev with
       | none => true
       | some p => decide (p < offset + 8))) = false)
    (hsize : rd32 junk mem (offset + 4) = size)
    (hnext : (offset + (size + 8) % 2 ^ 32) % 2 ^ 32 = next) :
    databuf_get_loop junk mem len var prev (fuel + 1) offset
      = databuf_get_loop junk mem len var prev fuel next := by
  subst hsize hnext
  simp only [databuf_get_loop, hlt, if_true, hmiss, Bool.false_eq_true, if_false]

theorem databuf_get_loop_wire (junk : Nat → Nat) (var : Nat) (prev : Option Nat)
    (fs : List Field) :
    ∀ (pre : List Nat) (fuel : Nat), fs.length ≤ fuel → (pre ++ wire fs).length < 2 ^ 31 →
      (∀ f ∈ fs, f.tag < 2 ^ 32) →
      databuf_get_loop junk (pre ++ wire fs) (pre ++ wire fs).length var prev fuel pre.length
        = some (((layout fs pre.length).find? (lookup_hit var prev)).map Prod.fst) := by
  induction fs with
  | nil =>
    intro pre fuel _ _ _
    exact databuf_get_loop_done _ _ _ _ _ _ _
      (int_lt_size_of_le _ _ (by simp only [wire, List.append_nil, Nat.le_refl]))
  | cons f fs ih =>
    intro pre fuel hfuel hlen htag
    obtain ⟨n, rfl⟩ : ∃ n, fuel = n + 1 := ⟨fuel - 1, by simp only [List.length_cons] at hfuel; omega⟩
    have hlen' : pre.length + (8 + f.payload.length) + (wire fs).length < 2 ^ 31 := by
      simp only [wire, Field.wire, List.length_append, le32_length] at hlen
      omega
    have hmem0 : pre ++ wire (f :: fs)
        = pre ++ (le32 f.tag ++ (le32 f.payload.length ++ (f.payload ++ wire fs))) := by
      simp only [wire, Field.wire, List.append_assoc]
    have hmem : pre ++ wire (f :: fs)
        = (pre ++ le32 f.tag) ++ (le32 f.payload.length ++ (f.payload ++ wire fs)) := by
      simp only [wire, Field.wire, List.append_assoc]
    have hmem2 : pre ++ wire (f :: fs) = (pre ++ f.wire) ++ wire fs := by
      simp only [wire, List.append_assoc]
    have htype : rd32 junk (pre ++ wire (f :: fs)) pre.length = f.tag := by
      rw [hmem0, rd32_append_le32 _ _ _ _ _ rfl]
      exact Nat.mod_eq_of_lt (htag f (List.mem_cons_self _ _))
    have hsize : rd32 junk (pre ++ wire (f :: fs)) (pre.length + 4) = f.payload.length := by
      rw [hmem, rd32_append_le32 _ _ _ _ _ (by simp only [List.length_append, le32_length])]
      exact Nat.mod_eq_of_lt (by omega)
    have htot : (pre ++ wire (f :: fs)).length
        = pre.length + (8 + f.payload.length) + (wire fs).length := by
      simp only [wire, Field.wire, List.length_append, le32_length]
      omega
    have hlt : int_lt_size pre.length (pre ++ wire (f :: fs)).length = true :=
      int_lt_size_of_lt _ _ (by omega) (by omega)
    simp only [layout]
    cases hhit : lookup_hit var prev (pre.length + 8, f) with
    | true =>
      rw [List.find?_cons_of_pos _ hhit]
      simp only [lookup_hit, Bool.and_eq_true, decide_eq_true_eq] at hhit
      exact databuf_get_loop_hit junk _ _ var prev n pre.length hlt (by rw [htype, hhit.1]) hhit.2
    | false =>
      rw [List.find?_cons_of_neg _ (by simp only [hhit, Bool.false_eq_true, not_false_eq_true])]
      have hnext : (pre.length + (f.payload.length + 8) % 2 ^ 32) % 2 ^ 32
          = (pre ++ f.wire).length := by
        simp only [Field.wire, List.length_append, le32_length]
        omega
      rw [databuf_get_loop_miss junk _ _ var prev n pre.length f.payload.length
        (pre ++ f.wire).length hlt
        (by rw [htype]; simp only [lookup_hit] at hhit; rw [← hhit]; congr 2; exact propext eq_comm)
        hsize hnext, hmem2]
      have := ih (pre ++ f.wire) n (by simp only [List.length_cons] at hfuel; omega)
        (by rw [← hmem2]; exact hlen) (fun g hg => htag g (List.mem_cons_of_mem _ hg))
      rw [this]
      have hoff : (pre ++ f.wire).length = pre.length + 8 + f.payload.length := by
        simp only [Field.wire, List.length_append, le32_length]
        omega
      rw [hoff]

theorem fields_tag_lt (ops : List Append) : ∀ f ∈ fields ops, f.tag < 2 ^ 32 := by
  intro f hf
  simp only [fields, List.mem_filterMap] at hf
  obtain ⟨op, _, hop⟩ := hf
  cases op with
  | uint var value =>
    simp only [Append.field] at hop
    split at hop
    · cases hop
      exact Nat.mod_lt _ (by decide)
    · cases hop
  | string var value =>
    simp only [Append.field] at hop
    split at hop
    · cases hop
      exact Nat.mod_lt _ (by decide)
    · cases hop

theorem databuf_get_shaped (junk : Nat → Nat) (b : Databuf) (fs : List Field)
    (var : Nat) (prev : Option Nat) (fuel : Nat) (h : Shaped b fs) (hlen : b.len < 2 ^ 31)
    (hfuel : fs.length ≤ fuel) (htag : ∀ f ∈ fs, f.tag < 2 ^ 32) :
    databuf_get fuel junk (some b) var prev = some (find_field fs var prev) := by
  obtain ⟨h1, h2⟩ := h
  have hl : ((le32 DT_RAW ++ le32 (wire_length fs)) ++ wire fs).length = b.len := by
    simp only [List.length_append, le32_length, wire_length_eq, h2]
  have := databuf_get_loop_wire junk var prev fs (le32 DT_RAW ++ le32 (wire_length fs)) fuel
    hfuel (by rw [hl]; exact hlen) htag
  rw [hl] at this
  simp only [databuf_get, h1, find_field]
  simpa only [List.append_assoc] using this

/-- C7 (amended): for every envelope built by `databuf_init` and appends whose
header and fields take fewer than 2^31 bytes, every tag and every cursor,
`databuf_get` returns the payload position of the first field, in buffer order
behind the header, whose 32-bit tag equals the requested tag and, for a cursor
that is not null, whose payload position is strictly greater than the cursor;
it returns not-found exactly when no field passes that test. -/
theorem databuf_get_finds_first (junk : Nat → Nat) (ops : List Append) (var : Nat)
    (prev : Option Nat) (fuel : Nat) (hlen : envelope_length ops < 2 ^ 31)
    (hfuel : ops.length ≤ fuel) :
    databuf_get fuel junk (some (build ops)) var prev = some (find_field (fields ops) var prev)
      ∧ (find_field (fields ops) var prev = none
          ↔ ∀ e ∈ layout (fields ops) 8, lookup_hit var prev e = false)
      ∧ (∀ pos, find_field (fields ops) var prev = some pos →
          ∃ f before after, layout (fields ops) 8 = before ++ (pos, f) :: after
            ∧ lookup_hit var prev (pos, f) = true
            ∧ ∀ e ∈ before, lookup_hit var prev e = false) := by
  have hs := build_shaped_of_length ops hlen
  have hl : (build ops).len < 2 ^ 31 := by
    rw [hs.2]
    exact hlen
  refine ⟨databuf_get_shaped junk _ _ var prev fuel hs hl
    (Nat.le_trans (fields_length_le ops) hfuel) (fields_tag_lt ops), ?_, ?_⟩
  · simp only [find_field, Option.map_eq_none', List.find?_eq_none, Bool.not_eq_true]
  · intro pos hpos
    simp only [find_field, Option.map_eq_some'] at hpos
    obtain ⟨⟨p, f⟩, hfind, rfl⟩ := hpos
    obtain ⟨hp, before, after, hsplit, hbefore⟩ := List.find?_eq_some.mp hfind
    exact ⟨f, before, after, hsplit, hp, fun e he => by simpa using hbefore e he⟩

theorem databuf_get_finds_first_witness :
    databuf_get 4 (fun _ => 0) (some (build sample_ops)) MB_RESPONSE none
        = some (find_field (fields sample_ops) MB_RESPONSE none)
      ∧ (find_field (fields sample_ops) MB_RESPONSE none = none
          ↔ ∀ e ∈ layout (fields sample_ops) 8, lookup_hit MB_RESPONSE none e = false)
      ∧ (∀ pos, find_field (fields sample_ops) MB_RESPONSE none = some pos →
          ∃ f before after, layout (fields sample_ops) 8 = before ++ (pos, f) :: after
            ∧ lookup_hit MB_RESPONSE none (pos, f) = true
            ∧ ∀ e ∈ before, lookup_hit MB_RESPONSE none e = false) :=
  databuf_get_finds_first (fun _ => 0) sample_ops MB_RESPONSE none 4 (by decide) (by decide)

theorem find_field_second (t v : Nat) (p q : List Nat) (h : t ≠ v) :
    find_field [{ tag := t, payload := p }, { tag := v, payload := q }] v none
      = some (8 + 8 + p.length + 8) := by
  simp only [find_field, layout]
  rw [List.find?_cons_of_neg _ (by simp [lookup_hit, h]),
    List.find?_cons_of_pos _ (by simp [lookup_hit])]
  rfl

theorem databuf_get_far (junk : Nat → Nat) (b : Databuf) (t v fuel : Nat) (p q : List Nat)
    (h : Shaped b [{ tag := t, payload := p }, { tag := v, payload := q }])
    (ht : t < 2 ^ 32) (htv : t ≠ v) (hp : p.length = 2 ^ 31 - 1) (hq : q.length = 4) :
    databuf_get (fuel + 1) junk (some b) v none = some none := by
  obtain ⟨h1, h2⟩ := h
  simp only [wire_length] at h2
  simp only [databuf_get, h1]
  have htype : rd32 junk (le32 DT_RAW ++ (le32 (wire_length [{ tag := t, payload := p },
      { tag := v, payload := q }]) ++ wire [{ tag := t, payload := p },
      { tag := v, payload := q }])) 8 = t := by
    simp only [wire, Field.wire, List.append_assoc]
    rw [← List.append_assoc, rd32_append_le32 junk (le32 DT_RAW ++ le32 _) _ t 8 rfl]
    exact Nat.mod_eq_of_lt ht
  have hsize : rd32 junk (le32 DT_RAW ++ (le32 (wire_length [{ tag := t, payload := p },
      { tag := v, payload := q }]) ++ wire [{ tag := t, payload := p },
      { tag := v, payload := q }])) (8 + 4) = p.length := by
    simp only [wire, Field.wire, List.append_assoc]
    rw [← List.append_assoc, ← List.append_assoc,
      rd32_append_le32 junk (le32 DT_RAW ++ le32 _ ++ le32 t) _ p.length (8 + 4) rfl]
    exact Nat.mod_eq_of_lt (by omega)
  rw [databuf_get_loop_miss junk _ _ v none fuel 8 p.length (2 ^ 31 + 15)
    (int_lt_size_of_lt _ _ (by omega) (by norm_num))
    (by rw [htype]; simp [Ne.symm htv]) hsize (by omega)]
  apply databuf_get_loop_done
  unfold int_lt_size size_of_int
  apply decide_eq_false
  rw [if_neg (by omega)]
  omega

theorem find_field_far (t v : Nat) (p q : List Nat) (h : t ≠ v) (hp : p.length = 2 ^ 31 - 1) :
    find_field [{ tag := t, payload := p }, { tag := v, payload := q }] v none
      = some (2 ^ 31 + 23) := by
  rw [find_field_second t v p q h, hp]
  norm_num

/-- C7 (counterexample): in the envelope built by `databuf_init`, an append of a
string of 2^31 - 2 letters under `MB_ERROR` and an append of `MB_RESPONSE = 1`,
the field `MB_RESPONSE` lies behind the header with its payload at 2^31 + 23,
and `databuf_get` with a null cursor returns not-found for `MB_RESPONSE`. -/
theorem far_field_is_not_found :
    databuf_get 2 (fun _ => 0) (some (build far_ops)) MB_RESPONSE none = some none
      ∧ find_field (fields far_ops) MB_RESPONSE none = some (2 ^ 31 + 23) :=
  ⟨databuf_get_far (fun _ => 0) (build far_ops) MB_ERROR MB_RESPONSE 1 (cstring far_string)
      (le32 1) (fields_far_ops ▸ far_ops_shaped) (by decide) (by decide) far_string_length rfl,
    fields_far_ops ▸ find_field_far MB_ERROR MB_RESPONSE (cstring far_string) (le32 1)
      (by decide) far_string_length⟩

/-! ## Round trip -/

theorem layout_append (fs gs : List Field) :
    ∀ off, layout (fs ++ gs) off = layout fs off ++ layout gs (off + wire_length fs) := by
  induction fs with
  | nil =>
    intro off
    simp only [List.nil_append, layout, wire_length, Nat.add_zero]
  | cons f fs ih =>
    intro off
    show (off + 8, f) :: layout (fs ++ gs) (off + 8 + f.payload.length) = _
    rw [ih]
    simp only [layout, wire_length, List.cons_append]
    congr 3
    omega

theorem layout_pos_le (fs : List Field) :
    ∀ off, ∀ e ∈ layout fs off, e.1 ≤ off + wire_length fs := by
  induction fs with
  | nil =>
    intro off e he
    cases he
  | cons f fs ih =>
    intro off e he
    simp only [layout, List.mem_cons] at he
    simp only [wire_length]
    rcases he with rfl | he
    · show off + 8 ≤ _
      omega
    · have := ih _ e he
      omega

theorem cstring_eq (s : List Nat) (h : ∀ c ∈ s, 0 < c ∧ c < 256) : cstring s = s ++ [0] := by
  unfold cstring
  rw [List.takeWhile_eq_self_iff.mpr]
  intro c hc
  have := h c hc
  simp only [bne_iff_ne, ne_eq]
  omega

theorem string_at_payload (pre s rest : List Nat) (pos : Nat) (hpos : pos = pre.length)
    (h : ∀ c ∈ s, 0 < c ∧ c < 256) : string_at (pre ++ ((s ++ [0]) ++ rest)) pos = s := by
  subst hpos
  unfold string_at
  rw [List.drop_left, List.map_append, List.map_append, List.append_assoc]
  have hs : s.map (fun c => c % 256) = s := by
    conv => rhs; rw [← List.map_id s]
    apply List.map_congr_left
    intro c hc
    have := h c hc
    simp only [id_eq]
    omega
  rw [hs, List.takeWhile_append_of_pos]
  · simp only [List.map_cons, List.map_nil, List.singleton_append, Nat.zero_mod,
      List.takeWhile_cons, bne_self_eq_false, Bool.false_eq_true, if_false, List.append_nil]
  · intro c hc
    have := h c hc
    simp only [bne_iff_ne, ne_eq]
    omega

theorem find_field_none (fs : List Field) (var : Nat) (prev : Option Nat)
    (h : ∀ e ∈ layout fs 8, lookup_hit var prev e = false) : find_field fs var prev = none := by
  simp only [find_field, Option.map_eq_none', List.find?_eq_none, Bool.not_eq_true]
  exact h

theorem find_field_split (fs1 rest : List Field) (f : Field) (var : Nat) (prev : Option Nat)
    (h1 : ∀ e ∈ layout fs1 8, lookup_hit var prev e = false) (hf : f.tag = var)
    (hp : ∀ p, prev = some p → p < 8 + wire_length fs1 + 8) :
    find_field (fs1 ++ f :: rest) var prev = some (8 + wire_length fs1 + 8) := by
  have h0 : (layout fs1 8).find? (lookup_hit var prev) = none := by
    simp only [List.find?_eq_none, Bool.not_eq_true]
    exact h1
  have hhit : lookup_hit var prev (8 + wire_length fs1 + 8, f) = true := by
    simp only [lookup_hit, hf, decide_True, Bool.true_and]
    cases prev with
    | none => rfl
    | some p => exact decide_eq_true (hp p rfl)
  simp only [find_field, layout_append, List.find?_append, h0, Option.none_or, layout]
  rw [List.find?_cons_of_pos _ hhit]
  rfl

theorem misses_snoc (fs1 : List Field) (f : Field) (var : Nat) (prev : Option Nat)
    (h1 : ∀ e ∈ layout fs1 8, lookup_hit var prev e = false)
    (hf : lookup_hit var prev (8 + wire_length fs1 + 8, f) = false) :
    ∀ e ∈ layout (fs1 ++ [f]) 8, lookup_hit var prev e = false := by
  intro e he
  simp only [layout_append, layout, List.mem_append, List.mem_singleton] at he
  rcases he with he | rfl
  · exact h1 e he
  · exact hf

theorem misses_behind (fs1 : List Field) (var pos : Nat) (hpos : 8 + wire_length fs1 ≤ pos) :
    ∀ e ∈ layout fs1 8, lookup_hit var (some pos) e = false := by
  intro e he
  have := layout_pos_le fs1 8 e he
  simp only [lookup_hit, Bool.and_eq_false_imp, decide_eq_true_eq, decide_eq_false_iff_not]
  intro _
  omega

theorem to_field_of_append (e : Nat × Value) (h : well_typed e) :
    (e.2.append e.1).field = some (to_field e) := by
  obtain ⟨tag, v⟩ := e
  obtain ⟨h1, h2⟩ := h
  cases v with
  | uint v =>
    simp only at h2
    simp only [Value.append, Append.field, h2.1, if_true, to_field, Nat.mod_eq_of_lt h1]
  | string s =>
    simp only at h2
    simp only [Value.append, Append.field, h2.1, if_true, to_field, Nat.mod_eq_of_lt h1,
      cstring_eq s h2.2]

theorem fields_encode (vs : List (Nat × Value)) (h : ∀ e ∈ vs, well_typed e) :
    fields (vs.map fun e => e.2.append e.1) = vs.map to_field := by
  induction vs with
  | nil => rfl
  | cons e vs ih =>
    simp only [fields, List.map_cons, List.filterMap_cons,
      to_field_of_append e (h e (List.mem_cons_self _ _))]
    congr 1
    exact ih (fun x hx => h x (List.mem_cons_of_mem _ hx))

theorem get_next_strings_chain (junk : Nat → Nat) (fuel var : Nat) (b : Databuf)
    (fs : List Field) (hs : Shaped b fs) (hb : b.len < 2 ^ 31) (hfuel : fs.length ≤ fuel)
    (htag : ∀ f ∈ fs, f.tag < 2 ^ 32) (hvar : var % 256 = DT_STRING) :
    ∀ (vs : List (Nat × Value)) (fs1 : List Field) (prev : Option Nat),
      fs = fs1 ++ vs.map to_field → (∀ e ∈ vs, well_typed e) →
      (∀ e ∈ layout fs1 8, lookup_hit var prev e = false) →
      (∀ p, prev = some p → p < 8 + wire_length fs1 + 8) →
      get_next_strings fuel junk (some b) var ((strings_under var vs).length + 1) prev
        = some ((strings_under var vs).map some ++ [none]) := by
  have hget : ∀ prev, databuf_get_next_string fuel junk (some b) var prev
      = some (find_field fs var prev) := by
    intro prev
    simp only [databuf_get_next_string, hvar, ne_eq, not_true_eq_false, if_false]
    exact databuf_get_shaped junk b fs var prev fuel hs hb hfuel htag
  intro vs
  induction vs with
  | nil =>
    intro fs1 prev hfs _ hmiss _
    simp only [List.map_nil, List.append_nil] at hfs
    subst hfs
    simp only [strings_under, List.filterMap_nil, List.length_nil, Nat.zero_add, List.map_nil,
      List.nil_append, get_next_strings, hget, find_field_none _ _ _ hmiss]
  | cons e vs ih =>
    intro fs1 prev hfs hok hmiss hprev
    have hfs' : fs = (fs1 ++ [to_field e]) ++ vs.map to_field := by
      rw [hfs, List.map_cons, List.append_assoc, List.singleton_append]
    have hok' : ∀ x ∈ vs, well_typed x := fun x hx => hok x (List.mem_cons_of_mem _ hx)
    have hwl : wire_length (fs1 ++ [to_field e])
        = wire_length fs1 + (8 + (to_field e).payload.length) := by
      simp only [wire_length_append, wire_length, Nat.add_zero]
    by_cases hhit : (to_field e).tag = var
    · obtain ⟨tag, v⟩ := e
      have hwt := hok (tag, v) (List.mem_cons_self _ _)
      cases v with
      | uint v =>
        exfalso
        have h2 := hwt.2
        simp only [to_field] at hhit
        simp only at h2
        rw [hhit, hvar] at h2
        exact absurd h2.1 (by decide)
      | string s =>
        simp only [to_field] at hhit
        have hfind := find_field_split fs1 (vs.map to_field) (to_field (tag, Value.string s)) var
          prev hmiss hhit hprev
        rw [List.map_cons] at hfs
        rw [← hfs] at hfind
        have hstr : strings_under var ((tag, Value.string s) :: vs)
            = s :: strings_under var vs := by
          simp only [strings_under, List.filterMap_cons, hhit, if_true]
        have hval : string_at (bytes_of (some b)) (8 + wire_length fs1 + 8) = s := by
          simp only [bytes_of, hs.1, Option.getD_some, hfs, wire_append, wire, Field.wire,
            to_field]
          have := string_at_payload
            (le32 DT_RAW ++ (le32 (wire_length (fs1 ++ { tag := tag, payload := s ++ [0] }
              :: List.map to_field vs)) ++ (wire fs1 ++ (le32 tag ++ le32 (s ++ [0]).length))))
            s (wire (List.map to_field vs)) (8 + wire_length fs1 + 8)
            (by simp only [List.length_append, le32_length, wire_length_eq]; omega) hwt.2.2
          simpa only [List.append_assoc] using this
        rw [hstr]
        simp only [List.length_cons, List.map_cons, List.cons_append]
        rw [get_next_strings]
        simp only [hget, hfind, hval]
        rw [ih (fs1 ++ [to_field (tag, Value.string s)]) (some (8 + wire_length fs1 + 8)) hfs'
          hok' (misses_snoc fs1 _ var _ (misses_behind fs1 var _ (by omega))
            (by simp only [lookup_hit, Nat.lt_irrefl, decide_False, Bool.and_false]))
          (by intro p hp; cases hp; rw [hwl]; omega)]
        rfl
    · have hstr : strings_under var (e :: vs) = strings_under var vs := by
        obtain ⟨tag, v⟩ := e
        cases v with
        | uint v => simp only [strings_under, List.filterMap_cons]
        | string s =>
          simp only [to_field] at hhit
          simp only [strings_under, List.filterMap_cons, hhit, if_false]
      rw [hstr]
      exact ih (fs1 ++ [to_field e]) prev hfs' hok'
        (misses_snoc fs1 _ var prev hmiss
          (by simp only [lookup_hit, hhit, decide_False, Bool.false_and]))
        (by intro p hp; have := hprev p hp; rw [hwl]; omega)

theorem get_next_uints_chain (junk : Nat → Nat) (fuel var : Nat) (b : Databuf)
    (fs : List Field) (hs : Shaped b fs) (hb : b.len < 2 ^ 31) (hfuel : fs.length ≤ fuel)
    (htag : ∀ f ∈ fs, f.tag < 2 ^ 32) (hvar : var % 256 = DT_UINT) :
    ∀ (vs : List (Nat × Value)) (fs1 : List Field) (prev : Option Nat),
      fs = fs1 ++ vs.map to_field → (∀ e ∈ vs, well_typed e) →
      (∀ e ∈ layout fs1 8, lookup_hit var prev e = false) →
      (∀ p, prev = some p → p < 8 + wire_length fs1 + 8) →
      get_next_uints fuel junk (some b) var ((uints_under var vs).length + 1) prev
        = some ((uints_under var vs).map some ++ [none]) := by
  have hget : ∀ prev, databuf_get fuel junk (some b) var prev
      = some (find_field fs var prev) :=
    fun prev => databuf_get_shaped junk b fs var prev fuel hs hb hfuel htag
  intro vs
  induction vs with
  | nil =>
    intro fs1 prev hfs _ hmiss _
    simp only [List.map_nil, List.append_nil] at hfs
    subst hfs
    simp only [uints_under, List.filterMap_nil, List.length_nil, Nat.zero_add, List.map_nil,
      List.nil_append, get_next_uints, databuf_get_next_uint, hvar, ne_eq, not_true_eq_false,
      if_false, hget, find_field_none _ _ _ hmiss]
  | cons e vs ih =>
    intro fs1 prev hfs hok hmiss hprev
    have hfs' : fs = (fs1 ++ [to_field e]) ++ vs.map to_field := by
      rw [hfs, List.map_cons, List.append_assoc, List.singleton_append]
    have hok' : ∀ x ∈ vs, well_typed x := fun x hx => hok x (List.mem_cons_of_mem _ hx)
    have hwl : wire_length (fs1 ++ [to_field e])
        = wire_length fs1 + (8 + (to_field e).payload.length) := by
      simp only [wire_length_append, wire_length, Nat.add_zero]
    by_cases hhit : (to_field e).tag = var
    · obtain ⟨tag, v⟩ := e
      have hwt := hok (tag, v) (List.mem_cons_self _ _)
      cases v with
      | string s =>
        exfalso
        have h2 := hwt.2
        simp only [to_field] at hhit
        simp only at h2
        rw [hhit, hvar] at h2
        exact absurd h2.1 (by decide)
      | uint v =>
        simp only [to_field] at hhit
        have hfind := find_field_split fs1 (vs.map to_field) (to_field (tag, Value.uint v)) var
          prev hmiss hhit hprev
        rw [List.map_cons] at hfs
        rw [← hfs] at hfind
        have hu : uints_under var ((tag, Value.uint v) :: vs) = v :: uints_under var vs := by
          simp only [uints_under, List.filterMap_cons, hhit, if_true]
        have hval : rd32 junk (bytes_of (some b)) (8 + wire_length fs1 + 8) = v := by
          simp only [bytes_of, hs.1, Option.getD_some, hfs, wire_append, wire, Field.wire, to_field]
          have := rd32_append_le32 junk
            (le32 DT_RAW ++ (le32 (wire_length (fs1 ++ { tag := tag, payload := le32 v }
              :: List.map to_field vs)) ++ (wire fs1 ++ (le32 tag ++ le32 (le32 v).length))))
            (wire (List.map to_field vs)) v (8 + wire_length fs1 + 8)
            (by simp only [List.length_append, le32_length, wire_length_eq]; omega)
          rw [Nat.mod_eq_of_lt hwt.2.2] at this
          simpa only [List.append_assoc] using this
        rw [hu]
        simp only [List.length_cons, List.map_cons, List.cons_append]
        rw [get_next_uints]
        simp only [databuf_get_next_uint, hvar, ne_eq, not_true_eq_false, if_false, hget, hfind,
          hval]
        rw [ih (fs1 ++ [to_field (tag, Value.uint v)]) (some (8 + wire_length fs1 + 8)) hfs'
          hok' (misses_snoc fs1 _ var _ (misses_behind fs1 var _ (by omega))
            (by simp only [lookup_hit, Nat.lt_irrefl, decide_False, Bool.and_false]))
          (by intro p hp; cases hp; rw [hwl]; omega)]
        rfl
    · have hu : uints_under var (e :: vs) = uints_under var vs := by
        obtain ⟨tag, v⟩ := e
        cases v with
        | string s => simp only [uints_under, List.filterMap_cons]
        | uint v =>
          simp only [to_field] at hhit
          simp only [uints_under, List.filterMap_cons, hhit, if_false]
      rw [hu]
      exact ih (fs1 ++ [to_field e]) prev hfs' hok'
        (misses_snoc fs1 _ var prev hmiss
          (by simp only [lookup_hit, hhit, decide_False, Bool.false_and]))
        (by intro p hp; have := hprev p hp; rw [hwl]; omega)

theorem strings_under_nil (var : Nat) (vs : List (Nat × Value)) (h : ∀ e ∈ vs, well_typed e)
    (hvar : var % 256 ≠ DT_STRING) : strings_under var vs = [] := by
  induction vs with
  | nil => rfl
  | cons e vs ih =>
    obtain ⟨tag, v⟩ := e
    have hwt := h (tag, v) (List.mem_cons_self _ _)
    have ih' := ih (fun x hx => h x (List.mem_cons_of_mem _ hx))
    cases v with
    | uint v => simpa only [strings_under, List.filterMap_cons] using ih'
    | string s =>
      have h2 := hwt.2
      simp only at h2
      have hne : tag ≠ var := fun heq => hvar (heq ▸ h2.1)
      simpa only [strings_under, List.filterMap_cons, hne, if_false] using ih'

theorem uints_under_nil (var : Nat) (vs : List (Nat × Value)) (h : ∀ e ∈ vs, well_typed e)
    (hvar : var % 256 ≠ DT_UINT) : uints_under var vs = [] := by
  induction vs with
  | nil => rfl
  | cons e vs ih =>
    obtain ⟨tag, v⟩ := e
    have hwt := h (tag, v) (List.mem_cons_self _ _)
    have ih' := ih (fun x hx => h x (List.mem_cons_of_mem _ hx))
    cases v with
    | string s => simpa only [uints_under, List.filterMap_cons] using ih'
    | uint v =>
      have h2 := hwt.2
      simp only at h2
      have hne : tag ≠ var := fun heq => hvar (heq ▸ h2.1)
      simpa only [uints_under, List.filterMap_cons, hne, if_false] using ih'

/-- C3: for every list of (tag, value) in which each tag is a 32-bit value whose
low byte matches the type of its value (a `UInt32`, or a string of bytes other
than NUL), the envelope built by `databuf_init` and the appends in list order
taking fewer than 2^31 bytes: for each tag, the calls of
`databuf_get_next_string` (of `databuf_get_next_uint`) with the previous result
as cursor return the strings (the values) appended under that tag, in insertion
order, and the call after the last of them returns not-found. -/
theorem round_trip (junk : Nat → Nat) (vs : List (Nat × Value)) (fuel var : Nat)
    (hok : ∀ e ∈ vs, well_typed e)
    (hlen : envelope_length (vs.map fun e => e.2.append e.1) < 2 ^ 31)
    (hfuel : vs.length ≤ fuel) :
    get_next_strings fuel junk (some (encode vs)) var ((strings_under var vs).length + 1) none
        = some ((strings_under var vs).map some ++ [none])
      ∧ get_next_uints fuel junk (some (encode vs)) var ((uints_under var vs).length + 1) none
        = some ((uints_under var vs).map some ++ [none]) := by
  have hs := build_shaped_of_length _ hlen
  have hb : (encode vs).len < 2 ^ 31 := by
    unfold encode
    rw [hs.2]
    exact hlen
  have hf := fields_encode vs hok
  have hfl : (fields (vs.map fun e => e.2.append e.1)).length ≤ fuel := by
    rw [hf, List.length_map]
    exact hfuel
  constructor
  · by_cases hvar : var % 256 = DT_STRING
    · exact get_next_strings_chain junk fuel var _ _ hs hb hfl (fields_tag_lt _) hvar vs [] none
        (by rw [hf, List.nil_append]) hok (fun e he => by cases he) (fun p hp => by cases hp)
    · rw [strings_under_nil var vs hok hvar]
      simp only [List.length_nil, Nat.zero_add, List.map_nil, List.nil_append, get_next_strings,
        databuf_get_next_string, hvar, ne_eq, not_false_eq_true, if_true]
  · by_cases hvar : var % 256 = DT_UINT
    · exact get_next_uints_chain junk fuel var _ _ hs hb hfl (fields_tag_lt _) hvar vs [] none
        (by rw [hf, List.nil_append]) hok (fun e he => by cases he) (fun p hp => by cases hp)
    · rw [uints_under_nil var vs hok hvar]
      simp only [List.length_nil, Nat.zero_add, List.map_nil, List.nil_append, get_next_uints,
        databuf_get_next_uint, hvar, ne_eq, not_false_eq_true, if_true]

theorem round_trip_witness :
    get_next_strings 4 (fun _ => 0) (some (encode sample_values)) MB_IPV4_ADDR 4 none
        = some [some [49, 48], some [49, 49], some [49, 50], none]
      ∧ get_next_uints 4 (fun _ => 0) (some (encode sample_values)) MB_IPV4_ADDR 1 none
        = some [none] :=
  round_trip (fun _ => 0) sample_values 4 MB_IPV4_ADDR
    (by
      intro e he
      simp only [sample_values, List.mem_cons, List.mem_singleton, List.not_mem_nil,
        or_false] at he
      rcases he with rfl | rfl | rfl | rfl <;> exact ⟨by decide, by decide, by decide⟩)
    (by decide) (by decide)

/-! ## The router -/

theorem databuf_get_loop_returns (junk : Nat → Nat) (mem : List Nat) (len var : Nat)
    (prev : Option Nat) :
    ∀ (fuel offset : Nat), databuf_is_valid_loop junk mem len fuel offset = some true →
      ∃ r, databuf_get_loop junk mem len var prev fuel offset = some r := by
  intro fuel
  induction fuel with
  | zero =>
    intro offset h
    simp only [databuf_is_valid_loop] at h
    simp only [databuf_get_loop]
    split at h
    · cases h
    · rw [if_neg (by assumption)]
      exact ⟨none, rfl⟩
  | succ n ih =>
    intro offset h
    simp only [databuf_is_valid_loop] at h
    simp only [databuf_get_loop]
    split at h
    · rw [if_pos (by assumption)]
      split at h
      · cases h
      · split
        · exact ⟨_, rfl⟩
        · have := ih _ h
          rw [Nat.add_comm 8 (rd32 junk mem (offset + 4))] at this
          exact this
    · rw [if_neg (by assumption)]
      exact ⟨none, rfl⟩

theorem databuf_get_returns (junk : Nat → Nat) (fuel : Nat) (b : Databuf) (var : Nat)
    (prev : Option Nat) (h : databuf_is_valid fuel junk (some b) = some true) :
    ∃ r, databuf_get fuel junk (some b) var prev = some r := by
  simp only [databuf_is_valid] at h
  simp only [databuf_get]
  cases hb : b.buf with
  | none => exact ⟨none, rfl⟩
  | some mem =>
    rw [hb] at h
    simp only at h
    split at h
    · cases h
    · split at h
      · cases h
      · exact databuf_get_loop_returns junk mem b.len var prev fuel 8 h

theorem databuf_get_uint_returns (junk : Nat → Nat) (fuel : Nat) (b : Databuf) (var value : Nat)
    (h : databuf_is_valid fuel junk (some b) = some true) :
    ∃ r, databuf_get_uint fuel junk (some b) var value = some r := by
  simp only [databuf_get_uint, databuf_get_next_uint]
  split
  · exact ⟨_, rfl⟩
  · obtain ⟨r, hr⟩ := databuf_get_returns junk fuel b var none h
    rw [hr]
    cases r with
    | none => exact ⟨_, rfl⟩
    | some pos => exact ⟨_, rfl⟩

theorem databuf_get_uint_none (junk : Nat → Nat) (fuel : Nat) (b : Databuf) (var value : Nat)
    (h : databuf_get fuel junk (some b) var none = some none) :
    ∃ q, databuf_get_uint fuel junk (some b) var value = some (q, value) := by
  simp only [databuf_get_uint, databuf_get_next_uint]
  split
  · exact ⟨_, rfl⟩
  · rw [h]
    exact ⟨_, rfl⟩

theorem set_error_fresh (alloc : Bool) (message : List Nat)
    (h : message = literal "Server : Invalid request" ∨ message = literal "Server : Unknown request"
      ∨ message = literal "Server : Unknown protocol" ∨ message = literal "No mbim device file"
      ∨ message = literal "No qmi device file" ∨ message = literal "Unsupported request") :
    databuf_add_uint alloc (databuf_add_string alloc fresh MB_ERROR (some message)) MB_RESPONSE
      MBIM_ERROR = error_response message := by
  rcases h with rfl | rfl | rfl | rfl | rfl | rfl <;> cases alloc <;> decide

theorem error_response_shaped (message : List Nat) (h : ∀ c ∈ message, 0 < c ∧ c < 256)
    (hlen : message.length < 2 ^ 30) :
    Shaped (error_response message)
      [{ tag := MB_ERROR, payload := message ++ [0] }, { tag := MB_RESPONSE, payload := le32 1 }] := by
  have hf : fields [Append.string MB_ERROR (some message), Append.uint MB_RESPONSE MBIM_ERROR]
      = [{ tag := MB_ERROR, payload := message ++ [0] },
         { tag := MB_RESPONSE, payload := le32 1 }] := by
    have h1 : MB_ERROR % 256 = DT_STRING := by decide
    have h2 : MB_RESPONSE % 256 = DT_UINT := by decide
    have h3 : MB_ERROR % 2 ^ 32 = MB_ERROR := by decide
    have h4 : MB_RESPONSE % 2 ^ 32 = MB_RESPONSE := by decide
    simp only [fields, List.filterMap_cons, List.filterMap_nil, Append.field, h1, h2, h3, h4,
      if_true, cstring_eq message h, MBIM_ERROR]
  rw [← hf]
  apply build_shaped
  intro f hf'
  rw [hf] at hf'
  simp only [List.mem_cons, List.mem_singleton, List.not_mem_nil, or_false] at hf'
  rcases hf' with rfl | rfl
  · simp only [List.length_append, List.length_singleton]
    omega
  · decide

theorem error_response_valid (junk : Nat → Nat) (fuel : Nat) (message : List Nat)
    (h : ∀ c ∈ message, 0 < c ∧ c < 256) (hlen : message.length < 2 ^ 30) :
    databuf_is_valid (fuel + 2) junk (some (error_response message)) = some true := by
  have hs := error_response_shaped message h hlen
  refine databuf_is_valid_shaped junk _ _ (fuel + 2) hs ?_ ?_
  · rw [hs.2]
    simp only [wire_length, List.length_append, List.length_singleton, le32_length]
    omega
  · simp only [List.length_cons, List.length_nil]
    omega

theorem literal_ok (message : List Nat)
    (h : message = literal "Server : Invalid request" ∨ message = literal "Server : Unknown request"
      ∨ message = literal "Server : Unknown protocol" ∨ message = literal "No mbim device file"
      ∨ message = literal "No qmi device file" ∨ message = literal "Unsupported request") :
    (∀ c ∈ message, 0 < c ∧ c < 256) ∧ message.length < 2 ^ 30 := by
  rcases h with rfl | rfl | rfl | rfl | rfl | rfl <;> decide

theorem inbound_req (request : Mbim_request) (buffer : List Nat) :
    (inbound request buffer).req = received buffer := rfl

theorem inbound_resp (request : Mbim_request) (buffer : List Nat) :
    (inbound request buffer).resp = fresh := rfl

theorem handle_request_invalid (fuel : Nat) (junk : Nat → Nat) (access alloc : Bool)
    (request : Mbim_request)
    (h : databuf_is_valid fuel junk (some request.req) = some false) :
    handle_request fuel junk access alloc request
      = some { request :=
                 { request with
                   type := MBIM_UNKOWN, proto := MB_PROT_UNKOWN,
                   resp := databuf_add_uint alloc (databuf_add_string alloc request.resp MB_ERROR
                     (some (literal "Server : Invalid request"))) MB_RESPONSE MBIM_ERROR },
               backend := none, session := false } := by
  simp only [handle_request, h]

theorem handle_request_no_type (fuel : Nat) (junk : Nat → Nat) (access alloc : Bool)
    (request : Mbim_request) (q : Option Nat)
    (hv : databuf_is_valid fuel junk (some request.req) = some true)
    (h1 : databuf_get_uint fuel junk (some request.req) MB_REQUEST MBIM_UNKOWN
      = some (q, MBIM_UNKOWN)) :
    handle_request fuel junk access alloc request
      = some { request :=
                 { request with
                   type := MBIM_UNKOWN, proto := MB_PROT_UNKOWN,
                   resp := databuf_add_uint alloc (databuf_add_string alloc request.resp MB_ERROR
                     (some (literal "Server : Unknown request"))) MB_RESPONSE MBIM_ERROR },
               backend := none, session := false } := by
  simp only [handle_request, hv, h1, if_true]

theorem handle_request_no_proto (fuel : Nat) (junk : Nat → Nat) (access alloc : Bool)
    (request : Mbim_request) (q1 q2 : Option Nat) (type : Nat)
    (hv : databuf_is_valid fuel junk (some request.req) = some true)
    (h1 : databuf_get_uint fuel junk (some request.req) MB_REQUEST MBIM_UNKOWN
      = some (q1, type)) (ht : type ≠ MBIM_UNKOWN)
    (h2 : databuf_get_uint fuel junk (some request.req) MB_PROTOCOL MB_PROT_UNKOWN
      = some (q2, MB_PROT_UNKOWN)) :
    handle_request fuel junk access alloc request
      = some { request :=
                 { request with
                   type := type, proto := MB_PROT_UNKOWN,
                   resp := databuf_add_uint alloc (databuf_add_string alloc request.resp MB_ERROR
                     (some (literal "Server : Unknown protocol"))) MB_RESPONSE MBIM_ERROR },
               backend := none, session := false } := by
  simp only [handle_request, hv, h1, ht, if_false, h2, if_true]

theorem handle_request_dispatch (fuel : Nat) (junk : Nat → Nat) (access alloc : Bool)
    (request : Mbim_request) (q1 q2 : Option Nat) (type proto : Nat)
    (hv : databuf_is_valid fuel junk (some request.req) = some true)
    (h1 : databuf_get_uint fuel junk (some request.req) MB_REQUEST MBIM_UNKOWN
      = some (q1, type)) (ht : type ≠ MBIM_UNKOWN)
    (h2 : databuf_get_uint fuel junk (some request.req) MB_PROTOCOL MB_PROT_UNKOWN
      = some (q2, proto)) (hp : proto ≠ MB_PROT_UNKOWN) :
    ∃ q3 tid, databuf_get_uint fuel junk (some request.req) MB_SESSION_TID 0 = some (q3, tid)
      ∧ handle_request fuel junk access alloc request
        = some (if proto = MB_PROT_MBIM then
            { request := (mbim_perform_request access alloc
                { request with type := type, proto := proto, tid := tid }).1,
              backend := some Backend.mbim,
              session := (mbim_perform_request access alloc
                { request with type := type, proto := proto, tid := tid }).2 }
          else
            { request := (qmi_perform_request access alloc
                { request with type := type, proto := proto, tid := tid }).1,
              backend := some Backend.qmi,
              session := (qmi_perform_request access alloc
                { request with type := type, proto := proto, tid := tid }).2 }) := by
  obtain ⟨⟨q3, tid⟩, h3⟩ := databuf_get_uint_returns junk fuel request.req MB_SESSION_TID 0 hv
  refine ⟨q3, tid, h3, ?_⟩
  simp only [handle_request, hv, h1, ht, if_false, h2, hp, h3]
  split <;> rfl

theorem databuf_get_uint_some (junk : Nat → Nat) (fuel : Nat) (b : Databuf) (var value pos : Nat)
    (hvar : var % 256 = DT_UINT)
    (h : databuf_get fuel junk (some b) var none = some (some pos)) :
    databuf_get_uint fuel junk (some b) var value
      = some (some pos, rd32 junk (bytes_of (some b)) pos) := by
  simp only [databuf_get_uint, databuf_get_next_uint, hvar, ne_eq, not_true_eq_false, if_false, h]

theorem rejection_shaped (junk : Nat → Nat) (alloc : Bool) (message : List Nat)
    (h : message = literal "Server : Invalid request" ∨ message = literal "Server : Unknown request"
      ∨ message = literal "Server : Unknown protocol" ∨ message = literal "No mbim device file"
      ∨ message = literal "No qmi device file" ∨ message = literal "Unsupported request") :
    databuf_add_uint alloc (databuf_add_string alloc fresh MB_ERROR (some message)) MB_RESPONSE
        MBIM_ERROR = error_response message
      ∧ Shaped (error_response message)
          [{ tag := MB_ERROR, payload := message ++ [0] },
           { tag := MB_RESPONSE, payload := le32 1 }]
      ∧ ∀ f, databuf_is_valid (f + 2) junk (some (error_response message)) = some true :=
  ⟨set_error_fresh alloc message h,
    error_response_shaped message (literal_ok message h).1 (literal_ok message h).2,
    fun f => error_response_valid junk f message (literal_ok message h).1 (literal_ok message h).2⟩

/-- C8: for every inbound buffer on which `databuf_is_valid` returns false, or
on which it returns true and the lookup of `MB_REQUEST` returns not-found, or
the lookup of `MB_REQUEST` returns a field and the lookup of `MB_PROTOCOL`
returns not-found, `handle_request` returns having invoked neither backend, and
the response holds exactly an `MB_ERROR` string field, with one of the three
messages of the router, followed by `MB_RESPONSE = MBIM_ERROR` (1);
`databuf_is_valid` accepts that response. -/
theorem handle_request_rejects (fuel : Nat) (junk : Nat → Nat) (access alloc : Bool)
    (request : Mbim_request) (buffer : List Nat)
    (h : databuf_is_valid fuel junk (some (received buffer)) = some false
      ∨ (databuf_is_valid fuel junk (some (received buffer)) = some true
          ∧ databuf_get fuel junk (some (received buffer)) MB_REQUEST none = some none)
      ∨ (databuf_is_valid fuel junk (some (received buffer)) = some true
          ∧ (∃ pos, databuf_get fuel junk (some (received buffer)) MB_REQUEST none
              = some (some pos))
          ∧ databuf_get fuel junk (some (received buffer)) MB_PROTOCOL none = some none)) :
    ∃ message r,
      handle_request fuel junk access alloc (inbound request buffer)
          = some { request := r, backend := none, session := false }
        ∧ (message = literal "Server : Invalid request"
            ∨ message = literal "Server : Unknown request"
            ∨ message = literal "Server : Unknown protocol")
        ∧ r.resp = error_response message
        ∧ Shaped r.resp
            [{ tag := MB_ERROR, payload := message ++ [0] },
             { tag := MB_RESPONSE, payload := le32 MBIM_ERROR }]
        ∧ ∀ f, databuf_is_valid (f + 2) junk (some r.resp) = some true := by
  have key : ∀ (message : List Nat) (type proto : Nat),
      (message = literal "Server : Invalid request" ∨ message = literal "Server : Unknown request"
        ∨ message = literal "Server : Unknown protocol") →
      handle_request fuel junk access alloc (inbound request buffer)
        = some { request :=
                   { inbound request buffer with
                     type := type, proto := proto,
                     resp := databuf_add_uint alloc (databuf_add_string alloc
                       (inbound request buffer).resp MB_ERROR (some message)) MB_RESPONSE
                       MBIM_ERROR },
                 backend := none, session := false } →
      ∃ message r,
        handle_request fuel junk access alloc (inbound request buffer)
            = some { request := r, backend := none, session := false }
          ∧ (message = literal "Server : Invalid request"
              ∨ message = literal "Server : Unknown request"
              ∨ message = literal "Server : Unknown protocol")
          ∧ r.resp = error_response message
          ∧ Shaped r.resp
              [{ tag := MB_ERROR, payload := message ++ [0] },
               { tag := MB_RESPONSE, payload := le32 MBIM_ERROR }]
          ∧ ∀ f, databuf_is_valid (f + 2) junk (some r.resp) = some true := by
    intro message type proto hm hr
    have hm6 : message = literal "Server : Invalid request"
        ∨ message = literal "Server : Unknown request"
        ∨ message = literal "Server : Unknown protocol" ∨ message = literal "No mbim device file"
        ∨ message = literal "No qmi device file" ∨ message = literal "Unsupported request" := by
      rcases hm with h | h | h
      · exact Or.inl h
      · exact Or.inr (Or.inl h)
      · exact Or.inr (Or.inr (Or.inl h))
    obtain ⟨e1, e2, e3⟩ := rejection_shaped junk alloc message hm6
    refine ⟨message, _, hr, hm, ?_, ?_, ?_⟩
    · exact e1
    · show Shaped (databuf_add_uint alloc (databuf_add_string alloc fresh MB_ERROR
        (some message)) MB_RESPONSE MBIM_ERROR) _
      rw [e1]
      exact e2
    · intro f
      show databuf_is_valid (f + 2) junk (some (databuf_add_uint alloc (databuf_add_string alloc
        fresh MB_ERROR (some message)) MB_RESPONSE MBIM_ERROR)) = some true
      rw [e1]
      exact e3 f
  rcases h with h | ⟨hv, hg⟩ | ⟨hv, ⟨pos, hg⟩, hp⟩
  · exact key _ _ _ (Or.inl rfl)
      (handle_request_invalid fuel junk access alloc (inbound request buffer) h)
  · obtain ⟨q, hq⟩ := databuf_get_uint_none junk fuel (received buffer) MB_REQUEST MBIM_UNKOWN hg
    exact key _ _ _ (Or.inr (Or.inl rfl))
      (handle_request_no_type fuel junk access alloc (inbound request buffer) q hv hq)
  · have h1 := databuf_get_uint_some junk fuel (received buffer) MB_REQUEST MBIM_UNKOWN pos
      (by decide) hg
    by_cases ht : rd32 junk (bytes_of (some (received buffer))) pos = MBIM_UNKOWN
    · rw [ht] at h1
      exact key _ _ _ (Or.inr (Or.inl rfl))
        (handle_request_no_type fuel junk access alloc (inbound request buffer) _ hv h1)
    · obtain ⟨q, hq⟩ := databuf_get_uint_none junk fuel (received buffer) MB_PROTOCOL
        MB_PROT_UNKOWN hp
      exact key _ _ _ (Or.inr (Or.inr rfl))
        (handle_request_no_proto fuel junk access alloc (inbound request buffer) _ q _ hv h1 ht hq)

theorem handle_request_rejects_witness :
    ∃ message r,
      handle_request 1 (fun _ => 0) true true
          (inbound idle [1, 0, 0, 0, 12, 0, 0, 0, 2, 2, 0, 0, 4, 0, 0, 0, 3, 0, 0, 0])
          = some { request := r, backend := none, session := false }
        ∧ (message = literal "Server : Invalid request"
            ∨ message = literal "Server : Unknown request"
            ∨ message = literal "Server : Unknown protocol")
        ∧ r.resp = error_response message
        ∧ Shaped r.resp
            [{ tag := MB_ERROR, payload := message ++ [0] },
             { tag := MB_RESPONSE, payload := le32 MBIM_ERROR }]
        ∧ ∀ f, databuf_is_valid (f + 2) (fun _ => 0) (some r.resp) = some true :=
  handle_request_rejects 1 (fun _ => 0) true true idle
    [1, 0, 0, 0, 12, 0, 0, 0, 2, 2, 0, 0, 4, 0, 0, 0, 3, 0, 0, 0]
    (Or.inr (Or.inr ⟨by decide, ⟨16, by decide⟩, by decide⟩))

theorem error_response_reads (junk : Nat → Nat) (fuel : Nat) (message : List Nat)
    (h : ∀ c ∈ message, 0 < c ∧ c < 256) (hlen : message.length < 2 ^ 30) :
    answers_error (fuel + 2) junk (error_response message) message := by
  have hs := error_response_shaped message h hlen
  have hb : (error_response message).len < 2 ^ 31 := by
    rw [hs.2]
    simp only [wire_length, List.length_append, List.length_singleton, le32_length]
    omega
  have htag : ∀ f ∈ [({ tag := MB_ERROR, payload := message ++ [0] } : Field),
      { tag := MB_RESPONSE, payload := le32 1 }], f.tag < 2 ^ 32 := by
    intro f hf
    simp only [List.mem_cons, List.mem_singleton, List.not_mem_nil, or_false] at hf
    rcases hf with rfl | rfl
    · exact (by decide : MB_ERROR < 2 ^ 32)
    · exact (by decide : MB_RESPONSE < 2 ^ 32)
  have hget := fun var prev => databuf_get_shaped junk _ _ var prev (fuel + 2) hs hb
    (by simp only [List.length_cons, List.length_nil]; omega) htag
  have hmem : bytes_of (some (error_response message))
      = le32 DT_RAW ++ (le32 (wire_length [({ tag := MB_ERROR, payload := message ++ [0] } : Field),
          { tag := MB_RESPONSE, payload := le32 1 }]) ++
        (le32 MB_ERROR ++ (le32 (message ++ [0]).length ++ (message ++ ([0] ++
          (le32 MB_RESPONSE ++ (le32 (le32 1).length ++ le32 1))))))) := by
    simp only [bytes_of, hs.1, Option.getD_some, wire, Field.wire, List.append_assoc,
      List.append_nil]
  constructor
  · refine ⟨8 + 8 + (message ++ [0]).length + 8, ?_⟩
    have hfind := find_field_second MB_ERROR MB_RESPONSE (message ++ [0]) (le32 1) (by decide)
    rw [databuf_get_uint_some junk (fuel + 2) _ MB_RESPONSE 0 _ (by decide)
      ((hget MB_RESPONSE none).trans (congrArg some hfind))]
    rw [hmem]
    have := rd32_append_le32 junk
      (le32 DT_RAW ++ (le32 (wire_length [({ tag := MB_ERROR, payload := message ++ [0] } : Field),
          { tag := MB_RESPONSE, payload := le32 1 }]) ++
        (le32 MB_ERROR ++ (le32 (message ++ [0]).length ++ (message ++ [0] ++
          (le32 MB_RESPONSE ++ le32 (le32 1).length)))))) [] 1
      (8 + 8 + (message ++ [0]).length + 8)
      (by simp only [List.length_append, le32_length, List.length_singleton]; omega)
    simp only [List.append_assoc, List.append_nil] at this
    rw [this]
    rfl
  · refine ⟨8 + wire_length [] + 8, ?_, ?_⟩
    · have hfind := find_field_split [] [{ tag := MB_RESPONSE, payload := le32 1 }]
        { tag := MB_ERROR, payload := message ++ [0] } MB_ERROR none
        (fun e he => by cases he) rfl (fun p hp => by cases hp)
      simp only [databuf_get_string, databuf_get_next_string]
      rw [if_neg (by decide)]
      exact (hget MB_ERROR none).trans (congrArg some hfind)
    · rw [hmem]
      have := string_at_payload (le32 DT_RAW ++ (le32 (wire_length
          [({ tag := MB_ERROR, payload := message ++ [0] } : Field),
            { tag := MB_RESPONSE, payload := le32 1 }]) ++
          (le32 MB_ERROR ++ le32 (message ++ [0]).length))) message
        (le32 MB_RESPONSE ++ (le32 (le32 1).length ++ le32 1)) (8 + wire_length [] + 8)
        (by simp only [List.length_append, le32_length, wire_length]) h
      simpa only [List.append_assoc] using this

/-- C9 (amended): for every valid inbound envelope, with the values that
`databuf_get_uint` stores for `MB_REQUEST` and `MB_PROTOCOL` (the enumerators
`MBIM_UNKOWN` and `MB_PROT_UNKOWN` kept for an absent field): when the request
type is `MBIM_UNKOWN` (11) or the backend selector is `MB_PROT_UNKOWN` (2),
`handle_request` synthesizes an error response and invokes neither backend; for
every other pair of values, recognised or not, it invokes
`mbim_perform_request` when the selector is `MB_PROT_MBIM` (0) and
`qmi_perform_request` for every other selector. -/
theorem handle_request_checks_enumerators (fuel : Nat) (junk : Nat → Nat) (access alloc : Bool)
    (request : Mbim_request) (buffer : List Nat) (q1 q2 : Option Nat) (type proto : Nat)
    (hv : databuf_is_valid fuel junk (some (received buffer)) = some true)
    (h1 : databuf_get_uint fuel junk (some (received buffer)) MB_REQUEST MBIM_UNKOWN
      = some (q1, type))
    (h2 : databuf_get_uint fuel junk (some (received buffer)) MB_PROTOCOL MB_PROT_UNKOWN
      = some (q2, proto)) :
    ((type = MBIM_UNKOWN ∨ proto = MB_PROT_UNKOWN) →
        ∃ message r,
          handle_request fuel junk access alloc (inbound request buffer)
              = some { request := r, backend := none, session := false }
            ∧ r.resp = error_response message)
      ∧ (type ≠ MBIM_UNKOWN → proto ≠ MB_PROT_UNKOWN →
          ∃ h, handle_request fuel junk access alloc (inbound request buffer) = some h
            ∧ h.backend = some (if proto = MB_PROT_MBIM then Backend.mbim else Backend.qmi)) := by
  constructor
  · intro h
    by_cases ht : type = MBIM_UNKOWN
    · subst ht
      exact ⟨literal "Server : Unknown request", _,
        handle_request_no_type fuel junk access alloc (inbound request buffer) q1 hv h1,
        set_error_fresh alloc _ (Or.inr (Or.inl rfl))⟩
    · have hp : proto = MB_PROT_UNKOWN := h.resolve_left ht
      subst hp
      exact ⟨literal "Server : Unknown protocol", _,
        handle_request_no_proto fuel junk access alloc (inbound request buffer) q1 q2 type hv h1
          ht h2,
        set_error_fresh alloc _ (Or.inr (Or.inr (Or.inl rfl)))⟩
  · intro ht hp
    obtain ⟨q3, tid, _, hr⟩ := handle_request_dispatch fuel junk access alloc
      (inbound request buffer) q1 q2 type proto hv h1 ht h2 hp
    refine ⟨_, hr, ?_⟩
    split <;> rfl

theorem handle_request_checks_enumerators_witness :
    ((MBIM_UNKOWN = MBIM_UNKOWN ∨ MB_PROT_QMI = MB_PROT_UNKOWN) →
        ∃ message r,
          handle_request 3 (fun _ => 0) true true
              (inbound idle (request_envelope MBIM_UNKOWN MB_PROT_QMI))
              = some { request := r, backend := none, session := false }
            ∧ r.resp = error_response message)
      ∧ (MBIM_UNKOWN ≠ MBIM_UNKOWN → MB_PROT_QMI ≠ MB_PROT_UNKOWN →
          ∃ h, handle_request 3 (fun _ => 0) true true
              (inbound idle (request_envelope MBIM_UNKOWN MB_PROT_QMI)) = some h
            ∧ h.backend
              = some (if MB_PROT_QMI = MB_PROT_MBIM then Backend.mbim else Backend.qmi)) :=
  handle_request_checks_enumerators 3 (fun _ => 0) true true idle
    (request_envelope MBIM_UNKOWN MB_PROT_QMI) (some 16) (some 28) MBIM_UNKOWN MB_PROT_QMI
    (by decide) (by decide) (by decide)

/-- C9 (counterexample): the envelope carrying request type 9999 and selector
`MB_PROT_MBIM` is valid and `handle_request` invokes `mbim_perform_request`;
the envelope carrying `MBIM_PIN_STATUS` and selector 7 is valid and
`handle_request` invokes `qmi_perform_request`. -/
theorem unrecognised_values_are_dispatched :
    databuf_is_valid 3 (fun _ => 0) (some (received (request_envelope 9999 MB_PROT_MBIM)))
        = some true
      ∧ (handle_request 3 (fun _ => 0) true true
          (inbound idle (request_envelope 9999 MB_PROT_MBIM))).map Handled.backend
        = some (some Backend.mbim)
      ∧ databuf_is_valid 3 (fun _ => 0) (some (received (request_envelope MBIM_PIN_STATUS 7)))
        = some true
      ∧ (handle_request 3 (fun _ => 0) true true
          (inbound idle (request_envelope MBIM_PIN_STATUS 7))).map Handled.backend
        = some (some Backend.qmi) := by
  decide

/-- C10 (amended): for every valid request envelope carrying request type 9999
and the selector of one of the two backends: when the device file is not
readable, the response is exactly `MB_ERROR` "No mbim device file" (MBIM) or
"No qmi device file" (QMI) followed by `MB_RESPONSE = MBIM_ERROR`; when the
device file is readable and the selector is QMI, the response is exactly
`MB_ERROR` "Unsupported request", which mentions "unsupported", followed by
`MB_RESPONSE = MBIM_ERROR`. In both cases no device is created. -/
theorem request_type_9999 (fuel : Nat) (junk : Nat → Nat) (access alloc : Bool)
    (request : Mbim_request) (buffer : List Nat) (q1 q2 : Option Nat) (proto : Nat)
    (hv : databuf_is_valid fuel junk (some (received buffer)) = some true)
    (h1 : databuf_get_uint fuel junk (some (received buffer)) MB_REQUEST MBIM_UNKOWN
      = some (q1, 9999))
    (h2 : databuf_get_uint fuel junk (some (received buffer)) MB_PROTOCOL MB_PROT_UNKOWN
      = some (q2, proto))
    (hp : proto = MB_PROT_MBIM ∨ proto = MB_PROT_QMI) :
    ∃ h, handle_request fuel junk access alloc (inbound request buffer) = some h
      ∧ (access = false →
          h.session = false
            ∧ h.request.resp = error_response
                (if proto = MB_PROT_MBIM then literal "No mbim device file"
                 else literal "No qmi device file")
            ∧ answers_error 2 junk h.request.resp
                (if proto = MB_PROT_MBIM then literal "No mbim device file"
                 else literal "No qmi device file"))
      ∧ (access = true → proto = MB_PROT_QMI →
          h.session = false
            ∧ h.request.resp = error_response (literal "Unsupported request")
            ∧ answers_error 2 junk h.request.resp (literal "Unsupported request")
            ∧ mentions (literal "Unsupported request") (literal "unsupported") = true) := by
  obtain ⟨q3, tid, _, hr⟩ := handle_request_dispatch fuel junk access alloc
    (inbound request buffer) q1 q2 9999 proto hv h1 (by decide)
    h2 (by rcases hp with rfl | rfl <;> decide)
  refine ⟨_, hr, ?_, ?_⟩
  · intro ha
    subst ha
    rcases hp with rfl | rfl
    · have e := set_error_fresh alloc (literal "No mbim device file")
        (Or.inr (Or.inr (Or.inr (Or.inl rfl))))
      have ok := literal_ok (literal "No mbim device file") (Or.inr (Or.inr (Or.inr (Or.inl rfl))))
      simp only [if_true, mbim_perform_request, set_error, inbound_resp, e, true_and]
      exact error_response_reads junk 0 _ ok.1 ok.2
    · have e := set_error_fresh alloc (literal "No qmi device file")
        (Or.inr (Or.inr (Or.inr (Or.inr (Or.inl rfl)))))
      have ok := literal_ok (literal "No qmi device file")
        (Or.inr (Or.inr (Or.inr (Or.inr (Or.inl rfl)))))
      have hne : ¬ MB_PROT_QMI = MB_PROT_MBIM := by decide
      simp only [hne, if_false, qmi_perform_request, if_true, set_error, inbound_resp, e, true_and]
      exact error_response_reads junk 0 _ ok.1 ok.2
  · intro ha hq
    subst ha hq
    have e := set_error_fresh alloc (literal "Unsupported request")
      (Or.inr (Or.inr (Or.inr (Or.inr (Or.inr rfl)))))
    have ok := literal_ok (literal "Unsupported request")
      (Or.inr (Or.inr (Or.inr (Or.inr (Or.inr rfl)))))
    have hne : ¬ MB_PROT_QMI = MB_PROT_MBIM := by decide
    have hty : ¬ (9999 = MBIM_PIN_STATUS ∨ 9999 = MBIM_PIN_ENTER ∨ 9999 = MBIM_REGISTER
        ∨ 9999 = MBIM_PACKET_SERVICE ∨ 9999 = MBIM_SIGNAL ∨ 9999 = MBIM_CONNECT ∨ 9999 = MBIM_IP
        ∨ 9999 = MBIM_STATUS ∨ 9999 = MBIM_ATTACH) := by decide
    simp only [hne, if_false, qmi_perform_request, Bool.true_eq_false, hty, set_error,
      inbound_resp, e, true_and]
    exact ⟨error_response_reads junk 0 _ ok.1 ok.2, by decide⟩

theorem request_type_9999_witness :
    ∃ h, handle_request 3 (fun _ => 0) true true
        (inbound idle (request_envelope 9999 MB_PROT_QMI)) = some h
      ∧ (true = false →
          h.session = false
            ∧ h.request.resp = error_response
                (if MB_PROT_QMI = MB_PROT_MBIM then literal "No mbim device file"
                 else literal "No qmi device file")
            ∧ answers_error 2 (fun _ => 0) h.request.resp
                (if MB_PROT_QMI = MB_PROT_MBIM then literal "No mbim device file"
                 else literal "No qmi device file"))
      ∧ (true = true → MB_PROT_QMI = MB_PROT_QMI →
          h.session = false
            ∧ h.request.resp = error_response (literal "Unsupported request")
            ∧ answers_error 2 (fun _ => 0) h.request.resp (literal "Unsupported request")
            ∧ mentions (literal "Unsupported request") (literal "unsupported") = true) :=
  request_type_9999 3 (fun _ => 0) true true idle (request_envelope 9999 MB_PROT_QMI)
    (some 16) (some 28) MB_PROT_QMI (by decide) (by decide) (by decide) (Or.inr rfl)

/-- C10 (counterexample): for the valid envelope carrying request type 9999
and the selector QMI, the device file not being readable, the response is
`MB_ERROR` "No qmi device file" followed by `MB_RESPONSE = MBIM_ERROR`; the
string read under `MB_ERROR` mentions neither "unknown" nor "unsupported". -/
theorem request_type_9999_without_device :
    databuf_is_valid 3 (fun _ => 0) (some (received (request_envelope 9999 MB_PROT_QMI)))
        = some true
      ∧ (handle_request 3 (fun _ => 0) false true
          (inbound idle (request_envelope 9999 MB_PROT_QMI))).map (fun h => h.request.resp)
        = some (error_response (literal "No qmi device file"))
      ∧ databuf_get_string 2 (fun _ => 0) (some (error_response (literal "No qmi device file")))
          MB_ERROR = some (some 16)
      ∧ string_at (bytes_of (some (error_response (literal "No qmi device file")))) 16
        = literal "No qmi device file"
      ∧ mentions (literal "No qmi device file") (literal "unknown") = false
      ∧ mentions (literal "No qmi device file") (literal "unsupported") = false := by
  decide

/-! ## Calls with a tag of the wrong type -/

/-- C14: for every envelope (also one whose block is `NULL`), every outcome of the
allocation and every value: `databuf_add_string` with a tag whose low byte is
not `DT_STRING` (3) and `databuf_add_uint` with a tag whose low byte is not
`DT_UINT` (2) leave the envelope as it is: the bytes, the length, the capacity
and the size field of the header are unchanged. -/
theorem databuf_add_wrong_type (junk : Nat → Nat) (alloc : Bool) (b : Databuf) (vs vu : Nat)
    (text : Option (List Nat)) (value : Nat) (hs : vs % 256 ≠ DT_STRING)
    (hu : vu % 256 ≠ DT_UINT) :
    (databuf_add_string alloc b vs text = b
        ∧ (databuf_add_string alloc b vs text).buf = b.buf
        ∧ (databuf_add_string alloc b vs text).len = b.len
        ∧ (databuf_add_string alloc b vs text).size = b.size
        ∧ header_size junk (databuf_add_string alloc b vs text) = header_size junk b)
      ∧ (databuf_add_uint alloc b vu value = b
        ∧ (databuf_add_uint alloc b vu value).buf = b.buf
        ∧ (databuf_add_uint alloc b vu value).len = b.len
        ∧ (databuf_add_uint alloc b vu value).size = b.size
        ∧ header_size junk (databuf_add_uint alloc b vu value) = header_size junk b) := by
  have e1 : databuf_add_string alloc b vs text = b := by
    unfold databuf_add_string
    rw [if_pos hs]
  have e2 : databuf_add_uint alloc b vu value = b := by
    unfold databuf_add_uint
    rw [if_pos hu]
  rw [e1, e2]
  exact ⟨⟨rfl, rfl, rfl, rfl, rfl⟩, rfl, rfl, rfl, rfl, rfl⟩

theorem databuf_add_wrong_type_witness :
    (MB_RESPONSE % 256 ≠ DT_STRING ∧ MB_ERROR % 256 ≠ DT_UINT)
      ∧ (databuf_add_string true (build sample_ops) MB_RESPONSE (some [79, 75]) = build sample_ops
        ∧ (databuf_add_string true (build sample_ops) MB_RESPONSE (some [79, 75])).buf
            = (build sample_ops).buf
        ∧ (databuf_add_string true (build sample_ops) MB_RESPONSE (some [79, 75])).len
            = (build sample_ops).len
        ∧ (databuf_add_string true (build sample_ops) MB_RESPONSE (some [79, 75])).size
            = (build sample_ops).size
        ∧ header_size (fun _ => 0)
              (databuf_add_string true (build sample_ops) MB_RESPONSE (some [79, 75]))
            = header_size (fun _ => 0) (build sample_ops))
      ∧ (databuf_add_uint true (build sample_ops) MB_ERROR 7 = build sample_ops
        ∧ (databuf_add_uint true (build sample_ops) MB_ERROR 7).buf = (build sample_ops).buf
        ∧ (databuf_add_uint true (build sample_ops) MB_ERROR 7).len = (build sample_ops).len
        ∧ (databuf_add_uint true (build sample_ops) MB_ERROR 7).size = (build sample_ops).size
        ∧ header_size (fun _ => 0) (databuf_add_uint true (build sample_ops) MB_ERROR 7)
            = header_size (fun _ => 0) (build sample_ops)) :=
  ⟨⟨by decide, by decide⟩,
    databuf_add_wrong_type (fun _ => 0) true (build sample_ops) MB_RESPONSE MB_ERROR
      (some [79, 75]) 7 (by decide) (by decide)⟩

/-- C15: for every envelope (also a `NULL` one), every cursor and every content
of the caller's variable: `databuf_get_next_uint` and `databuf_get_uint` with a
tag whose low byte is not `DT_UINT` (2) return `NULL` and leave the variable as
it was, and `databuf_get_next_string` and `databuf_get_string` with a tag whose
low byte is not `DT_STRING` (3) return `NULL`, whatever fields the envelope
holds; the four functions only read the envelope. -/
theorem databuf_get_wrong_type (fuel : Nat) (junk : Nat → Nat) (p : Option Databuf)
    (vu vs value : Nat) (prev : Option Nat) (hu : vu % 256 ≠ DT_UINT)
    (hs : vs % 256 ≠ DT_STRING) :
    databuf_get_next_uint fuel junk p vu value prev = some (none, value)
      ∧ databuf_get_uint fuel junk p vu value = some (none, value)
      ∧ databuf_get_next_string fuel junk p vs prev = some none
      ∧ databuf_get_string fuel junk p vs = some none := by
  have e1 : databuf_get_next_uint fuel junk p vu value prev = some (none, value) := by
    unfold databuf_get_next_uint
    rw [if_pos hu]
  have e2 : databuf_get_next_uint fuel junk p vu value none = some (none, value) := by
    unfold databuf_get_next_uint
    rw [if_pos hu]
  have e3 : databuf_get_next_string fuel junk p vs prev = some none := by
    unfold databuf_get_next_string
    rw [if_pos hs]
  have e4 : databuf_get_next_string fuel junk p vs none = some none := by
    unfold databuf_get_next_string
    rw [if_pos hs]
  exact ⟨e1, e2, e3, e4⟩

theorem databuf_get_wrong_type_witness :
    (MB_ERROR % 256 ≠ DT_UINT ∧ MB_RESPONSE % 256 ≠ DT_STRING)
      ∧ (databuf_get 4 (fun _ => 0) (some (build sample_ops)) MB_ERROR none = some (some 16)
        ∧ databuf_get 4 (fun _ => 0) (some (build sample_ops)) MB_RESPONSE none
            = some (some 31))
      ∧ (databuf_get_next_uint 4 (fun _ => 0) (some (build sample_ops)) MB_ERROR 77 none
            = some (none, 77)
        ∧ databuf_get_uint 4 (fun _ => 0) (some (build sample_ops)) MB_ERROR 77
            = some (none, 77)
        ∧ databuf_get_next_string 4 (fun _ => 0) (some (build sample_ops)) MB_RESPONSE none
            = some none
        ∧ databuf_get_string 4 (fun _ => 0) (some (build sample_ops)) MB_RESPONSE = some none) :=
  ⟨⟨by decide, by decide⟩, ⟨by decide, by decide⟩,
    databuf_get_wrong_type 4 (fun _ => 0) (some (build sample_ops)) MB_ERROR MB_RESPONSE 77 none
      (by decide) (by decide)⟩


/-! ## The empty envelope -/

theorem databuf_init_fresh (alloc : Bool) (b : Databuf) (h : (databuf_init alloc b).1 = true) :
    (databuf_init alloc b).2 = fresh := by
  cases alloc with
  | false => exact absurd h (by simp [databuf_init])
  | true => rfl

theorem databuf_get_fresh (fuel : Nat) (junk : Nat → Nat) (var : Nat) (prev : Option Nat) :
    databuf_get fuel junk (some fresh) var prev = some none := by
  show databuf_get_loop junk (le32 DT_RAW ++ le32 0) 8 var prev fuel 8 = some none
  exact databuf_get_loop_done junk _ 8 var prev fuel 8 (by decide)

/-- C17: after a `databuf_init` that returns true, the envelope consists of the
header only: its length is 8, its capacity is 512, its bytes are the header
with tag `DT_RAW` (1) and size 0, it holds no field, and for every tag and
every cursor `databuf_get`, `databuf_get_next_string` and
`databuf_get_next_uint` return `NULL`, the latter leaving the caller's
variable as it was. -/
theorem databuf_init_empty (fuel : Nat) (junk : Nat → Nat) (alloc : Bool) (b : Databuf)
    (var value : Nat) (prev : Option Nat) (h : (databuf_init alloc b).1 = true) :
    (databuf_init alloc b).2.len = 8
      ∧ (databuf_init alloc b).2.size = 512
      ∧ (databuf_init alloc b).2.buf = some (le32 DT_RAW ++ le32 0)
      ∧ rd32 junk (bytes_of (some (databuf_init alloc b).2)) 0 = DT_RAW
      ∧ header_size junk (databuf_init alloc b).2 = 0
      ∧ Shaped (databuf_init alloc b).2 []
      ∧ databuf_get fuel junk (some (databuf_init alloc b).2) var prev = some none
      ∧ databuf_get_next_string fuel junk (some (databuf_init alloc b).2) var prev = some none
      ∧ databuf_get_next_uint fuel junk (some (databuf_init alloc b).2) var value prev
          = some (none, value) := by
  rw [databuf_init_fresh alloc b h]
  have hg := databuf_get_fresh fuel junk var prev
  refine ⟨rfl, rfl, rfl, ?_, ?_, fresh_shaped, hg, ?_, ?_⟩
  · exact rd32_header_type junk DT_RAW (le32 0)
  · exact rd32_header_size junk DT_RAW 0 []
  · unfold databuf_get_next_string
    split
    · rfl
    · exact hg
  · unfold databuf_get_next_uint
    split
    · rfl
    · rw [hg]

theorem databuf_init_empty_witness :
    (databuf_init true idle.resp).1 = true
      ∧ (databuf_init true idle.resp).2.len = 8
      ∧ (databuf_init true idle.resp).2.size = 512
      ∧ (databuf_init true idle.resp).2.buf = some (le32 DT_RAW ++ le32 0)
      ∧ rd32 (fun _ => 0) (bytes_of (some (databuf_init true idle.resp).2)) 0 = DT_RAW
      ∧ header_size (fun _ => 0) (databuf_init true idle.resp).2 = 0
      ∧ Shaped (databuf_init true idle.resp).2 []
      ∧ databuf_get 0 (fun _ => 0) (some (databuf_init true idle.resp).2) MB_RESPONSE none
          = some none
      ∧ databuf_get_next_string 0 (fun _ => 0) (some (databuf_init true idle.resp).2)
          MB_RESPONSE none = some none
      ∧ databuf_get_next_uint 0 (fun _ => 0) (some (databuf_init true idle.resp).2)
          MB_RESPONSE 77 none = some (none, 77) :=
  ⟨rfl, databuf_init_empty 0 (fun _ => 0) true idle.resp MB_RESPONSE 77 none rfl⟩

/-! ## The capacity -/

theorem databuf_realloc_size_eq (size : Nat) :
    ∀ (n cur : Nat), size - cur = n →
      databuf_realloc_size size cur = cur + 512 * ((size - cur + 511) / 512) := by
  intro n
  induction n using Nat.strong_induction_on with
  | _ n ih =>
    intro cur hn
    rw [databuf_realloc_size]
    by_cases hgt : size > cur
    · rw [if_pos hgt, ih (size - (cur + CHUNK_SIZE)) (by simp only [CHUNK_SIZE]; omega)
        (cur + CHUNK_SIZE) rfl]
      simp only [CHUNK_SIZE]
      omega
    · rw [if_neg hgt]
      omega

theorem databuf_realloc_size_closed (size cur : Nat) :
    databuf_realloc_size size cur = cur + 512 * ((size - cur + 511) / 512) :=
  databuf_realloc_size_eq size _ cur rfl

theorem set_error_shaped (request : Mbim_request) (fs : List Field) (message : List Nat)
    (h : Shaped request.resp fs) (hm : ∀ c ∈ message, 0 < c ∧ c < 256)
    (hlen : message.length < 2 ^ 30) :
    Shaped (set_error true request (some message)).resp
      (fs ++ [{ tag := MB_ERROR, payload := message ++ [0] },
        { tag := MB_RESPONSE, payload := le32 1 }]) := by
  have h1 : Shaped (databuf_add_string true request.resp MB_ERROR (some message))
      (fs ++ [{ tag := MB_ERROR, payload := message ++ [0] }]) := by
    refine run_shaped request.resp fs (Append.string MB_ERROR (some message))
      { tag := MB_ERROR, payload := message ++ [0] } h ?_ ?_
    · have ht : MB_ERROR % 256 = DT_STRING := by decide
      have hw : MB_ERROR % 2 ^ 32 = MB_ERROR := by decide
      simp only [Append.field, ht, hw, if_true, cstring_eq message hm]
    · simp only [List.length_append, List.length_singleton]
      omega
  have h2 := run_shaped _ _ (Append.uint MB_RESPONSE MBIM_ERROR)
    { tag := MB_RESPONSE, payload := le32 1 } h1 (by decide) (by decide)
  rw [List.append_assoc] at h2
  exact h2

theorem set_error_frame (alloc : Bool) (request : Mbim_request) (error : Option (List Nat)) :
    (set_error alloc request error).type = request.type
      ∧ (set_error alloc request error).proto = request.proto
      ∧ (set_error alloc request error).tid = request.tid
      ∧ (set_error alloc request error).user_data = request.user_data
      ∧ (set_error alloc request error).req = request.req :=
  ⟨rfl, rfl, rfl, rfl, rfl⟩

theorem device_literal_ok :
    ((∀ c ∈ literal "No mbim device file", 0 < c ∧ c < 256)
        ∧ (literal "No mbim device file").length < 2 ^ 30)
      ∧ (∀ c ∈ literal "No qmi device file", 0 < c ∧ c < 256)
        ∧ (literal "No qmi device file").length < 2 ^ 30 :=
  ⟨literal_ok _ (Or.inr (Or.inr (Or.inr (Or.inl rfl)))),
    literal_ok _ (Or.inr (Or.inr (Or.inr (Or.inr (Or.inl rfl)))))⟩

/-- C13: for every request and either backend, the device file not being
readable: `mbim_perform_request` / `qmi_perform_request` return without going
on to create the device, the main loop or the cancellable, so that no call is
made on a device; they leave the request structure as it is but for the
response, and the response, holding the fields `fs` before the call, holds
after it (the allocation succeeding) `fs`, then one `MB_ERROR` string, "No
mbim device file" / "No qmi device file", then `MB_RESPONSE = MBIM_ERROR`; for
the response set up by `databuf_init` this holds whatever `realloc` would
return. -/
theorem perform_request_without_device (fuel : Nat) (junk : Nat → Nat) (alloc : Bool)
    (menv : Mbim_env) (qenv : Qmi_env) (request : Mbim_request) (fs : List Field)
    (h : Shaped request.resp fs) :
    ((mbim_perform_request false true request).2 = false
        ∧ { (mbim_perform_request false true request).1 with resp := request.resp } = request
        ∧ Shaped (mbim_perform_request false true request).1.resp
            (fs ++ [{ tag := MB_ERROR, payload := literal "No mbim device file" ++ [0] },
              { tag := MB_RESPONSE, payload := le32 MBIM_ERROR }])
        ∧ session_events fuel junk alloc menv qenv
            { request := (mbim_perform_request false alloc request).1,
              backend := some Backend.mbim,
              session := (mbim_perform_request false alloc request).2 }
          = some ((mbim_perform_request false alloc request).1, [])
        ∧ (request.resp = fresh →
            (mbim_perform_request false alloc request).1.resp
              = error_response (literal "No mbim device file")))
      ∧ ((qmi_perform_request false true request).2 = false
        ∧ { (qmi_perform_request false true request).1 with resp := request.resp } = request
        ∧ Shaped (qmi_perform_request false true request).1.resp
            (fs ++ [{ tag := MB_ERROR, payload := literal "No qmi device file" ++ [0] },
              { tag := MB_RESPONSE, payload := le32 MBIM_ERROR }])
        ∧ session_events fuel junk alloc menv qenv
            { request := (qmi_perform_request false alloc request).1,
              backend := some Backend.qmi,
              session := (qmi_perform_request false alloc request).2 }
          = some ((qmi_perform_request false alloc request).1, [])
        ∧ (request.resp = fresh →
            (qmi_perform_request false alloc request).1.resp
              = error_response (literal "No qmi device file"))) := by
  refine ⟨⟨rfl, rfl, ?_, rfl, ?_⟩, rfl, rfl, ?_, rfl, ?_⟩
  · exact set_error_shaped request fs _ h device_literal_ok.1.1 device_literal_ok.1.2
  · intro hf
    show databuf_add_uint alloc (databuf_add_string alloc request.resp MB_ERROR _) MB_RESPONSE
      MBIM_ERROR = _
    rw [hf]
    exact set_error_fresh alloc _ (Or.inr (Or.inr (Or.inr (Or.inl rfl))))
  · exact set_error_shaped request fs _ h device_literal_ok.2.1 device_literal_ok.2.2
  · intro hf
    show databuf_add_uint alloc (databuf_add_string alloc request.resp MB_ERROR _) MB_RESPONSE
      MBIM_ERROR = _
    rw [hf]
    exact set_error_fresh alloc _ (Or.inr (Or.inr (Or.inr (Or.inr (Or.inl rfl)))))


theorem perform_request_without_device_witness :
    Shaped (connect_request MB_PROT_MBIM).resp []
      ∧ ((mbim_perform_request false true (connect_request MB_PROT_MBIM)).2 = false
        ∧ { (mbim_perform_request false true (connect_request MB_PROT_MBIM)).1 with
            resp := (connect_request MB_PROT_MBIM).resp } = connect_request MB_PROT_MBIM
        ∧ Shaped (mbim_perform_request false true (connect_request MB_PROT_MBIM)).1.resp
            ([] ++ [{ tag := MB_ERROR, payload := literal "No mbim device file" ++ [0] },
              { tag := MB_RESPONSE, payload := le32 MBIM_ERROR }])
        ∧ session_events 3 (fun _ => 0) false ready_mbim ready_qmi
            { request := (mbim_perform_request false false (connect_request MB_PROT_MBIM)).1,
              backend := some Backend.mbim,
              session := (mbim_perform_request false false (connect_request MB_PROT_MBIM)).2 }
          = some ((mbim_perform_request false false (connect_request MB_PROT_MBIM)).1, [])
        ∧ ((connect_request MB_PROT_MBIM).resp = fresh →
            (mbim_perform_request false false (connect_request MB_PROT_MBIM)).1.resp
              = error_response (literal "No mbim device file")))
      ∧ ((qmi_perform_request false true (connect_request MB_PROT_MBIM)).2 = false
        ∧ { (qmi_perform_request false true (connect_request MB_PROT_MBIM)).1 with
            resp := (connect_request MB_PROT_MBIM).resp } = connect_request MB_PROT_MBIM
        ∧ Shaped (qmi_perform_request false true (connect_request MB_PROT_MBIM)).1.resp
            ([] ++ [{ tag := MB_ERROR, payload := literal "No qmi device file" ++ [0] },
              { tag := MB_RESPONSE, payload := le32 MBIM_ERROR }])
        ∧ session_events 3 (fun _ => 0) false ready_mbim ready_qmi
            { request := (qmi_perform_request false false (connect_request MB_PROT_MBIM)).1,
              backend := some Backend.qmi,
              session := (qmi_perform_request false false (connect_request MB_PROT_MBIM)).2 }
          = some ((qmi_perform_request false false (connect_request MB_PROT_MBIM)).1, [])
        ∧ ((connect_request MB_PROT_MBIM).resp = fresh →
            (qmi_perform_request false false (connect_request MB_PROT_MBIM)).1.resp
              = error_response (literal "No qmi device file"))) :=
  ⟨fresh_shaped,
    perform_request_without_device 3 (fun _ => 0) false ready_mbim ready_qmi
      (connect_request MB_PROT_MBIM) [] fresh_shaped⟩

/-! ## The backend invoked -/

/-- C19 (amended): for every inbound envelope that passes the checks of
`handle_request` (it is valid, the value stored for `MB_REQUEST` is not
`MBIM_UNKOWN`, the value stored for `MB_PROTOCOL` is not `MB_PROT_UNKOWN`),
`handle_request` returns after one call of one backend on the request with
the three values stored: `mbim_perform_request` if and only if the selector is
`MB_PROT_MBIM` (0), and `qmi_perform_request` if and only if the selector is
any other value, `MB_PROT_QMI` (1) among them. -/
theorem handle_request_invokes_one (fuel : Nat) (junk : Nat → Nat) (access alloc : Bool)
    (request : Mbim_request) (q1 q2 : Option Nat) (type proto : Nat)
    (hv : databuf_is_valid fuel junk (some request.req) = some true)
    (h1 : databuf_get_uint fuel junk (some request.req) MB_REQUEST MBIM_UNKOWN
      = some (q1, type)) (ht : type ≠ MBIM_UNKOWN)
    (h2 : databuf_get_uint fuel junk (some request.req) MB_PROTOCOL MB_PROT_UNKOWN
      = some (q2, proto)) (hp : proto ≠ MB_PROT_UNKOWN) :
    ∃ h tid, handle_request fuel junk access alloc request = some h
      ∧ (h.backend = some Backend.mbim ↔ proto = MB_PROT_MBIM)
      ∧ (h.backend = some Backend.qmi ↔ proto ≠ MB_PROT_MBIM)
      ∧ (proto = MB_PROT_QMI → h.backend = some Backend.qmi)
      ∧ (proto = MB_PROT_MBIM →
          h.request = (mbim_perform_request access alloc
              { request with type := type, proto := proto, tid := tid }).1
            ∧ h.session = (mbim_perform_request access alloc
              { request with type := type, proto := proto, tid := tid }).2)
      ∧ (proto ≠ MB_PROT_MBIM →
          h.request = (qmi_perform_request access alloc
              { request with type := type, proto := proto, tid := tid }).1
            ∧ h.session = (qmi_perform_request access alloc
              { request with type := type, proto := proto, tid := tid }).2) := by
  obtain ⟨q3, tid, _, hr⟩ := handle_request_dispatch fuel junk access alloc request q1 q2 type
    proto hv h1 ht h2 hp
  refine ⟨_, tid, hr, ?_⟩
  by_cases hm : proto = MB_PROT_MBIM
  · rw [if_pos hm]
    refine ⟨⟨fun _ => hm, fun _ => rfl⟩, ⟨fun h => ?_, fun h => absurd hm h⟩, fun h => ?_,
      fun _ => ⟨rfl, rfl⟩, fun h => absurd hm h⟩
    · exact absurd h (by simp)
    · rw [hm] at h
      exact absurd h (by decide)
  · rw [if_neg hm]
    refine ⟨⟨fun h => ?_, fun h => absurd h hm⟩, ⟨fun _ => hm, fun _ => rfl⟩, fun _ => rfl,
      fun h => absurd h hm, fun _ => ⟨rfl, rfl⟩⟩
    exact absurd h (by simp)

theorem handle_request_invokes_one_witness :
    ∃ h tid, handle_request 3 (fun _ => 0) true true (connect_request MB_PROT_QMI) = some h
      ∧ (h.backend = some Backend.mbim ↔ MB_PROT_QMI = MB_PROT_MBIM)
      ∧ (h.backend = some Backend.qmi ↔ MB_PROT_QMI ≠ MB_PROT_MBIM)
      ∧ (MB_PROT_QMI = MB_PROT_QMI → h.backend = some Backend.qmi)
      ∧ (MB_PROT_QMI = MB_PROT_MBIM →
          h.request = (mbim_perform_request true true
              { connect_request MB_PROT_QMI with
                type := MBIM_CONNECT, proto := MB_PROT_QMI, tid := tid }).1
            ∧ h.session = (mbim_perform_request true true
              { connect_request MB_PROT_QMI with
                type := MBIM_CONNECT, proto := MB_PROT_QMI, tid := tid }).2)
      ∧ (MB_PROT_QMI ≠ MB_PROT_MBIM →
          h.request = (qmi_perform_request true true
              { connect_request MB_PROT_QMI with
                type := MBIM_CONNECT, proto := MB_PROT_QMI, tid := tid }).1
            ∧ h.session = (qmi_perform_request true true
              { connect_request MB_PROT_QMI with
                type := MBIM_CONNECT, proto := MB_PROT_QMI, tid := tid }).2) :=
  handle_request_invokes_one 3 (fun _ => 0) true true (connect_request MB_PROT_QMI) (some 16)
    (some 28) MBIM_CONNECT MB_PROT_QMI (by decide) (by decide) (by decide) (by decide)
    (by decide)

/-- C19 (counterexample): the envelope carrying `MBIM_SIGNAL` and the selector 7
is valid, the value stored for `MB_PROTOCOL` is 7, which is neither
`MB_PROT_UNKOWN` nor `MB_PROT_QMI` (1), and `handle_request` invokes
`qmi_perform_request`, which goes on to create the device. -/
theorem selector_seven_invokes_qmi :
    databuf_is_valid 3 (fun _ => 0) (some (received (request_envelope MBIM_SIGNAL 7)))
        = some true
      ∧ databuf_get_uint 3 (fun _ => 0) (some (received (request_envelope MBIM_SIGNAL 7)))
          MB_PROTOCOL MB_PROT_UNKOWN = some (some 28, 7)
      ∧ MB_PROT_QMI = 1
      ∧ MB_PROT_UNKOWN = 2
      ∧ (handle_request 3 (fun _ => 0) true true
          (inbound idle (request_envelope MBIM_SIGNAL 7))).map
            (fun h => (h.backend, h.session, h.request.proto))
        = some (some Backend.qmi, true, 7) := by
  decide


/-! ## The transaction id -/

theorem databuf_get_uint_stored (junk : Nat → Nat) (fuel : Nat) (b : Databuf) (var value : Nat)
    (q : Option Nat) (v : Nat) (hvar : var % 256 = DT_UINT)
    (h : databuf_get_uint fuel junk (some b) var value = some (q, v)) :
    (databuf_get fuel junk (some b) var none = some none ∧ v = value)
      ∨ ∃ pos, databuf_get fuel junk (some b) var none = some (some pos)
          ∧ v = rd32 junk (bytes_of (some b)) pos := by
  cases hg : databuf_get fuel junk (some b) var none with
  | none =>
    unfold databuf_get_uint databuf_get_next_uint at h
    rw [if_neg (fun hn => hn hvar), hg] at h
    exact absurd h (by simp)
  | some r =>
    cases r with
    | none =>
      obtain ⟨q0, hq⟩ := databuf_get_uint_none junk fuel b var value hg
      rw [hq] at h
      have hv : value = v := congrArg Prod.snd (Option.some.inj h)
      exact Or.inl ⟨rfl, hv.symm⟩
    | some pos =>
      rw [databuf_get_uint_some junk fuel b var value pos hvar hg] at h
      have hv : rd32 junk (bytes_of (some b)) pos = v := congrArg Prod.snd (Option.some.inj h)
      exact Or.inr ⟨pos, rfl, hv.symm⟩

/-! ## The field of a string -/

theorem fetch_length (obj : List Nat) (len : Nat) : (fetch obj len).length = len := by
  unfold fetch
  rw [List.length_append, List.length_take, List.length_replicate]
  omega

theorem databuf_add_fetch (alloc : Bool) (b : Databuf) (var : Nat) (obj : List Nat) (len : Nat) :
    databuf_add alloc b var (some obj) len = databuf_add alloc b var (some (fetch obj len)) len := by
  have e := fetch_all (fetch obj len) len (fetch_length obj len).symm
  unfold databuf_add
  simp only [e]

theorem databuf_add_string_cut (b : Databuf) (var : Nat) (s : List Nat) (k : Nat)
    (hvar : var % 256 = DT_STRING) (hlen : strlen s + 1 = 2 ^ 32 + k) (hk : k < 2 ^ 31) :
    databuf_add_string true b var (some s)
      = (databuf_add true b var (some ((cstring s).take k)) k).1 := by
  have hi : int_of_size (strlen s + 1) = k := by
    unfold int_of_size
    omega
  have hz : size_of_int k = k := by
    unfold size_of_int
    rw [if_pos hk]
  have hf : fetch (cstring s) k = (cstring s).take k := by
    unfold fetch
    have hc := cstring_length s
    have : k - (cstring s).length = 0 := by omega
    rw [this, List.replicate_zero, List.append_nil]
  unfold databuf_add_string
  rw [if_neg (fun h => h hvar)]
  simp only [hi, hz, Option.map_some']
  rw [databuf_add_fetch, hf]

theorem huge_string_length : strlen huge_string + 1 = 2 ^ 32 + 5 := by
  rw [huge_string, strlen_replicate _ _ (by decide)]

theorem huge_string_start : (cstring huge_string).take 5 = [65, 65, 65, 65, 65] := by
  have hc : cstring huge_string = huge_string ++ [0] := by
    apply cstring_eq
    intro c hc
    rw [huge_string] at hc
    rw [List.eq_of_mem_replicate hc]
    decide
  rw [hc, List.take_append_of_le_length (by rw [huge_string, List.length_replicate]; norm_num),
    huge_string, List.take_replicate, Nat.min_eq_left (by norm_num)]
  rfl

/-- C16 (amended): for every envelope that holds the header and the fields `fs`,
every tag whose low byte is `DT_STRING` and every string whose length plus 1
is below 2^31, the allocation succeeding: after `databuf_add_string` the
envelope holds `fs` and one more field with that tag, whose declared size is
the length of the string plus 1 and whose payload is the bytes of the string
followed by a NUL byte; the length of the envelope has grown by 8 plus that
size. -/
theorem databuf_add_string_field (b : Databuf) (fs : List Field) (var : Nat) (s : List Nat)
    (h : Shaped b fs) (hvar : var % 256 = DT_STRING) (hlen : strlen s + 1 < 2 ^ 31) :
    Shaped (databuf_add_string true b var (some s))
        (fs ++ [{ tag := var % 2 ^ 32,
                  payload := s.takeWhile (fun c => c % 256 != 0) ++ [0] }])
      ∧ Field.wire { tag := var % 2 ^ 32, payload := s.takeWhile (fun c => c % 256 != 0) ++ [0] }
          = le32 (var % 2 ^ 32) ++ le32 (strlen s + 1)
              ++ (s.takeWhile (fun c => c % 256 != 0) ++ [0])
      ∧ (s.takeWhile (fun c => c % 256 != 0)).length = strlen s
      ∧ (databuf_add_string true b var (some s)).len = b.len + 8 + (strlen s + 1) := by
  have hs : Shaped (databuf_add_string true b var (some s))
      (fs ++ [{ tag := var % 2 ^ 32, payload := cstring s }]) := by
    refine run_shaped b fs (Append.string var (some s)) { tag := var % 2 ^ 32, payload := cstring s }
      h ?_ ?_
    · simp only [Append.field, hvar, if_true]
    · show (cstring s).length < 2 ^ 31
      rw [cstring_length]
      exact hlen
  refine ⟨hs, ?_, rfl, ?_⟩
  · have hl : (s.takeWhile (fun c => c % 256 != 0) ++ [0]).length = strlen s + 1 :=
      cstring_length s
    simp only [Field.wire, hl]
  · rw [hs.2, h.2, wire_length_append]
    have hl : (cstring s).length = strlen s + 1 := cstring_length s
    simp only [wire_length, hl]
    omega

theorem databuf_add_string_field_witness :
    (Shaped fresh [] ∧ MB_ERROR % 256 = DT_STRING ∧ strlen [79, 75] + 1 < 2 ^ 31)
      ∧ Shaped (databuf_add_string true fresh MB_ERROR (some [79, 75]))
          ([] ++ [{ tag := MB_ERROR % 2 ^ 32,
                    payload := [79, 75].takeWhile (fun c => c % 256 != 0) ++ [0] }])
      ∧ Field.wire { tag := MB_ERROR % 2 ^ 32,
                     payload := [79, 75].takeWhile (fun c => c % 256 != 0) ++ [0] }
          = le32 (MB_ERROR % 2 ^ 32) ++ le32 (strlen [79, 75] + 1)
              ++ ([79, 75].takeWhile (fun c => c % 256 != 0) ++ [0])
      ∧ ([79, 75].takeWhile (fun c => c % 256 != 0)).length = strlen [79, 75]
      ∧ (databuf_add_string true fresh MB_ERROR (some [79, 75])).len
          = fresh.len + 8 + (strlen [79, 75] + 1) :=
  ⟨⟨fresh_shaped, by decide, by decide⟩,
    databuf_add_string_field fresh [] MB_ERROR [79, 75] fresh_shaped (by decide) (by decide)⟩

/-- C16 (counterexample): for the string of 2^32 + 4 letters `A`,
`databuf_add_string` on the empty envelope with the tag `MB_ERROR` appends a
field whose declared size is 5, not 2^32 + 5, and whose payload is five
letters `A` without a NUL byte. -/
theorem huge_string_is_cut :
    strlen huge_string + 1 = 2 ^ 32 + 5
      ∧ databuf_add_string true fresh MB_ERROR (some huge_string)
        = { buf := some (le32 DT_RAW ++ le32 13
              ++ (le32 MB_ERROR ++ le32 5 ++ [65, 65, 65, 65, 65])),
            size := 512, len := 21 }
      ∧ Shaped (databuf_add_string true fresh MB_ERROR (some huge_string))
          [{ tag := MB_ERROR, payload := [65, 65, 65, 65, 65] }] := by
  have e : databuf_add_string true fresh MB_ERROR (some huge_string)
      = { buf := some (le32 DT_RAW ++ le32 13
            ++ (le32 MB_ERROR ++ le32 5 ++ [65, 65, 65, 65, 65])),
          size := 512, len := 21 } := by
    rw [databuf_add_string_cut fresh MB_ERROR huge_string 5 (by decide) huge_string_length
      (by norm_num), huge_string_start]
    decide
  refine ⟨huge_string_length, e, ?_⟩
  rw [e]
  exact ⟨rfl, rfl⟩


/-! ## A CONNECT request without an APN -/

theorem mbim_device_open_no_apn (fuel : Nat) (junk : Nat → Nat) (alloc : Bool)
    (env : Mbim_env) (request : Mbim_request) (ho : env.open_error = none)
    (ht : request.type = MBIM_CONNECT)
    (hapn : databuf_get_string fuel junk (some request.req) MB_APN = some none) :
    Mbim.device_open_ready fuel junk alloc env request
      = some (set_error alloc
          { request with
            resp := databuf_add_string alloc request.resp MB_DEVICE env.path, user_data := 0 }
          (some (literal "You must provide an APN (MB_APN)")), []) := by
  have n0 : ¬ MBIM_CONNECT = MBIM_PIN_STATUS := by decide
  have n1 : ¬ MBIM_CONNECT = MBIM_PIN_ENTER := by decide
  have n2 : ¬ MBIM_CONNECT = MBIM_SUBSCRIBER := by decide
  have n3 : ¬ MBIM_CONNECT = MBIM_REGISTER := by decide
  have n4 : ¬ MBIM_CONNECT = MBIM_ATTACH := by decide
  unfold Mbim.device_open_ready
  simp only [ho, ht, n0, n1, n2, n3, n4, if_false, if_true, hapn, Mbim.device_open_end]

theorem mbim_main_loop_no_apn (fuel : Nat) (junk : Nat → Nat) (alloc : Bool)
    (env : Mbim_env) (request : Mbim_request) (hn : env.new_error = none)
    (ho : env.open_error = none) (ht : request.type = MBIM_CONNECT)
    (hapn : databuf_get_string fuel junk (some request.req) MB_APN = some none) :
    Mbim.g_main_loop_run fuel junk alloc env request
      = some (set_error alloc
          { request with
            resp := databuf_add_string alloc request.resp MB_DEVICE env.path, user_data := 0 }
          (some (literal "You must provide an APN (MB_APN)")),
        if request.tid ≠ 0 then
          [Event.mbim_device_new, Event.mbim_device_in_session request.tid,
            Event.mbim_device_open_full 5]
        else [Event.mbim_device_new, Event.mbim_device_open_full 5]) := by
  unfold Mbim.g_main_loop_run Mbim.device_new_ready
  simp only [hn]
  by_cases h0 : request.tid ≠ 0
  · simp only [h0, if_true, ne_eq, not_false_eq_true,
      mbim_device_open_no_apn fuel junk alloc env request ho ht hapn, List.append_nil,
      List.cons_append, List.nil_append]
  · simp only [h0, if_false,
      mbim_device_open_no_apn fuel junk alloc env request ho ht hapn, List.append_nil,
      List.cons_append, List.nil_append]

theorem qmi_allocate_client_no_apn (fuel : Nat) (junk : Nat → Nat) (alloc : Bool)
    (env : Qmi_env) (request : Mbim_request) (hc : env.client_error = none)
    (ht : request.type = MBIM_CONNECT)
    (hapn : databuf_get_string fuel junk (some request.req) MB_APN = some none) :
    Qmi.allocate_client_ready fuel junk alloc env request
      = some (set_error alloc
          { request with resp := databuf_add_string alloc request.resp MB_DEVICE env.path }
          (some (literal "You must provide an APN (MB_APN)")),
        [Event.g_release_cid true, Event.g_release_cid false]) := by
  have n0 : ¬ MBIM_CONNECT = MBIM_PIN_STATUS := by decide
  have n1 : ¬ MBIM_CONNECT = MBIM_PIN_ENTER := by decide
  have n2 : ¬ (MBIM_CONNECT = MBIM_REGISTER ∨ MBIM_CONNECT = MBIM_PACKET_SERVICE) := by decide
  unfold Qmi.allocate_client_ready
  simp only [hc, ht, n0, n1, n2, if_false, if_true, hapn]

theorem qmi_main_loop_no_apn (fuel : Nat) (junk : Nat → Nat) (alloc : Bool)
    (env : Qmi_env) (request : Mbim_request) (hn : env.new_error = none)
    (ho : env.open_error = none) (hc : env.client_error = none)
    (ht : request.type = MBIM_CONNECT)
    (hapn : databuf_get_string fuel junk (some request.req) MB_APN = some none) :
    Qmi.g_main_loop_run fuel junk alloc env request
      = some (set_error alloc
          { request with resp := databuf_add_string alloc request.resp MB_DEVICE env.path }
          (some (literal "You must provide an APN (MB_APN)")),
        [Event.qmi_device_new, Event.qmi_device_open 15, Event.qmi_device_allocate_client 10,
          Event.g_release_cid true, Event.g_release_cid false]) := by
  have n4 : ¬ MBIM_CONNECT = MBIM_ATTACH := by decide
  unfold Qmi.g_main_loop_run Qmi.device_new_ready Qmi.device_open_ready
  simp only [hn, ho, ht, n4, if_false, if_true,
    qmi_allocate_client_no_apn fuel junk alloc env request hc ht hapn, List.append_nil,
    List.cons_append, List.nil_append]

theorem connect_response_shaped (request : Mbim_request) (path message : List Nat)
    (h : request.resp = fresh) (hpath : ∀ c ∈ path, 0 < c ∧ c < 256)
    (hpl : path.length < 2 ^ 30) (hm : ∀ c ∈ message, 0 < c ∧ c < 256)
    (hml : message.length < 2 ^ 30) :
    Shaped (set_error true
        { request with resp := databuf_add_string true request.resp MB_DEVICE (some path) }
        (some message)).resp
      [{ tag := MB_DEVICE, payload := path ++ [0] },
       { tag := MB_ERROR, payload := message ++ [0] },
       { tag := MB_RESPONSE, payload := le32 1 }] := by
  have h1 : Shaped (databuf_add_string true request.resp MB_DEVICE (some path))
      ([] ++ [{ tag := MB_DEVICE, payload := path ++ [0] }]) := by
    rw [h]
    refine run_shaped fresh [] (Append.string MB_DEVICE (some path))
      { tag := MB_DEVICE, payload := path ++ [0] } fresh_shaped ?_ ?_
    · have ht : MB_DEVICE % 256 = DT_STRING := by decide
      have hw : MB_DEVICE % 2 ^ 32 = MB_DEVICE := by decide
      simp only [Append.field, ht, hw, if_true, cstring_eq path hpath]
    · simp only [List.length_append, List.length_singleton]
      omega
  exact set_error_shaped
    { request with resp := databuf_add_string true request.resp MB_DEVICE (some path) }
    _ message h1 hm hml


theorem apn_literal_ok :
    (∀ c ∈ literal "You must provide an APN (MB_APN)", 0 < c ∧ c < 256)
      ∧ (literal "You must provide an APN (MB_APN)").length < 2 ^ 30 := by
  decide

/-- C11 (amended): for every valid CONNECT envelope for one of the two backends
that carries no `MB_APN` field, the device file being readable and the device
being created and opened (QMI: and the client allocated) without an error:
the backend creates and opens the device before it looks for the field
(MBIM: `mbim_device_new`, `mbim_device_open_full`; QMI: `qmi_device_new`,
`qmi_device_open`, `qmi_device_allocate_client`), sends no command, and when
`device_open_ready` (QMI: `allocate_client_ready`) returns, the response holds
`MB_DEVICE` with the path of the device, `MB_ERROR` with "You must provide an
APN (MB_APN)", which names the field, and `MB_RESPONSE = MBIM_ERROR`. -/
theorem connect_without_apn (fuel : Nat) (junk : Nat → Nat) (request : Mbim_request)
    (buffer : List Nat) (q1 q2 : Option Nat) (proto : Nat) (menv : Mbim_env) (qenv : Qmi_env)
    (path : List Nat)
    (hv : databuf_is_valid fuel junk (some (received buffer)) = some true)
    (h1 : databuf_get_uint fuel junk (some (received buffer)) MB_REQUEST MBIM_UNKOWN
      = some (q1, MBIM_CONNECT))
    (h2 : databuf_get_uint fuel junk (some (received buffer)) MB_PROTOCOL MB_PROT_UNKOWN
      = some (q2, proto))
    (hp : proto = MB_PROT_MBIM ∨ proto = MB_PROT_QMI)
    (hapn : databuf_get_string fuel junk (some (received buffer)) MB_APN = some none)
    (hm : menv.new_error = none ∧ menv.open_error = none ∧ menv.path = some path)
    (hq : qenv.new_error = none ∧ qenv.open_error = none ∧ qenv.client_error = none
      ∧ qenv.path = some path)
    (hpath : ∀ c ∈ path, 0 < c ∧ c < 256) (hpl : path.length < 2 ^ 30) :
    ∃ h r, handle_request fuel junk true true (inbound request buffer) = some h
      ∧ h.session = true
      ∧ session_events fuel junk true menv qenv h
          = some (r,
              if proto = MB_PROT_MBIM then
                (if h.request.tid ≠ 0 then
                  [Event.mbim_device_new, Event.mbim_device_in_session h.request.tid,
                    Event.mbim_device_open_full 5]
                else [Event.mbim_device_new, Event.mbim_device_open_full 5])
              else
                [Event.qmi_device_new, Event.qmi_device_open 15,
                  Event.qmi_device_allocate_client 10, Event.g_release_cid true,
                  Event.g_release_cid false])
      ∧ Shaped r.resp
          [{ tag := MB_DEVICE, payload := path ++ [0] },
           { tag := MB_ERROR, payload := literal "You must provide an APN (MB_APN)" ++ [0] },
           { tag := MB_RESPONSE, payload := le32 MBIM_ERROR }]
      ∧ mentions (literal "You must provide an APN (MB_APN)") (literal "MB_APN") = true := by
  obtain ⟨q3, tid, _, hr⟩ := handle_request_dispatch fuel junk true true
    (inbound request buffer) q1 q2 MBIM_CONNECT proto hv h1 (by decide)
    h2 (by rcases hp with rfl | rfl <;> decide)
  obtain ⟨hmn, hmo, hmp⟩ := hm
  obtain ⟨hqn, hqo, hqc, hqp⟩ := hq
  rcases hp with rfl | rfl
  · rw [if_pos rfl] at hr
    refine ⟨_, set_error true
      { type := MBIM_CONNECT, proto := MB_PROT_MBIM, tid := tid, user_data := 0,
        req := received buffer,
        resp := databuf_add_string true fresh MB_DEVICE menv.path }
      (some (literal "You must provide an APN (MB_APN)")), hr, rfl, ?_, ?_, by decide⟩
    · rw [if_pos rfl]
      exact mbim_main_loop_no_apn fuel junk true menv
        { inbound request buffer with type := MBIM_CONNECT, proto := MB_PROT_MBIM, tid := tid }
        hmn hmo rfl hapn
    · rw [hmp]
      exact connect_response_shaped
        { inbound request buffer with type := MBIM_CONNECT, proto := MB_PROT_MBIM, tid := tid }
        path _ rfl hpath hpl apn_literal_ok.1 apn_literal_ok.2
  · have hne : ¬ MB_PROT_QMI = MB_PROT_MBIM := by decide
    rw [if_neg hne] at hr
    refine ⟨_, set_error true
      { type := MBIM_CONNECT, proto := MB_PROT_QMI, tid := tid,
        user_data := request.user_data, req := received buffer,
        resp := databuf_add_string true fresh MB_DEVICE qenv.path }
      (some (literal "You must provide an APN (MB_APN)")), hr, rfl, ?_, ?_, by decide⟩
    · rw [if_neg hne]
      exact qmi_main_loop_no_apn fuel junk true qenv
        { inbound request buffer with type := MBIM_CONNECT, proto := MB_PROT_QMI, tid := tid }
        hqn hqo hqc rfl hapn
    · rw [hqp]
      exact connect_response_shaped
        { inbound request buffer with type := MBIM_CONNECT, proto := MB_PROT_QMI, tid := tid }
        path _ rfl hpath hpl apn_literal_ok.1 apn_literal_ok.2


theorem device_path_ok :
    (∀ c ∈ MBIM_NNG_DEVICE, 0 < c ∧ c < 256) ∧ MBIM_NNG_DEVICE.length < 2 ^ 30 := by
  decide

theorem connect_without_apn_witness :
    ∃ h r, handle_request 3 (fun _ => 0) true true
        (inbound idle (request_envelope MBIM_CONNECT MB_PROT_QMI)) = some h
      ∧ h.session = true
      ∧ session_events 3 (fun _ => 0) true ready_mbim ready_qmi h
          = some (r,
              if MB_PROT_QMI = MB_PROT_MBIM then
                (if h.request.tid ≠ 0 then
                  [Event.mbim_device_new, Event.mbim_device_in_session h.request.tid,
                    Event.mbim_device_open_full 5]
                else [Event.mbim_device_new, Event.mbim_device_open_full 5])
              else
                [Event.qmi_device_new, Event.qmi_device_open 15,
                  Event.qmi_device_allocate_client 10, Event.g_release_cid true,
                  Event.g_release_cid false])
      ∧ Shaped r.resp
          [{ tag := MB_DEVICE, payload := MBIM_NNG_DEVICE ++ [0] },
           { tag := MB_ERROR, payload := literal "You must provide an APN (MB_APN)" ++ [0] },
           { tag := MB_RESPONSE, payload := le32 MBIM_ERROR }]
      ∧ mentions (literal "You must provide an APN (MB_APN)") (literal "MB_APN") = true :=
  connect_without_apn 3 (fun _ => 0) idle (request_envelope MBIM_CONNECT MB_PROT_QMI) (some 16)
    (some 28) MB_PROT_QMI ready_mbim ready_qmi MBIM_NNG_DEVICE (by decide) (by decide)
    (by decide) (Or.inr rfl) (by decide) ⟨rfl, rfl, rfl⟩ ⟨rfl, rfl, rfl, rfl⟩ device_path_ok.1
    device_path_ok.2

/-- C11 (counterexample): the CONNECT envelopes for MBIM and for QMI that carry
the request type and the selector only are valid and hold no `MB_APN` field;
while `handle_request` handles them, the device file being readable, the
backend calls `mbim_device_new` and `mbim_device_open_full` (QMI:
`qmi_device_new`, `qmi_device_open` and `qmi_device_allocate_client`). -/
theorem connect_without_apn_opens_device :
    databuf_is_valid 3 (fun _ => 0) (some (received (request_envelope MBIM_CONNECT MB_PROT_MBIM)))
        = some true
      ∧ databuf_get_string 3 (fun _ => 0)
          (some (received (request_envelope MBIM_CONNECT MB_PROT_MBIM))) MB_APN = some none
      ∧ ((handle_request 3 (fun _ => 0) true true (connect_request MB_PROT_MBIM)).bind
          (session_events 3 (fun _ => 0) true ready_mbim ready_qmi)).map Prod.snd
        = some [Event.mbim_device_new, Event.mbim_device_open_full 5]
      ∧ databuf_is_valid 3 (fun _ => 0) (some (received (request_envelope MBIM_CONNECT MB_PROT_QMI)))
        = some true
      ∧ databuf_get_string 3 (fun _ => 0)
          (some (received (request_envelope MBIM_CONNECT MB_PROT_QMI))) MB_APN = some none
      ∧ ((handle_request 3 (fun _ => 0) true true (connect_request MB_PROT_QMI)).bind
          (session_events 3 (fun _ => 0) true ready_mbim ready_qmi)).map Prod.snd
        = some [Event.qmi_device_new, Event.qmi_device_open 15,
            Event.qmi_device_allocate_client 10, Event.g_release_cid true,
            Event.g_release_cid false] := by
  decide

/-! ## Paths that neither send a command nor end the session -/

/-- C12 (code bug): with the device created and opened without an error, the
calls made while `handle_request` handles a CONNECT envelope without `MB_APN`,
a PIN_ENTER envelope without `MB_PIN_CODE` (either backend) and an envelope of
request type 9999 (MBIM) end with the opening of the device (QMI: with the
allocation of the client and the assignments to `g_release_cid`): when
`device_open_ready` / `allocate_client_ready` returns, no command has been
sent and neither `mbim_close` / `operation_shutdown` nor `g_main_loop_quit`
has been called; `get_packet_service_status_ready` of `qmi.c` returns the same
way when the command has failed. -/
theorem validation_failure_leaves_session_open :
    ((handle_request 3 (fun _ => 0) true true (connect_request MB_PROT_MBIM)).bind
          (session_events 3 (fun _ => 0) true ready_mbim ready_qmi)).map Prod.snd
        = some [Event.mbim_device_new, Event.mbim_device_open_full 5]
      ∧ ((handle_request 3 (fun _ => 0) true true
            (inbound idle (request_envelope MBIM_PIN_ENTER MB_PROT_MBIM))).bind
          (session_events 3 (fun _ => 0) true ready_mbim ready_qmi)).map Prod.snd
        = some [Event.mbim_device_new, Event.mbim_device_open_full 5]
      ∧ ((handle_request 3 (fun _ => 0) true true
            (inbound idle (request_envelope 9999 MB_PROT_MBIM))).bind
          (session_events 3 (fun _ => 0) true ready_mbim ready_qmi)).map Prod.snd
        = some [Event.mbim_device_new, Event.mbim_device_open_full 5]
      ∧ ((handle_request 3 (fun _ => 0) true true (connect_request MB_PROT_QMI)).bind
          (session_events 3 (fun _ => 0) true ready_mbim ready_qmi)).map Prod.snd
        = some [Event.qmi_device_new, Event.qmi_device_open 15,
            Event.qmi_device_allocate_client 10, Event.g_release_cid true,
            Event.g_release_cid false]
      ∧ ((handle_request 3 (fun _ => 0) true true
            (inbound idle (request_envelope MBIM_PIN_ENTER MB_PROT_QMI))).bind
          (session_events 3 (fun _ => 0) true ready_mbim ready_qmi)).map Prod.snd
        = some [Event.qmi_device_new, Event.qmi_device_open 15,
            Event.qmi_device_allocate_client 10, Event.g_release_cid true]
      ∧ (Qmi.get_packet_service_status_ready true (some (literal "Transaction timed out")) none 0
          (connect_request MB_PROT_QMI)).2 = []
      ∧ (Qmi.get_packet_service_status_ready true none (some (literal "Internal")) 0
          (connect_request MB_PROT_QMI)).2 = [] := by
  decide


/-! ## The attempts to open the socket -/

theorem rep_server_open_loop_end (outcome : Nat → Server_open) :
    rep_server_open_loop outcome 3 = (false, []) := by
  rw [rep_server_open_loop, if_neg (by decide)]

theorem rep_server_open_loop_step (outcome : Nat → Server_open) (retry : Nat)
    (h : retry < NODE_BIND_RETRIES) :
    rep_server_open_loop outcome retry
      = if (server_open (outcome retry)).1 = true then (true, (server_open (outcome retry)).2)
        else ((rep_server_open_loop outcome (retry + 1)).1,
          (server_open (outcome retry)).2
            ++ [Server_call.sleep_us (NODE_RETRY_SLEEP * (retry + 1))]
            ++ (rep_server_open_loop outcome (retry + 1)).2) := by
  rw [rep_server_open_loop, if_pos h]

theorem server_open_true (o : Server_open) : (server_open o).1 = true ↔ o = Server_open.opened := by
  cases o <;> simp [server_open]

theorem open_attempts_server_open (o : Server_open) : open_attempts (server_open o).2 = 1 := by
  cases o <;> rfl

theorem delays_server_open (o : Server_open) : delays (server_open o).2 = [] := by
  cases o <;> rfl

theorem open_attempts_append (a b : List Server_call) :
    open_attempts (a ++ b) = open_attempts a + open_attempts b := by
  simp only [open_attempts, List.count_append]

theorem delays_append (a b : List Server_call) : delays (a ++ b) = delays a ++ delays b := by
  simp only [delays, List.filterMap_append]

theorem rep_server_open_eq (outcome : Nat → Server_open) :
    rep_server_open outcome
      = if outcome 0 = Server_open.opened then (true, (server_open (outcome 0)).2)
        else if outcome 1 = Server_open.opened then
          (true, (server_open (outcome 0)).2 ++ [Server_call.sleep_us (NODE_RETRY_SLEEP * 1)]
            ++ (server_open (outcome 1)).2)
        else if outcome 2 = Server_open.opened then
          (true, (server_open (outcome 0)).2 ++ [Server_call.sleep_us (NODE_RETRY_SLEEP * 1)]
            ++ ((server_open (outcome 1)).2 ++ [Server_call.sleep_us (NODE_RETRY_SLEEP * 2)]
              ++ (server_open (outcome 2)).2))
        else
          (false, (server_open (outcome 0)).2 ++ [Server_call.sleep_us (NODE_RETRY_SLEEP * 1)]
            ++ ((server_open (outcome 1)).2 ++ [Server_call.sleep_us (NODE_RETRY_SLEEP * 2)]
              ++ ((server_open (outcome 2)).2
                ++ [Server_call.sleep_us (NODE_RETRY_SLEEP * 3)] ++ []))) := by
  unfold rep_server_open
  rw [rep_server_open_loop_step outcome 0 (by decide),
    rep_server_open_loop_step outcome 1 (by decide),
    rep_server_open_loop_step outcome 2 (by decide), rep_server_open_loop_end]
  simp only [server_open_true]
  by_cases h0 : outcome 0 = Server_open.opened
  · simp only [h0, if_true]
  · by_cases h1 : outcome 1 = Server_open.opened
    · simp only [h0, h1, if_true, if_false]
    · by_cases h2 : outcome 2 = Server_open.opened
      · simp only [h0, h1, h2, if_true, if_false]
      · simp only [h0, h1, h2, if_false]

/-- C24: for every sequence of outcomes of the attempts to open and bind the
socket, `rep_server_open` makes at most `NODE_BIND_RETRIES` (3) attempts; it
returns true at the first attempt that succeeds, having made no further one,
and false only after three failed attempts; after the k-th failed attempt,
the third included, it sleeps k times 200000 microseconds. -/
theorem rep_server_open_retries (outcome : Nat → Server_open) :
    open_attempts (rep_server_open outcome).2 ≤ NODE_BIND_RETRIES
      ∧ (outcome 0 = Server_open.opened →
          (rep_server_open outcome).1 = true ∧ open_attempts (rep_server_open outcome).2 = 1
            ∧ delays (rep_server_open outcome).2 = [])
      ∧ (outcome 0 ≠ Server_open.opened → outcome 1 = Server_open.opened →
          (rep_server_open outcome).1 = true ∧ open_attempts (rep_server_open outcome).2 = 2
            ∧ delays (rep_server_open outcome).2 = [1 * 200000])
      ∧ (outcome 0 ≠ Server_open.opened → outcome 1 ≠ Server_open.opened →
          outcome 2 = Server_open.opened →
          (rep_server_open outcome).1 = true ∧ open_attempts (rep_server_open outcome).2 = 3
            ∧ delays (rep_server_open outcome).2 = [1 * 200000, 2 * 200000])
      ∧ (outcome 0 ≠ Server_open.opened → outcome 1 ≠ Server_open.opened →
          outcome 2 ≠ Server_open.opened →
          (rep_server_open outcome).1 = false ∧ open_attempts (rep_server_open outcome).2 = 3
            ∧ delays (rep_server_open outcome).2 = [1 * 200000, 2 * 200000, 3 * 200000])
      ∧ ((rep_server_open outcome).1 = false →
          outcome 0 ≠ Server_open.opened ∧ outcome 1 ≠ Server_open.opened
            ∧ outcome 2 ≠ Server_open.opened) := by
  have e := rep_server_open_eq outcome
  have hs : ∀ n, delays [Server_call.sleep_us n] = [n] := fun _ => rfl
  have ha : ∀ n, open_attempts [Server_call.sleep_us n] = 0 := fun _ => rfl
  have hn : open_attempts [] = 0 := rfl
  have hd : delays [] = [] := rfl
  have hN : NODE_RETRY_SLEEP = 200000 := by decide
  by_cases h0 : outcome 0 = Server_open.opened
  · rw [if_pos h0] at e
    rw [e]
    simp only [h0, open_attempts_server_open, delays_server_open, NODE_BIND_RETRIES, ne_eq,
      not_true_eq_false, false_implies, true_implies, and_self, Bool.true_eq_false, true_and,
      Nat.one_le_ofNat]
  · rw [if_neg h0] at e
    by_cases h1 : outcome 1 = Server_open.opened
    · rw [if_pos h1] at e
      rw [e]
      simp only [h0, h1, open_attempts_append, delays_append, open_attempts_server_open,
        delays_server_open, hs, ha, hN, NODE_BIND_RETRIES, ne_eq, not_true_eq_false,
        not_false_eq_true, false_implies, true_implies, and_self, Bool.true_eq_false, true_and,
        List.nil_append, List.append_nil, Nat.reduceAdd, Nat.reduceLeDiff, Nat.reduceMul]
    · rw [if_neg h1] at e
      by_cases h2 : outcome 2 = Server_open.opened
      · rw [if_pos h2] at e
        rw [e]
        simp only [h0, h1, h2, open_attempts_append, delays_append, open_attempts_server_open,
          delays_server_open, hs, ha, hN, NODE_BIND_RETRIES, ne_eq, not_true_eq_false,
          not_false_eq_true, false_implies, true_implies, and_self, Bool.true_eq_false,
          true_and, List.nil_append, List.append_nil, Nat.reduceAdd, Nat.reduceLeDiff,
          Nat.reduceMul, Nat.le_refl, List.cons_append]
      · rw [if_neg h2] at e
        rw [e]
        simp only [h0, h1, h2, open_attempts_append, delays_append, open_attempts_server_open,
          delays_server_open, hs, ha, hn, hd, hN, NODE_BIND_RETRIES, ne_eq, not_true_eq_false,
          not_false_eq_true, false_implies, true_implies, and_self, true_and,
          List.nil_append, List.append_nil, Nat.reduceAdd, Nat.reduceLeDiff,
          Nat.reduceMul, Nat.le_refl, List.cons_append]


theorem rep_server_open_retries_witness :
    open_attempts (rep_server_open second_attempt).2 ≤ NODE_BIND_RETRIES
      ∧ (second_attempt 0 = Server_open.opened →
          (rep_server_open second_attempt).1 = true
            ∧ open_attempts (rep_server_open second_attempt).2 = 1
            ∧ delays (rep_server_open second_attempt).2 = [])
      ∧ (second_attempt 0 ≠ Server_open.opened → second_attempt 1 = Server_open.opened →
          (rep_server_open second_attempt).1 = true
            ∧ open_attempts (rep_server_open second_attempt).2 = 2
            ∧ delays (rep_server_open second_attempt).2 = [1 * 200000])
      ∧ (second_attempt 0 ≠ Server_open.opened → second_attempt 1 ≠ Server_open.opened →
          second_attempt 2 = Server_open.opened →
          (rep_server_open second_attempt).1 = true
            ∧ open_attempts (rep_server_open second_attempt).2 = 3
            ∧ delays (rep_server_open second_attempt).2 = [1 * 200000, 2 * 200000])
      ∧ (second_attempt 0 ≠ Server_open.opened → second_attempt 1 ≠ Server_open.opened →
          second_attempt 2 ≠ Server_open.opened →
          (rep_server_open second_attempt).1 = false
            ∧ open_attempts (rep_server_open second_attempt).2 = 3
            ∧ delays (rep_server_open second_attempt).2
              = [1 * 200000, 2 * 200000, 3 * 200000])
      ∧ ((rep_server_open second_attempt).1 = false →
          second_attempt 0 ≠ Server_open.opened ∧ second_attempt 1 ≠ Server_open.opened
            ∧ second_attempt 2 ≠ Server_open.opened) :=
  rep_server_open_retries second_attempt

/-! ## The timeouts of the commands -/

theorem mbim_timeouts (fuel : Nat) (junk : Nat → Nat) (alloc : Bool) (env : Mbim_env)
    (request r : Mbim_request) (events : List Event)
    (h : Mbim.device_open_ready fuel junk alloc env request = some (r, events)) :
    ((request.type = MBIM_ATTACH ∨ request.type = MBIM_CONNECT) →
        ∀ t ∈ command_timeouts events, t = 120)
      ∧ ((request.type = MBIM_PIN_STATUS ∨ request.type = MBIM_SUBSCRIBER
          ∨ request.type = MBIM_REGISTER ∨ request.type = MBIM_IP
          ∨ request.type = MBIM_STATUS ∨ request.type = MBIM_DEVICE_CAPS
          ∨ request.type = MBIM_PACKET_SERVICE ∨ request.type = MBIM_SIGNAL) →
        ∀ t ∈ command_timeouts events, t = 40 ∨ t = 60) := by
  constructor
  · intro ht t hmem
    unfold Mbim.device_open_ready at h
    rcases ht with ht | ht
    all_goals
      simp only [ht, MBIM_PIN_STATUS, MBIM_PIN_ENTER, MBIM_SUBSCRIBER, MBIM_REGISTER, MBIM_ATTACH,
        MBIM_CONNECT, OfNat.ofNat_ne_zero, Nat.reduceEqDiff, if_false, if_true] at h
      repeat' split at h
    all_goals try cases h
    all_goals try simp [command_timeouts, Mbim.device_open_end] at hmem
    all_goals exact hmem
  · intro ht t hmem
    unfold Mbim.device_open_ready at h
    rcases ht with ht | ht | ht | ht | ht | ht | ht | ht
    all_goals
      simp only [ht, MBIM_PIN_STATUS, MBIM_PIN_ENTER, MBIM_SUBSCRIBER, MBIM_REGISTER, MBIM_ATTACH,
        MBIM_CONNECT, MBIM_IP, MBIM_STATUS, MBIM_DEVICE_CAPS, MBIM_PACKET_SERVICE, MBIM_SIGNAL,
        OfNat.ofNat_ne_zero, Nat.reduceEqDiff, if_false, if_true] at h
      repeat' split at h
    all_goals try cases h
    all_goals try simp [command_timeouts, Mbim.device_open_end] at hmem
    all_goals omega

theorem qmi_timeouts (fuel : Nat) (junk : Nat → Nat) (alloc : Bool) (env : Qmi_env)
    (request r : Mbim_request) (events : List Event)
    (h : Qmi.allocate_client_ready fuel junk alloc env request = some (r, events)) :
    (request.type = MBIM_CONNECT → ∀ t ∈ command_timeouts events, t = 180)
      ∧ ((request.type = MBIM_PIN_STATUS ∨ request.type = MBIM_SUBSCRIBER
          ∨ request.type = MBIM_REGISTER ∨ request.type = MBIM_IP
          ∨ request.type = MBIM_STATUS ∨ request.type = MBIM_DEVICE_CAPS
          ∨ request.type = MBIM_PACKET_SERVICE ∨ request.type = MBIM_SIGNAL) →
        ∀ t ∈ command_timeouts events, t = 10) := by
  constructor
  · intro ht t hmem
    unfold Qmi.allocate_client_ready at h
    simp only [ht, MBIM_PIN_STATUS, MBIM_PIN_ENTER, MBIM_SUBSCRIBER, MBIM_REGISTER, MBIM_ATTACH,
      MBIM_CONNECT, MBIM_IP, MBIM_STATUS, MBIM_DEVICE_CAPS, MBIM_PACKET_SERVICE, MBIM_SIGNAL,
      OfNat.ofNat_ne_zero, Nat.reduceEqDiff, if_false, if_true, or_self, or_false, false_or]
      at h
    repeat' split at h
    all_goals try cases h
    all_goals try simp [command_timeouts] at hmem
    all_goals exact hmem
  · intro ht t hmem
    unfold Qmi.allocate_client_ready at h
    rcases ht with ht | ht | ht | ht | ht | ht | ht | ht
    all_goals
      simp only [ht, MBIM_PIN_STATUS, MBIM_PIN_ENTER, MBIM_SUBSCRIBER, MBIM_REGISTER, MBIM_ATTACH,
        MBIM_CONNECT, MBIM_IP, MBIM_STATUS, MBIM_DEVICE_CAPS, MBIM_PACKET_SERVICE, MBIM_SIGNAL,
        OfNat.ofNat_ne_zero, Nat.reduceEqDiff, if_false, if_true, or_self, or_false, false_or,
        or_true, true_or] at h
      repeat' split at h
    all_goals try cases h
    all_goals try simp [command_timeouts] at hmem
    all_goals exact hmem

/-- C25: in both backends, for the command sent at the dispatch of a request:
the timeout passed with the commands of the long-running request types (MBIM:
ATTACH and CONNECT, 120 seconds; QMI: CONNECT, 180 seconds) is strictly greater
than the timeout passed with the command of every status or query request
type (PIN_STATUS, SUBSCRIBER, REGISTER, IP, STATUS, DEVICE_CAPS,
PACKET_SERVICE, SIGNAL) of the same backend (MBIM: 40 seconds, 60 for IP;
QMI: 10 seconds). -/
theorem long_commands_have_longer_timeout (fuel : Nat) (junk : Nat → Nat) (alloc : Bool)
    (menv : Mbim_env) (qenv : Qmi_env) (long query : Mbim_request)
    (hq : query.type = MBIM_PIN_STATUS ∨ query.type = MBIM_SUBSCRIBER
      ∨ query.type = MBIM_REGISTER ∨ query.type = MBIM_IP ∨ query.type = MBIM_STATUS
      ∨ query.type = MBIM_DEVICE_CAPS ∨ query.type = MBIM_PACKET_SERVICE
      ∨ query.type = MBIM_SIGNAL) :
    ((long.type = MBIM_ATTACH ∨ long.type = MBIM_CONNECT) →
        ∀ (rl rq : Mbim_request) (el eq : List Event) (tl tq : Nat),
          Mbim.device_open_ready fuel junk alloc menv long = some (rl, el) →
          Mbim.device_open_ready fuel junk alloc menv query = some (rq, eq) →
          tl ∈ command_timeouts el → tq ∈ command_timeouts eq →
          tl = 120 ∧ (tq = 40 ∨ tq = 60) ∧ tq < tl)
      ∧ (long.type = MBIM_CONNECT →
        ∀ (rl rq : Mbim_request) (el eq : List Event) (tl tq : Nat),
          Qmi.allocate_client_ready fuel junk alloc qenv long = some (rl, el) →
          Qmi.allocate_client_ready fuel junk alloc qenv query = some (rq, eq) →
          tl ∈ command_timeouts el → tq ∈ command_timeouts eq →
          tl = 180 ∧ tq = 10 ∧ tq < tl) := by
  constructor
  · intro ht rl rq el eq tl tq h1 h2 hl htq
    have a := (mbim_timeouts fuel junk alloc menv long rl el h1).1 ht tl hl
    have b := (mbim_timeouts fuel junk alloc menv query rq eq h2).2 hq tq htq
    exact ⟨a, b, by omega⟩
  · intro ht rl rq el eq tl tq h1 h2 hl htq
    have a := (qmi_timeouts fuel junk alloc qenv long rl el h1).1 ht tl hl
    have b := (qmi_timeouts fuel junk alloc qenv query rq eq h2).2 hq tq htq
    exact ⟨a, b, by omega⟩

set_option maxRecDepth 8000 in
theorem long_commands_have_longer_timeout_witness :
    ((ip_request.type = MBIM_PIN_STATUS ∨ ip_request.type = MBIM_SUBSCRIBER
        ∨ ip_request.type = MBIM_REGISTER ∨ ip_request.type = MBIM_IP
        ∨ ip_request.type = MBIM_STATUS ∨ ip_request.type = MBIM_DEVICE_CAPS
        ∨ ip_request.type = MBIM_PACKET_SERVICE ∨ ip_request.type = MBIM_SIGNAL)
      ∧ (Mbim.device_open_ready 7 (fun _ => 0) true ready_mbim credentials_request).map
          (fun r => command_timeouts r.2) = some [120]
      ∧ (Mbim.device_open_ready 7 (fun _ => 0) true ready_mbim ip_request).map
          (fun r => command_timeouts r.2) = some [60]
      ∧ (Qmi.allocate_client_ready 7 (fun _ => 0) true ready_qmi credentials_request).map
          (fun r => command_timeouts r.2) = some [180]
      ∧ (Qmi.allocate_client_ready 7 (fun _ => 0) true ready_qmi ip_request).map
          (fun r => command_timeouts r.2) = some [10])
    ∧ ((credentials_request.type = MBIM_ATTACH ∨ credentials_request.type = MBIM_CONNECT) →
        ∀ (rl rq : Mbim_request) (el eq : List Event) (tl tq : Nat),
          Mbim.device_open_ready 7 (fun _ => 0) true ready_mbim credentials_request
            = some (rl, el) →
          Mbim.device_open_ready 7 (fun _ => 0) true ready_mbim ip_request = some (rq, eq) →
          tl ∈ command_timeouts el → tq ∈ command_timeouts eq →
          tl = 120 ∧ (tq = 40 ∨ tq = 60) ∧ tq < tl)
      ∧ (credentials_request.type = MBIM_CONNECT →
        ∀ (rl rq : Mbim_request) (el eq : List Event) (tl tq : Nat),
          Qmi.allocate_client_ready 7 (fun _ => 0) true ready_qmi credentials_request
            = some (rl, el) →
          Qmi.allocate_client_ready 7 (fun _ => 0) true ready_qmi ip_request = some (rq, eq) →
          tl ∈ command_timeouts el → tq ∈ command_timeouts eq →
          tl = 180 ∧ tq = 10 ∧ tq < tl) :=
  ⟨⟨by decide, by decide, by decide, by decide, by decide⟩,
    long_commands_have_longer_timeout 7 (fun _ => 0) true ready_mbim ready_qmi
      credentials_request ip_request (by decide)⟩


/-! ## The value returned by an append -/

/-- C26 (amended): for every envelope, tag, source object and length:
`databuf_add` returns 0 and leaves the envelope as it is when the envelope has
no block, and, the sum `buf->len + len + 8` staying below 2^63, when the
envelope has to grow and `realloc` fails. Otherwise, the sum staying below
2^63 and the source object holding `len` bytes, it returns the length `len` of
the payload, the field header not counted, while the length of the envelope
grows by the 8 bytes of the field header and, for a source object that is not
`NULL`, by `len`. It returns 0 exactly when the append failed or `len` is 0. -/
theorem databuf_add_returns (alloc : Bool) (b : Databuf) (var : Nat) (value : Option (List Nat))
    (len : Nat) :
    (b.buf = none → databuf_add alloc b var value len = (b, 0))
      ∧ (b.len + len + 8 < 2 ^ 63 → b.len + len + 8 > b.size → alloc = false →
          databuf_add alloc b var value len = (b, 0))
      ∧ (b.buf ≠ none → b.len + len + 8 < 2 ^ 63 →
          (∀ obj, value = some obj → len ≤ obj.length) →
          (b.len + len + 8 ≤ b.size ∨ alloc = true) →
          (databuf_add alloc b var value len).2 = len
            ∧ (databuf_add alloc b var value len).1.len
                = b.len + 8 + (if value ≠ none ∧ 0 < len then len else 0)
            ∧ ((databuf_add alloc b var value len).2 = 0 ↔ len = 0)) := by
  refine ⟨?_, ?_, ?_⟩
  · intro h
    unfold databuf_add
    rw [h]
  · intro hsum hg ha
    subst ha
    have hmod : (b.len + len + 8) % 2 ^ 64 = b.len + len + 8 := Nat.mod_eq_of_lt (by omega)
    unfold databuf_add
    cases hb : b.buf with
    | none => rfl
    | some mem => simp only [hmod, hg, if_true, databuf_realloc, Bool.false_eq_true, if_false]
  · intro hb hsum _ hs
    have hmod : (b.len + len + 8) % 2 ^ 64 = b.len + len + 8 := Nat.mod_eq_of_lt (by omega)
    cases hm : b.buf with
    | none => exact absurd hm hb
    | some mem =>
      have hr : (if b.len + len + 8 > b.size then databuf_realloc alloc b (b.len + len + 8)
          else (true, b)).1 = true := by
        by_cases hg : b.len + len + 8 > b.size
        · have ha : alloc = true := hs.resolve_left (by omega)
          subst ha
          rw [if_pos hg]
          rfl
        · rw [if_neg hg]
      have e : (databuf_add alloc b var value len).2 = len := by
        unfold databuf_add
        simp only [hm, hmod, hr, Bool.true_eq_false, if_false]
      refine ⟨e, ?_, by rw [e]⟩
      unfold databuf_add
      simp only [hm, hmod, hr, Bool.true_eq_false, if_false]
      cases value with
      | none => simp
      | some obj =>
        by_cases hl : 0 < len
        · simp [hl]
        · simp [hl]

theorem databuf_add_returns_witness :
    (databuf_add true fresh MB_RESPONSE (some (le32 1)) 4).2 = 4
      ∧ (databuf_add true fresh MB_RESPONSE (some (le32 1)) 4).1.len
          = fresh.len + 8 + (if some (le32 1) ≠ none ∧ 0 < 4 then 4 else 0)
      ∧ ((databuf_add true fresh MB_RESPONSE (some (le32 1)) 4).2 = 0 ↔ 4 = 0) :=
  (databuf_add_returns true fresh MB_RESPONSE (some (le32 1)) 4).2.2 (by decide) (by decide)
    (fun obj h => by cases h; decide) (Or.inr rfl)

/-- C26 (counterexample): on the empty envelope, the append of a `UInt32` under
`MB_RESPONSE` writes the 8 bytes of the field header and the 4 bytes of the
payload, the length growing from 8 to 20, and `databuf_add` returns 4; the
append of a `NULL` string under `MB_ERROR`, as `databuf_add_string` makes it,
succeeds, the length growing from 8 to 16, and `databuf_add` returns 0. -/
theorem databuf_add_returns_payload_length :
    fresh.len = 8
      ∧ databuf_add true fresh MB_RESPONSE (some (le32 1)) 4
        = ({ buf := some (le32 DT_RAW ++ le32 12 ++ (le32 MB_RESPONSE ++ le32 4 ++ le32 1)),
             size := 512, len := 20 }, 4)
      ∧ databuf_add true fresh MB_ERROR none 0
        = ({ buf := some (le32 DT_RAW ++ le32 8 ++ (le32 MB_ERROR ++ le32 0)),
             size := 512, len := 16 }, 0)
      ∧ databuf_add_string true fresh MB_ERROR none
        = (databuf_add true fresh MB_ERROR none 0).1 := by
  decide


/-! ## The answer to a PIN query -/

theorem add_uint_shaped (b : Databuf) (fs : List Field) (var value : Nat) (h : Shaped b fs)
    (hvar : var % 256 = DT_UINT) (hw : var < 2 ^ 32) :
    Shaped (databuf_add_uint true b var value) (fs ++ [{ tag := var, payload := le32 value }]) := by
  refine run_shaped b fs (Append.uint var value) { tag := var, payload := le32 value } h ?_
    (by show (le32 value).length < 2 ^ 31; rw [le32_length]; decide)
  simp only [Append.field, hvar, if_true, Nat.mod_eq_of_lt hw]

/-- C21: for a PIN_STATUS request on the MBIM backend, the device being opened
without an error: `device_open_ready` sends the PIN query with `pin_ready` as
completion callback, registered with the request; and whenever the query has
completed and its response has been parsed without an error and reports the
PIN state `MBIM_PIN_STATE_UNLOCKED`, whatever PIN type it reports, `pin_ready`
appends to the response `MB_PIN_STATUS = MBIM_PIN_UNLOCK` (0) and `MB_RESPONSE
= MBIM_OK` (0) and nothing else, so no `MB_ERROR` field, and calls
`mbim_close`. -/
theorem pin_ready_unlocked (fuel : Nat) (junk : Nat → Nat) (env : Mbim_env)
    (request : Mbim_request) (fs : List Field) (pin_type : Nat)
    (h : Shaped request.resp fs) (ht : request.type = MBIM_PIN_STATUS)
    (ho : env.open_error = none) :
    Mbim.device_open_ready fuel junk true env request
        = some ({ request with
                  resp := databuf_add_string true request.resp MB_DEVICE env.path,
                  user_data := 0 },
            [Event.mbim_device_command (some Mbim_message.pin_query) 40 Mbim_callback.pin_ready
              true])
      ∧ Shaped (Mbim.pin_ready true none none pin_type MBIM_PIN_STATE_UNLOCKED request).1.resp
          (fs ++ [{ tag := MB_PIN_STATUS, payload := le32 MBIM_PIN_UNLOCK },
            { tag := MB_RESPONSE, payload := le32 MBIM_OK }])
      ∧ MB_PIN_STATUS ≠ MB_ERROR ∧ MB_RESPONSE ≠ MB_ERROR
      ∧ (Mbim.pin_ready true none none pin_type MBIM_PIN_STATE_UNLOCKED request).2
          = [Event.mbim_close]
      ∧ { (Mbim.pin_ready true none none pin_type MBIM_PIN_STATE_UNLOCKED request).1 with
          resp := request.resp } = request := by
  have e : Mbim.pin_ready true none none pin_type MBIM_PIN_STATE_UNLOCKED request
      = ({ request with
           resp := databuf_add_uint true
             (databuf_add_uint true request.resp MB_PIN_STATUS MBIM_PIN_UNLOCK) MB_RESPONSE
             MBIM_OK },
         [Event.mbim_close]) := by
    unfold Mbim.pin_ready
    simp only [true_or, if_true]
  refine ⟨?_, ?_, by decide, by decide, ?_, ?_⟩
  · unfold Mbim.device_open_ready
    simp only [ho, ht, if_true, Mbim.device_open_end, List.append_nil]
  · rw [e]
    have h1 := add_uint_shaped request.resp fs MB_PIN_STATUS MBIM_PIN_UNLOCK h (by decide)
      (by decide)
    have h2 := add_uint_shaped _ _ MB_RESPONSE MBIM_OK h1 (by decide) (by decide)
    rw [List.append_assoc] at h2
    exact h2
  · rw [e]
  · rw [e]

theorem pin_request_shaped :
    Shaped pin_request.resp [{ tag := MB_DEVICE, payload := MBIM_NNG_DEVICE ++ [0] }] :=
  ⟨by decide, by decide⟩

theorem pin_ready_unlocked_witness :
    (Shaped pin_request.resp [{ tag := MB_DEVICE, payload := MBIM_NNG_DEVICE ++ [0] }]
      ∧ pin_request.type = MBIM_PIN_STATUS ∧ ready_mbim.open_error = none)
    ∧ Mbim.device_open_ready 3 (fun _ => 0) true ready_mbim pin_request
        = some ({ pin_request with
                  resp := databuf_add_string true pin_request.resp MB_DEVICE ready_mbim.path,
                  user_data := 0 },
            [Event.mbim_device_command (some Mbim_message.pin_query) 40 Mbim_callback.pin_ready
              true])
      ∧ Shaped (Mbim.pin_ready true none none MBIM_PIN_TYPE_PIN1 MBIM_PIN_STATE_UNLOCKED
            pin_request).1.resp
          ([{ tag := MB_DEVICE, payload := MBIM_NNG_DEVICE ++ [0] }]
            ++ [{ tag := MB_PIN_STATUS, payload := le32 MBIM_PIN_UNLOCK },
              { tag := MB_RESPONSE, payload := le32 MBIM_OK }])
      ∧ MB_PIN_STATUS ≠ MB_ERROR ∧ MB_RESPONSE ≠ MB_ERROR
      ∧ (Mbim.pin_ready true none none MBIM_PIN_TYPE_PIN1 MBIM_PIN_STATE_UNLOCKED
            pin_request).2 = [Event.mbim_close]
      ∧ { (Mbim.pin_ready true none none MBIM_PIN_TYPE_PIN1 MBIM_PIN_STATE_UNLOCKED
            pin_request).1 with resp := pin_request.resp } = pin_request :=
  ⟨⟨pin_request_shaped, rfl, rfl⟩,
    pin_ready_unlocked 3 (fun _ => 0) ready_mbim pin_request _ MBIM_PIN_TYPE_PIN1
      pin_request_shaped rfl rfl⟩


/-! ## Responses without a status -/

/-- C22 (code bug): when `qmi_device_open` fails, `device_open_ready` of `qmi.c`
returns without a call of `set_error` and without ending the main loop: for a
STATUS request on the QMI backend the calls made are `qmi_device_new` and
`qmi_device_open`, and the response is the empty envelope of `databuf_init`,
in which neither `MB_RESPONSE` nor `MB_ERROR` is found. On the MBIM backend the
response to a request of type 9999 holds `MB_DEVICE` only when
`device_open_ready` returns. -/
theorem open_failure_leaves_no_status :
    ((handle_request 3 (fun _ => 0) true true
          (inbound idle (request_envelope MBIM_STATUS MB_PROT_QMI))).bind
        (session_events 3 (fun _ => 0) true ready_mbim closed_qmi)).map
          (fun r => (r.1.resp, r.2))
        = some (fresh, [Event.qmi_device_new, Event.qmi_device_open 15])
      ∧ databuf_get_uint 1 (fun _ => 0) (some fresh) MB_RESPONSE 7 = some (none, 7)
      ∧ databuf_get_string 1 (fun _ => 0) (some fresh) MB_ERROR = some none
      ∧ ((handle_request 3 (fun _ => 0) true true
          (inbound idle (request_envelope 9999 MB_PROT_MBIM))).bind
        (session_events 3 (fun _ => 0) true ready_mbim ready_qmi)).map
          (fun r => (r.1.resp, r.2))
        = some (databuf_add_string true fresh MB_DEVICE (some MBIM_NNG_DEVICE),
            [Event.mbim_device_new, Event.mbim_device_open_full 5])
      ∧ databuf_get_uint 2 (fun _ => 0)
          (some (databuf_add_string true fresh MB_DEVICE (some MBIM_NNG_DEVICE))) MB_RESPONSE 7
        = some (none, 7) := by
  decide

/-! ## The credentials of a QMI connection -/

set_option maxRecDepth 8000 in
/-- C29 (code bug): for the valid CONNECT envelope for the QMI backend that
carries the APN "a", the authentication protocol PAP, the user name "u" and
the password "p", the start-network input handed to `qmi_client_wds_start_network`
carries the password "p" as its user name and no password: the password is
passed to `qmi_message_wds_start_network_input_set_username`, after the user
name, and the setter of the password is not called. -/
theorem password_is_set_as_username :
    databuf_is_valid 7 (fun _ => 0) (some (received credentials_envelope)) = some true
      ∧ (databuf_get_string 7 (fun _ => 0) (some (received credentials_envelope))
            MB_USERNAME).map (Option.map (string_at credentials_envelope)) = some (some [117])
      ∧ (databuf_get_string 7 (fun _ => 0) (some (received credentials_envelope))
            MB_PASSWORD).map (Option.map (string_at credentials_envelope)) = some (some [112])
      ∧ ((handle_request 7 (fun _ => 0) true true (inbound idle credentials_envelope)).bind
          (session_events 7 (fun _ => 0) true ready_mbim ready_qmi)).map
            (fun r => start_network_inputs r.2)
        = some [{ apn := some [97],
                  authentication_preference := some Qmi_authentication.pap,
                  username := some [112], password := none }] := by
  decide

/-! ## The context of the completion callbacks -/

set_option maxRecDepth 8000 in
/-- C30 (code bug): for a SIGNAL request `allocate_client_ready` of `qmi.c`
registers `get_signal_info_ready` with `NULL` in place of the request; for
PIN_STATUS, REGISTER, PACKET_SERVICE, IP, STATUS and CONNECT requests the
completion callback is registered with the request. -/
theorem signal_callback_has_no_request :
    ((handle_request 3 (fun _ => 0) true true
          (inbound idle (request_envelope MBIM_SIGNAL MB_PROT_QMI))).bind
        (session_events 3 (fun _ => 0) true ready_mbim ready_qmi)).map Prod.snd
        = some [Event.qmi_device_new, Event.qmi_device_open 15,
            Event.qmi_device_allocate_client 10, Event.g_release_cid true,
            Event.qmi_client_command Qmi_call.nas_get_signal_info 10
              Qmi_callback.get_signal_info_ready false]
      ∧ ((handle_request 3 (fun _ => 0) true true
          (inbound idle (request_envelope MBIM_PIN_STATUS MB_PROT_QMI))).bind
        (session_events 3 (fun _ => 0) true ready_mbim ready_qmi)).map
          (fun r => command_contexts r.2) = some [true]
      ∧ ((handle_request 3 (fun _ => 0) true true
          (inbound idle (request_envelope MBIM_REGISTER MB_PROT_QMI))).bind
        (session_events 3 (fun _ => 0) true ready_mbim ready_qmi)).map
          (fun r => command_contexts r.2) = some [true]
      ∧ ((handle_request 3 (fun _ => 0) true true
          (inbound idle (request_envelope MBIM_PACKET_SERVICE MB_PROT_QMI))).bind
        (session_events 3 (fun _ => 0) true ready_mbim ready_qmi)).map
          (fun r => command_contexts r.2) = some [true]
      ∧ ((handle_request 3 (fun _ => 0) true true
          (inbound idle (request_envelope MBIM_IP MB_PROT_QMI))).bind
        (session_events 3 (fun _ => 0) true ready_mbim ready_qmi)).map
          (fun r => command_contexts r.2) = some [true]
      ∧ ((handle_request 3 (fun _ => 0) true true
          (inbound idle (request_envelope MBIM_STATUS MB_PROT_QMI))).bind
        (session_events 3 (fun _ => 0) true ready_mbim ready_qmi)).map
          (fun r => command_contexts r.2) = some [true]
      ∧ ((handle_request 7 (fun _ => 0) true true (inbound idle credentials_envelope)).bind
          (session_events 7 (fun _ => 0) true ready_mbim ready_qmi)).map
            (fun r => command_contexts r.2) = some [true] := by
  decide


/-! ## Reads behind the received block -/

theorem short_uint_bytes :
    short_uint = [1, 0, 0, 0, 8, 0, 0, 0, 2, 2, 0, 0, 0, 0, 0, 0] := by decide

theorem open_string_bytes :
    open_string = [1, 0, 0, 0, 10, 0, 0, 0, 3, 5, 0, 0, 2, 0, 0, 0, 65, 66] := by decide

/-- C27 (code bug): the 16-byte block `short_uint`, whose only field has the
tag `MB_REQUEST` and declares no payload byte, is accepted by
`databuf_is_valid`, and `databuf_get_uint` finds the field with its payload at
16, the end of the block: the value it stores is made of the four bytes that
follow the block in memory. The 18-byte block `open_string`, whose only field
has the tag `MB_APN` and the payload `AB`, is accepted by `databuf_is_valid`,
and `databuf_get_string` returns the payload at 16: it holds no NUL up to the
end of the block. -/
theorem typed_reads_leave_the_block (fuel : Nat) (junk : Nat → Nat) :
    databuf_is_valid (fuel + 1) junk (some (received short_uint)) = some true
      ∧ (received short_uint).len = 16
      ∧ databuf_get_uint (fuel + 1) junk (some (received short_uint)) MB_REQUEST MBIM_UNKOWN
        = some (some 16, junk 16 % 256 + 256 * (junk 17 % 256) + 65536 * (junk 18 % 256)
            + 16777216 * (junk 19 % 256))
      ∧ databuf_is_valid (fuel + 1) junk (some (received open_string)) = some true
      ∧ (received open_string).len = 18
      ∧ databuf_get_string (fuel + 1) junk (some (received open_string)) MB_APN = some (some 16)
      ∧ open_string.drop 16 = [65, 66] := by
  have hl : (received short_uint).len = 16 := by decide
  have hl2 : (received open_string).len = 18 := by decide
  have ht : rd32 junk short_uint 0 = 1 := by
    simp only [short_uint_bytes, rd32, peek, List.getD_cons_succ, List.getD_cons_zero]
  have hh : rd32 junk short_uint 4 = 8 := by
    simp only [short_uint_bytes, rd32, peek, List.getD_cons_succ, List.getD_cons_zero]
  have hf : rd32 junk short_uint 8 = MB_REQUEST := by
    simp only [short_uint_bytes, rd32, peek, List.getD_cons_succ, List.getD_cons_zero]
    decide
  have hs : rd32 junk short_uint (8 + 4) = 0 := by
    simp only [short_uint_bytes, rd32, peek, List.getD_cons_succ, List.getD_cons_zero]
  have hv : rd32 junk short_uint 16 = junk 16 % 256 + 256 * (junk 17 % 256)
      + 65536 * (junk 18 % 256) + 16777216 * (junk 19 % 256) := by
    simp only [short_uint_bytes, rd32, peek, List.getD_cons_succ, List.getD_nil]
  have ht2 : rd32 junk open_string 0 = 1 := by
    simp only [open_string_bytes, rd32, peek, List.getD_cons_succ, List.getD_cons_zero]
  have hh2 : rd32 junk open_string 4 = 10 := by
    simp only [open_string_bytes, rd32, peek, List.getD_cons_succ, List.getD_cons_zero]
  have hf2 : rd32 junk open_string 8 = MB_APN := by
    simp only [open_string_bytes, rd32, peek, List.getD_cons_succ, List.getD_cons_zero]
    decide
  have hs2 : rd32 junk open_string (8 + 4) = 2 := by
    simp only [open_string_bytes, rd32, peek, List.getD_cons_succ, List.getD_cons_zero]
  have hg : databuf_get (fuel + 1) junk (some (received short_uint)) MB_REQUEST none
      = some (some 16) :=
    databuf_get_loop_hit junk short_uint 16 MB_REQUEST none fuel 8 (by decide) hf rfl
  have hg2 : databuf_get (fuel + 1) junk (some (received open_string)) MB_APN none
      = some (some 16) :=
    databuf_get_loop_hit junk open_string 18 MB_APN none fuel 8 (by decide) hf2 rfl
  refine ⟨?_, hl, ?_, ?_, hl2, ?_, by decide⟩
  · rw [databuf_is_valid_some junk _ short_uint _ rfl (by rw [hl]; decide)
      (by rw [ht]; decide) (by rw [hl]; exact hh), hl,
      databuf_is_valid_loop_next junk _ 16 fuel 8 0 16 (by decide) hs (by decide) (by decide)]
    exact databuf_is_valid_loop_done _ _ _ _ _ (by decide)
  · rw [databuf_get_uint_some junk (fuel + 1) _ MB_REQUEST MBIM_UNKOWN 16 (by decide) hg]
    show some (some 16, rd32 junk short_uint 16) = _
    rw [hv]
  · rw [databuf_is_valid_some junk _ open_string _ rfl (by rw [hl2]; decide)
      (by rw [ht2]; decide) (by rw [hl2]; exact hh2), hl2,
      databuf_is_valid_loop_next junk _ 18 fuel 8 2 18 (by decide) hs2 (by decide) (by decide)]
    exact databuf_is_valid_loop_done _ _ _ _ _ (by decide)
  · unfold databuf_get_string databuf_get_next_string
    rw [if_neg (by decide)]
    exact hg2

/-! ## The service loop -/

theorem databuf_is_valid_wrap_stuck (fuel : Nat) (junk : Nat → Nat) :
    databuf_is_valid fuel junk (some (received wrap_stuck)) = none := by
  have hr : rd32 junk wrap_stuck (8 + 4) = 0xFFFFFFF8 := by
    simp only [wrap_stuck_bytes, rd32, peek, List.getD_cons_succ, List.getD_cons_zero]
  have hh : rd32 junk wrap_stuck 4 = 8 := by
    simp only [wrap_stuck_bytes, rd32, peek, List.getD_cons_succ, List.getD_cons_zero]
  have ht : rd32 junk wrap_stuck 0 = 1 := by
    simp only [wrap_stuck_bytes, rd32, peek, List.getD_cons_succ, List.getD_cons_zero]
  have hl : (received wrap_stuck).len = 16 := by decide
  have hloop : ∀ f, databuf_is_valid_loop junk wrap_stuck 16 f 8 = none := by
    intro f
    induction f with
    | zero =>
      simp only [databuf_is_valid_loop]
      rw [if_pos (by decide)]
    | succ n ih =>
      rw [databuf_is_valid_loop_next junk _ 16 n 8 0xFFFFFFF8 8 (by decide) hr (by decide)
        (by decide)]
      exact ih
  rw [databuf_is_valid_some junk _ wrap_stuck _ rfl (by rw [hl]; decide)
      (by rw [ht]; decide) (by rw [hl]; exact hh), hl]
  exact hloop fuel

theorem handle_request_stuck (fuel : Nat) (junk : Nat → Nat) (access alloc : Bool)
    (request : Mbim_request) (h : databuf_is_valid fuel junk (some request.req) = none) :
    handle_request fuel junk access alloc request = none := by
  unfold handle_request
  simp only [h]

theorem rep_server_perform_request_received (fuel : Nat) (junk : Nat → Nat)
    (access calloc alloc : Bool) (loop : Handled → Option Mbim_request) (send : Nat)
    (buf : List Nat) (request : Mbim_request) :
    rep_server_perform_request fuel junk access calloc alloc loop 0 buf send request = none
      ∨ ∃ r c, rep_server_perform_request fuel junk access calloc alloc loop 0 buf send request
          = some (true, r, c) := by
  unfold rep_server_perform_request
  rw [if_neg (by decide), if_neg (by decide)]
  simp only
  split
  · exact Or.inl rfl
  · split
    · exact Or.inl rfl
    · exact Or.inr ⟨_, _, rfl⟩

/-- C23 (code bug): `rep_server_perform_request` returns false exactly when
`nng_recv` has returned an error other than `NNG_EAGAIN`, and when it returns
for a received message it returns true; but for the received 16-byte message
`wrap_stuck` it does not return, whatever number of iterations the walk of
`databuf_is_valid` is given: no reply is sent and the serve loop does not
continue. -/
theorem stuck_message_is_never_answered (fuel : Nat) (junk : Nat → Nat)
    (access calloc alloc : Bool) (loop : Handled → Option Mbim_request) (ret send : Nat)
    (buf : List Nat) (request : Mbim_request) :
    rep_server_perform_request fuel junk access calloc alloc loop 0 wrap_stuck send request
        = none
      ∧ ((rep_server_perform_request fuel junk access calloc alloc loop ret buf send
            request).map Prod.fst = some false ↔ (ret ≠ 0 ∧ ret ≠ NNG_EAGAIN))
      ∧ ((rep_server_perform_request fuel junk access calloc alloc loop 0 buf send
            request).map Prod.fst).getD true = true := by
  refine ⟨?_, ?_, ?_⟩
  · unfold rep_server_perform_request
    rw [if_neg (by decide), if_neg (by decide)]
    simp only
    rw [handle_request_stuck fuel junk access alloc _ (databuf_is_valid_wrap_stuck fuel junk)]
  · by_cases h8 : ret = NNG_EAGAIN
    · subst h8
      unfold rep_server_perform_request
      rw [if_pos rfl]
      simp
    · by_cases h0 : ret = 0
      · subst h0
        rcases rep_server_perform_request_received fuel junk access calloc alloc loop send buf
          request with e | ⟨r, c, e⟩
        · rw [e]
          simp
        · rw [e]
          simp
      · unfold rep_server_perform_request
        rw [if_neg h8, if_pos h0]
        simp [h0, h8]
  · rcases rep_server_perform_request_received fuel junk access calloc alloc loop send buf
      request with e | ⟨r, c, e⟩
    · rw [e]
      rfl
    · rw [e]
      rfl


/-! ## What an append leaves in place -/

theorem databuf_add_empty (alloc : Bool) (b : Databuf) (var : Nat) (obj : List Nat) :
    databuf_add alloc b var (some obj) 0 = databuf_add alloc b var none 0 := by
  unfold databuf_add
  simp only [Nat.lt_irrefl, if_false, gt_iff_lt]

theorem run_shaped_len (b : Databuf) (fs : List Field) (op : Append) (h : Shaped b fs)
    (hop : op.len < 2 ^ 31) :
    ∃ gs, Shaped (op.run b) (fs ++ gs) ∧ (∀ g ∈ gs, g.tag < 2 ^ 32) := by
  cases hf : op.field with
  | none =>
    refine ⟨[], ?_, fun g hg => absurd hg (List.not_mem_nil g)⟩
    rw [run_skip b op hf, List.append_nil]
    exact h
  | some f =>
    have htag : f.tag < 2 ^ 32 := by
      cases op with
      | uint var value =>
        simp only [Append.field] at hf
        split at hf
        · cases hf
          exact Nat.mod_lt _ (by decide)
        · cases hf
      | string var value =>
        simp only [Append.field] at hf
        split at hf
        · cases hf
          exact Nat.mod_lt _ (by decide)
        · cases hf
    cases op with
    | uint var value =>
      refine ⟨[f], run_shaped b fs _ f h hf ?_, fun g hg => ?_⟩
      · simp only [Append.field] at hf
        split at hf
        · cases hf
          show (le32 value).length < 2 ^ 31
          rw [le32_length]
          decide
        · cases hf
      · rw [List.mem_singleton.mp hg]
        exact htag
    | string var value =>
      have hvar : var % 256 = DT_STRING := by
        simp only [Append.field] at hf
        split at hf
        · assumption
        · cases hf
      cases value with
      | none =>
        refine ⟨[f], run_shaped b fs _ f h hf ?_, fun g hg => ?_⟩
        · simp only [Append.field, hvar, if_true] at hf
          cases hf
          exact Nat.two_pow_pos 31
        · rw [List.mem_singleton.mp hg]
          exact htag
      | some s =>
        have hn : int_of_size (strlen s + 1) < 2 ^ 31 := by
          have hop' : size_of_int (int_of_size (strlen s + 1)) < 2 ^ 31 := hop
          unfold size_of_int at hop'
          split at hop'
          · assumption
          · omega
        have hz : size_of_int (int_of_size (strlen s + 1)) = int_of_size (strlen s + 1) := by
          unfold size_of_int
          rw [if_pos hn]
        have e : (Append.string var (some s)).run b
            = (databuf_add true b var (some (cstring s)) (int_of_size (strlen s + 1))).1 := by
          simp only [Append.run, databuf_add_string]
          rw [if_neg (fun hne => hne hvar)]
          simp only [hz, Option.map_some']
        refine ⟨[{ tag := var % 2 ^ 32,
                   payload := fetch (cstring s) (int_of_size (strlen s + 1)) }], ?_, ?_⟩
        · rw [e]
          by_cases h0 : int_of_size (strlen s + 1) = 0
          · rw [h0, databuf_add_empty]
            have hp : fetch (cstring s) 0 = [] := by
              simp [fetch]
            rw [hp]
            exact databuf_add_shaped b fs var 0 none [] h (Or.inr ⟨rfl, rfl, rfl⟩)
          · rw [databuf_add_fetch]
            exact databuf_add_shaped b fs var _ _ _ h
              (Or.inl ⟨rfl, Nat.pos_of_ne_zero h0, (fetch_length _ _).symm⟩)
        · intro g hg
          rw [List.mem_singleton.mp hg]
          exact Nat.mod_lt _ (by decide)

theorem shaped_frame (b c : Databuf) (fs gs : List Field) (h : Shaped b fs)
    (h' : Shaped c (fs ++ gs)) :
    ∃ mem mem', b.buf = some mem ∧ c.buf = some mem' ∧ mem.length = b.len
      ∧ mem'.length = c.len
      ∧ mem'.drop 8 = mem.drop 8 ++ wire gs ∧ mem'.take 4 = mem.take 4
      ∧ c.len = b.len + (wire gs).length := by
  obtain ⟨h1, h2⟩ := h
  obtain ⟨h1', h2'⟩ := h'
  refine ⟨_, _, h1, h1', ?_, ?_, ?_, ?_, ?_⟩
  · simp only [List.length_append, le32_length, wire_length_eq, h2]
    omega
  · simp only [List.length_append, le32_length, wire_length_eq, h2']
    omega
  · have e1 : ∀ (w : Nat) (l : List Nat),
        (le32 DT_RAW ++ (le32 w ++ l)).drop 8 = l := by
      intro w l
      rw [← List.append_assoc]
      exact List.drop_left' (by simp only [List.length_append, le32_length])
    rw [e1, e1, wire_append]
  · rfl
  · rw [h2', h2, wire_length_append, wire_length_eq]
    omega

theorem run_len_le_size (b : Databuf) (op : Append) (hb : b.len ≤ b.size)
    (hsum : b.len + op.len + 8 < 2 ^ 64) :
    (op.run b).len ≤ (op.run b).size := by
  have key : ∀ (var : Nat) (value : Option (List Nat)) (len : Nat), b.len + len + 8 < 2 ^ 64 →
      (databuf_add true b var value len).1.len ≤ (databuf_add true b var value len).1.size := by
    intro var value len hlen
    have hmod : (b.len + len + 8) % 2 ^ 64 = b.len + len + 8 := Nat.mod_eq_of_lt hlen
    unfold databuf_add
    cases hm : b.buf with
    | none => exact hb
    | some mem =>
      have hsz := databuf_realloc_size_closed (b.len + len + 8) b.size
      by_cases hg : b.len + len + 8 > b.size
      · simp only [hmod, hg, if_true, databuf_realloc, Bool.true_eq_false, if_false]
        rw [hsz]
        cases value with
        | none => simp only; omega
        | some obj =>
          by_cases hl : len > 0
          · simp only [hl, if_true]; omega
          · simp only [hl, if_false]; omega
      · simp only [hmod, hg, if_false, Bool.true_eq_false]
        cases value with
        | none => simp only; omega
        | some obj =>
          by_cases hl : len > 0
          · simp only [hl, if_true]; omega
          · simp only [hl, if_false]; omega
  cases op with
  | uint var value =>
    simp only [Append.run, databuf_add_uint]
    split
    · exact hb
    · exact key _ _ _ hsum
  | string var value =>
    simp only [Append.run, databuf_add_string]
    split
    · exact hb
    · cases value with
      | none => exact key _ _ _ (by simp only [Append.len] at hsum; exact hsum)
      | some s => exact key _ _ _ hsum

theorem len_of_field (op : Append) (f : Field) (hf : op.field = some f)
    (hs : f.payload.length < 2 ^ 31) : op.len = f.payload.length := by
  cases op with
  | uint var value =>
    simp only [Append.field] at hf
    split at hf
    · cases hf
      rfl
    · cases hf
  | string var value =>
    simp only [Append.field] at hf
    split at hf
    · cases hf
      cases value with
      | none => rfl
      | some s =>
        simp only [cstring_length] at hs
        simp only [Append.len, size_of_int_of_size _ hs, cstring_length]
    · cases hf

theorem build_len_le_size (ops : List Append)
    (h : ∀ f ∈ fields ops, f.payload.length < 2 ^ 31) (hlen : envelope_length ops < 2 ^ 63) :
    (build ops).len ≤ (build ops).size := by
  induction ops using List.reverseRecOn with
  | nil => decide
  | append_singleton ops op ih =>
    have hsnoc := envelope_length_snoc ops op
    rw [fields_snoc] at h
    have h0 : ∀ f ∈ fields ops, f.payload.length < 2 ^ 31 :=
      fun f hf => h f (List.mem_append_left _ hf)
    have hl0 : envelope_length ops < 2 ^ 63 := by omega
    rw [build_snoc]
    cases hop : op.field with
    | none =>
      rw [run_skip _ _ hop]
      exact ih h0 hl0
    | some f =>
      rw [hop] at h
      have hf : f.payload.length < 2 ^ 31 :=
        h f (List.mem_append_right _ (List.mem_singleton_self f))
      have hs := build_shaped ops h0
      refine run_len_le_size _ op (ih h0 hl0) ?_
      rw [len_of_field op f hop hf, hs.2]
      unfold envelope_length at hl0
      omega


theorem databuf_get_loop_wire_hit (junk : Nat → Nat) (var : Nat) (prev : Option Nat)
    (fs : List Field) :
    ∀ (pre : List Nat) (fuel : Nat) (tail : List Nat) (len pos : Nat), fs.length ≤ fuel →
      (pre ++ wire fs).length < 2 ^ 31 → (pre ++ wire fs).length ≤ len →
      (∀ f ∈ fs, f.tag < 2 ^ 32) →
      ((layout fs pre.length).find? (lookup_hit var prev)).map Prod.fst = some pos →
      databuf_get_loop junk (pre ++ (wire fs ++ tail)) len var prev fuel pre.length
        = some (some pos) := by
  induction fs with
  | nil =>
    intro pre fuel tail len pos _ _ _ _ hfind
    simp only [layout, List.find?_nil, Option.map_none'] at hfind
    cases hfind
  | cons f fs ih =>
    intro pre fuel tail len pos hfuel hlen hle htag hfind
    obtain ⟨n, rfl⟩ : ∃ n, fuel = n + 1 := ⟨fuel - 1, by simp only [List.length_cons] at hfuel; omega⟩
    have htot : (pre ++ wire (f :: fs)).length
        = pre.length + (8 + f.payload.length) + (wire fs).length := by
      simp only [wire, Field.wire, List.length_append, le32_length]
      omega
    have hmem0 : pre ++ (wire (f :: fs) ++ tail)
        = pre ++ (le32 f.tag ++ (le32 f.payload.length ++ (f.payload ++ (wire fs ++ tail)))) := by
      simp only [wire, Field.wire, List.append_assoc]
    have hmem : pre ++ (wire (f :: fs) ++ tail)
        = (pre ++ le32 f.tag)
          ++ (le32 f.payload.length ++ (f.payload ++ (wire fs ++ tail))) := by
      simp only [wire, Field.wire, List.append_assoc]
    have hmem2 : pre ++ (wire (f :: fs) ++ tail) = (pre ++ f.wire) ++ (wire fs ++ tail) := by
      simp only [wire, List.append_assoc]
    have htype : rd32 junk (pre ++ (wire (f :: fs) ++ tail)) pre.length = f.tag := by
      rw [hmem0, rd32_append_le32 _ _ _ _ _ rfl]
      exact Nat.mod_eq_of_lt (htag f (List.mem_cons_self _ _))
    have hsize : rd32 junk (pre ++ (wire (f :: fs) ++ tail)) (pre.length + 4)
        = f.payload.length := by
      rw [hmem, rd32_append_le32 _ _ _ _ _ (by simp only [List.length_append, le32_length])]
      exact Nat.mod_eq_of_lt (by omega)
    have hlt : int_lt_size pre.length len = true :=
      int_lt_size_of_lt _ _ (by omega) (by omega)
    simp only [layout] at hfind
    cases hhit : lookup_hit var prev (pre.length + 8, f) with
    | true =>
      rw [List.find?_cons_of_pos _ hhit] at hfind
      simp only [Option.map_some', Option.some.injEq] at hfind
      subst hfind
      simp only [lookup_hit, Bool.and_eq_true, decide_eq_true_eq] at hhit
      exact databuf_get_loop_hit junk _ _ var prev n pre.length hlt (by rw [htype, hhit.1]) hhit.2
    | false =>
      rw [List.find?_cons_of_neg _ (by simp only [hhit, Bool.false_eq_true, not_false_eq_true])]
        at hfind
      have hnext : (pre.length + (f.payload.length + 8) % 2 ^ 32) % 2 ^ 32
          = (pre ++ f.wire).length := by
        simp only [Field.wire, List.length_append, le32_length]
        omega
      have hoff : (pre ++ f.wire).length = pre.length + 8 + f.payload.length := by
        simp only [Field.wire, List.length_append, le32_length]
        omega
      have hl2 : ((pre ++ f.wire) ++ wire fs).length = (pre ++ wire (f :: fs)).length := by
        simp only [wire, List.append_assoc]
      rw [databuf_get_loop_miss junk _ _ var prev n pre.length f.payload.length
        (pre ++ f.wire).length hlt
        (by rw [htype]; simp only [lookup_hit] at hhit; rw [← hhit]; congr 2; exact propext eq_comm)
        hsize hnext, hmem2]
      exact ih (pre ++ f.wire) n tail len pos (by simp only [List.length_cons] at hfuel; omega)
        (by rw [hl2]; exact hlen) (by rw [hl2]; exact hle)
        (fun g hg => htag g (List.mem_cons_of_mem _ hg)) (by rw [hoff]; exact hfind)

theorem databuf_get_kept (junk : Nat → Nat) (b c : Databuf) (fs gs : List Field)
    (var : Nat) (prev : Option Nat) (fuel pos : Nat) (h : Shaped b fs)
    (h' : Shaped c (fs ++ gs)) (hlen : b.len < 2 ^ 31) (hfuel : fs.length ≤ fuel)
    (htag : ∀ f ∈ fs, f.tag < 2 ^ 32)
    (hget : databuf_get fuel junk (some b) var prev = some (some pos)) :
    databuf_get fuel junk (some c) var prev = some (some pos) := by
  rw [databuf_get_shaped junk b fs var prev fuel h hlen hfuel htag] at hget
  have hfind : find_field fs var prev = some pos := Option.some.inj hget
  obtain ⟨h1, h2⟩ := h
  obtain ⟨h1', h2'⟩ := h'
  have hl : ((le32 DT_RAW ++ le32 (wire_length (fs ++ gs))) ++ wire fs).length = b.len := by
    simp only [List.length_append, le32_length, wire_length_eq, h2]
  have := databuf_get_loop_wire_hit junk var prev fs
    (le32 DT_RAW ++ le32 (wire_length (fs ++ gs))) fuel (wire gs) c.len pos hfuel
    (by rw [hl]; exact hlen)
    (by rw [hl, h2', h2, wire_length_append]; omega) htag hfind
  simp only [databuf_get, h1', wire_append]
  simpa only [List.append_assoc] using this


theorem drop_frame (mem mem' tail : List Nat) (pos : Nat)
    (h : mem'.drop 8 = mem.drop 8 ++ tail) (h8 : 8 ≤ pos) (hp : pos ≤ mem.length) :
    mem'.drop pos = mem.drop pos ++ tail := by
  obtain ⟨k, rfl⟩ : ∃ k, pos = 8 + k := ⟨pos - 8, by omega⟩
  rw [← List.drop_drop, ← List.drop_drop, h,
    List.drop_append_of_le_length (by rw [List.length_drop]; omega)]

theorem peek_frame (junk : Nat → Nat) (mem mem' tail : List Nat) (i : Nat)
    (h : mem'.drop 8 = mem.drop 8 ++ tail) (h8 : 8 ≤ i) (hi : i < mem.length) :
    peek junk mem' i = peek junk mem i := by
  have hd := drop_frame mem mem' tail i h h8 (Nat.le_of_lt hi)
  have e1 : mem'[i]? = (mem'.drop i)[0]? := by
    rw [List.getElem?_drop, Nat.add_zero]
  have e2 : mem[i]? = (mem.drop i)[0]? := by
    rw [List.getElem?_drop, Nat.add_zero]
  have e3 : (mem.drop i ++ tail)[0]? = (mem.drop i)[0]? :=
    List.getElem?_append_left (by rw [List.length_drop]; omega)
  unfold peek
  rw [List.getD_eq_getElem?_getD, List.getD_eq_getElem?_getD, e1, e2, hd, e3]

theorem rd32_frame (junk : Nat → Nat) (mem mem' tail : List Nat) (pos : Nat)
    (h : mem'.drop 8 = mem.drop 8 ++ tail) (h8 : 8 ≤ pos) (hp : pos + 4 ≤ mem.length) :
    rd32 junk mem' pos = rd32 junk mem pos := by
  unfold rd32
  rw [peek_frame junk mem mem' tail pos h h8 (by omega),
    peek_frame junk mem mem' tail (pos + 1) h (by omega) (by omega),
    peek_frame junk mem mem' tail (pos + 2) h (by omega) (by omega),
    peek_frame junk mem mem' tail (pos + 3) h (by omega) (by omega)]

theorem takeWhile_append_of_stop (p : Nat → Bool) (l tail : List Nat)
    (h : ∃ x ∈ l, p x = false) : (l ++ tail).takeWhile p = l.takeWhile p := by
  induction l with
  | nil =>
    obtain ⟨x, hx, _⟩ := h
    exact absurd hx (List.not_mem_nil x)
  | cons a l ih =>
    cases hp : p a with
    | false => simp only [List.cons_append, List.takeWhile_cons, hp, Bool.false_eq_true, if_false]
    | true =>
      simp only [List.cons_append, List.takeWhile_cons, hp, if_true]
      congr 1
      apply ih
      obtain ⟨x, hx, hpx⟩ := h
      rcases List.mem_cons.mp hx with rfl | hx'
      · rw [hp] at hpx
        cases hpx
      · exact ⟨x, hx', hpx⟩

theorem string_at_frame (mem mem' tail : List Nat) (pos : Nat)
    (h : mem'.drop 8 = mem.drop 8 ++ tail) (h8 : 8 ≤ pos) (hp : pos ≤ mem.length)
    (hnul : 0 ∈ (mem.drop pos).map (fun c => c % 256)) :
    string_at mem' pos = string_at mem pos := by
  unfold string_at
  rw [drop_frame mem mem' tail pos h h8 hp, List.map_append]
  exact takeWhile_append_of_stop _ _ _ ⟨0, hnul, rfl⟩

theorem layout_mem (fs : List Field) :
    ∀ (off : Nat) (e : Nat × Field), e ∈ layout fs off →
      e.2 ∈ fs ∧ off + 8 ≤ e.1 ∧ e.1 + e.2.payload.length ≤ off + wire_length fs := by
  induction fs with
  | nil =>
    intro off e he
    exact absurd he (List.not_mem_nil e)
  | cons f fs ih =>
    intro off e he
    simp only [layout, List.mem_cons] at he
    rcases he with rfl | he
    · exact ⟨List.mem_cons_self _ _, Nat.le_refl _, by simp only [wire_length]; omega⟩
    · obtain ⟨h1, h2, h3⟩ := ih _ e he
      exact ⟨List.mem_cons_of_mem _ h1, by omega, by simp only [wire_length]; omega⟩

theorem fields_uint_payload (ops : List Append) :
    ∀ f ∈ fields ops, f.tag % 256 = DT_UINT → f.payload.length = 4 := by
  intro f hf ht
  simp only [fields, List.mem_filterMap] at hf
  obtain ⟨op, _, hop⟩ := hf
  cases op with
  | uint var value =>
    simp only [Append.field] at hop
    split at hop
    · cases hop
      rfl
    · cases hop
  | string var value =>
    simp only [Append.field] at hop
    split at hop
    · rename_i hv
      cases hop
      simp only [DT_UINT, DT_STRING] at ht hv
      omega
    · cases hop

theorem find_field_uint (ops : List Append) (var : Nat) (prev : Option Nat) (pos : Nat)
    (hvar : var % 256 = DT_UINT) (h : find_field (fields ops) var prev = some pos) :
    8 ≤ pos ∧ pos + 4 ≤ 8 + wire_length (fields ops) := by
  simp only [find_field, Option.map_eq_some'] at h
  obtain ⟨e, hfind, rfl⟩ := h
  have hm := List.mem_of_find?_eq_some hfind
  have hhit := List.find?_some hfind
  simp only [lookup_hit, Bool.and_eq_true, decide_eq_true_eq] at hhit
  obtain ⟨h1, h2, h3⟩ := layout_mem (fields ops) 8 e hm
  have h4 := fields_uint_payload ops e.2 h1 (by rw [hhit.1]; exact hvar)
  omega


/-! ## Lookups in envelopes of up to 2^32 bytes -/

theorem databuf_get_loop_kept (junk : Nat → Nat) (var : Nat) (prev : Option Nat)
    (fs : List Field) :
    ∀ (pre pre' : List Nat) (fuel : Nat) (tail : List Nat) (len' pos : Nat),
      pre'.length = pre.length → (pre ++ wire fs).length < 2 ^ 32 →
      (pre ++ wire fs).length ≤ len' → (∀ f ∈ fs, f.tag < 2 ^ 32) →
      databuf_get_loop junk (pre ++ wire fs) (pre ++ wire fs).length var prev fuel pre.length
        = some (some pos) →
      databuf_get_loop junk (pre' ++ (wire fs ++ tail)) len' var prev fuel pre.length
          = some (some pos)
        ∧ ∃ f ∈ fs, f.tag = var ∧ pre.length + 8 ≤ pos
          ∧ pos + f.payload.length ≤ (pre ++ wire fs).length := by
  induction fs with
  | nil =>
    intro pre pre' fuel tail len' pos _ _ _ _ hget
    rw [databuf_get_loop_done _ _ _ _ _ _ _
      (int_lt_size_of_le _ _ (by simp only [wire, List.append_nil, Nat.le_refl]))] at hget
    cases hget
  | cons f fs ih =>
    intro pre pre' fuel tail len' pos hpre hlen hle htag hget
    have htot : (pre ++ wire (f :: fs)).length
        = pre.length + (8 + f.payload.length) + (wire fs).length := by
      simp only [wire, Field.wire, List.length_append, le32_length]
      omega
    by_cases hnear : pre.length < 2 ^ 31
    · cases fuel with
      | zero =>
        simp only [databuf_get_loop] at hget
        split at hget <;> cases hget
      | succ n =>
        have hmem0 : pre ++ wire (f :: fs)
            = pre ++ (le32 f.tag ++ (le32 f.payload.length ++ (f.payload ++ wire fs))) := by
          simp only [wire, Field.wire, List.append_assoc]
        have hmem : pre ++ wire (f :: fs)
            = (pre ++ le32 f.tag) ++ (le32 f.payload.length ++ (f.payload ++ wire fs)) := by
          simp only [wire, Field.wire, List.append_assoc]
        have hmem2 : pre ++ wire (f :: fs) = (pre ++ f.wire) ++ wire fs := by
          simp only [wire, List.append_assoc]
        have hmem0' : pre' ++ (wire (f :: fs) ++ tail)
            = pre' ++ (le32 f.tag
              ++ (le32 f.payload.length ++ (f.payload ++ (wire fs ++ tail)))) := by
          simp only [wire, Field.wire, List.append_assoc]
        have hmem' : pre' ++ (wire (f :: fs) ++ tail)
            = (pre' ++ le32 f.tag)
              ++ (le32 f.payload.length ++ (f.payload ++ (wire fs ++ tail))) := by
          simp only [wire, Field.wire, List.append_assoc]
        have hmem2' : pre' ++ (wire (f :: fs) ++ tail)
            = (pre' ++ f.wire) ++ (wire fs ++ tail) := by
          simp only [wire, List.append_assoc]
        have htype : rd32 junk (pre ++ wire (f :: fs)) pre.length = f.tag := by
          rw [hmem0, rd32_append_le32 _ _ _ _ _ rfl]
          exact Nat.mod_eq_of_lt (htag f (List.mem_cons_self _ _))
        have hsize : rd32 junk (pre ++ wire (f :: fs)) (pre.length + 4) = f.payload.length := by
          rw [hmem, rd32_append_le32 _ _ _ _ _ (by simp only [List.length_append, le32_length])]
          exact Nat.mod_eq_of_lt (by omega)
        have htype' : rd32 junk (pre' ++ (wire (f :: fs) ++ tail)) pre.length = f.tag := by
          rw [hmem0', rd32_append_le32 _ _ _ _ _ hpre.symm]
          exact Nat.mod_eq_of_lt (htag f (List.mem_cons_self _ _))
        have hsize' : rd32 junk (pre' ++ (wire (f :: fs) ++ tail)) (pre.length + 4)
            = f.payload.length := by
          rw [hmem', rd32_append_le32 _ _ _ _ _
            (by simp only [List.length_append, le32_length, hpre])]
          exact Nat.mod_eq_of_lt (by omega)
        have hlt : int_lt_size pre.length (pre ++ wire (f :: fs)).length = true :=
          int_lt_size_of_lt _ _ (by omega) hnear
        have hlt' : int_lt_size pre.length len' = true :=
          int_lt_size_of_lt _ _ (by omega) hnear
        cases hhit : lookup_hit var prev (pre.length + 8, f) with
        | true =>
          simp only [lookup_hit, Bool.and_eq_true, decide_eq_true_eq] at hhit
          rw [databuf_get_loop_hit junk _ _ var prev n pre.length hlt (by rw [htype, hhit.1])
            hhit.2] at hget
          have hpos : pre.length + 8 = pos := Option.some.inj (Option.some.inj hget)
          subst hpos
          exact ⟨databuf_get_loop_hit junk _ _ var prev n pre.length hlt'
              (by rw [htype', hhit.1]) hhit.2,
            f, List.mem_cons_self _ _, hhit.1, Nat.le_refl _, by omega⟩
        | false =>
          have hnext : (pre.length + (f.payload.length + 8) % 2 ^ 32) % 2 ^ 32
              = (pre ++ f.wire).length := by
            simp only [Field.wire, List.length_append, le32_length]
            omega
          have hoff : (pre ++ f.wire).length = pre.length + 8 + f.payload.length := by
            simp only [Field.wire, List.length_append, le32_length]
            omega
          simp only [lookup_hit] at hhit
          rw [databuf_get_loop_miss junk _ _ var prev n pre.length f.payload.length
            (pre ++ f.wire).length hlt
            (by rw [htype, ← hhit]; congr 2; exact propext eq_comm) hsize hnext, hmem2] at hget
          rw [databuf_get_loop_miss junk _ _ var prev n pre.length f.payload.length
            (pre ++ f.wire).length hlt'
            (by rw [htype', ← hhit]; congr 2; exact propext eq_comm) hsize' hnext, hmem2']
          have hl2 : ((pre ++ f.wire) ++ wire fs).length = (pre ++ wire (f :: fs)).length := by
            simp only [wire, List.append_assoc]
          obtain ⟨hk, g, hg, hgt, hg8, hgp⟩ := ih (pre ++ f.wire) (pre' ++ f.wire) n tail len' pos
            (by simp only [List.length_append, hpre])
            (by rw [hl2]; exact hlen) (by rw [hl2]; exact hle)
            (fun g hg => htag g (List.mem_cons_of_mem _ hg)) hget
          refine ⟨hk, g, List.mem_cons_of_mem _ hg, hgt, by omega, ?_⟩
          rw [← hl2]
          exact hgp
    · rw [databuf_get_loop_done _ _ _ _ _ _ _
        (int_lt_size_of_neg _ _ (by omega) (by omega))] at hget
      cases hget

theorem databuf_get_loop_absent (junk : Nat → Nat) (var : Nat) (prev : Option Nat)
    (fs : List Field) :
    ∀ (pre : List Nat) (fuel : Nat), fs.length ≤ fuel → (pre ++ wire fs).length < 2 ^ 32 →
      (∀ f ∈ fs, f.tag < 2 ^ 32 ∧ f.tag ≠ var) →
      databuf_get_loop junk (pre ++ wire fs) (pre ++ wire fs).length var prev fuel pre.length
        = some none := by
  induction fs with
  | nil =>
    intro pre fuel _ _ _
    exact databuf_get_loop_done _ _ _ _ _ _ _
      (int_lt_size_of_le _ _ (by simp only [wire, List.append_nil, Nat.le_refl]))
  | cons f fs ih =>
    intro pre fuel hfuel hlen htag
    have htot : (pre ++ wire (f :: fs)).length
        = pre.length + (8 + f.payload.length) + (wire fs).length := by
      simp only [wire, Field.wire, List.length_append, le32_length]
      omega
    by_cases hnear : pre.length < 2 ^ 31
    · obtain ⟨n, rfl⟩ : ∃ n, fuel = n + 1 :=
        ⟨fuel - 1, by simp only [List.length_cons] at hfuel; omega⟩
      have hmem0 : pre ++ wire (f :: fs)
          = pre ++ (le32 f.tag ++ (le32 f.payload.length ++ (f.payload ++ wire fs))) := by
        simp only [wire, Field.wire, List.append_assoc]
      have hmem : pre ++ wire (f :: fs)
          = (pre ++ le32 f.tag) ++ (le32 f.payload.length ++ (f.payload ++ wire fs)) := by
        simp only [wire, Field.wire, List.append_assoc]
      have hmem2 : pre ++ wire (f :: fs) = (pre ++ f.wire) ++ wire fs := by
        simp only [wire, List.append_assoc]
      have htype : rd32 junk (pre ++ wire (f :: fs)) pre.length = f.tag := by
        rw [hmem0, rd32_append_le32 _ _ _ _ _ rfl]
        exact Nat.mod_eq_of_lt (htag f (List.mem_cons_self _ _)).1
      have hsize : rd32 junk (pre ++ wire (f :: fs)) (pre.length + 4) = f.payload.length := by
        rw [hmem, rd32_append_le32 _ _ _ _ _ (by simp only [List.length_append, le32_length])]
        exact Nat.mod_eq_of_lt (by omega)
      have hlt : int_lt_size pre.length (pre ++ wire (f :: fs)).length = true :=
        int_lt_size_of_lt _ _ (by omega) hnear
      have hnext : (pre.length + (f.payload.length + 8) % 2 ^ 32) % 2 ^ 32
          = (pre ++ f.wire).length := by
        simp only [Field.wire, List.length_append, le32_length]
        omega
      have hne : var ≠ f.tag := fun h => (htag f (List.mem_cons_self _ _)).2 h.symm
      rw [databuf_get_loop_miss junk _ _ var prev n pre.length f.payload.length
        (pre ++ f.wire).length hlt
        (by rw [htype]; simp only [hne, decide_False, Bool.false_and])
        hsize hnext, hmem2]
      exact ih (pre ++ f.wire) n (by simp only [List.length_cons] at hfuel; omega)
        (by rw [← hmem2]; exact hlen) (fun g hg => htag g (List.mem_cons_of_mem _ hg))
    · exact databuf_get_loop_done _ _ _ _ _ _ _
        (int_lt_size_of_neg _ _ (by omega) (by omega))

theorem databuf_get_loop_reach (junk : Nat → Nat) (var : Nat) (fs : List Field) :
    ∀ (pre : List Nat) (fuel : Nat) (rest : List Nat) (len : Nat), fs.length < fuel →
      (pre ++ wire fs).length < 2 ^ 31 → (pre ++ wire fs).length < len → var < 2 ^ 32 →
      (∀ f ∈ fs, f.tag < 2 ^ 32 ∧ f.tag ≠ var) →
      databuf_get_loop junk (pre ++ (wire fs ++ (le32 var ++ rest))) len var none fuel pre.length
        = some (some ((pre ++ wire fs).length + 8)) := by
  induction fs with
  | nil =>
    intro pre fuel rest len hfuel hnear hlen hvar _
    obtain ⟨n, rfl⟩ : ∃ n, fuel = n + 1 := ⟨fuel - 1, by omega⟩
    simp only [wire, List.append_nil, List.nil_append] at hnear hlen ⊢
    exact databuf_get_loop_hit junk _ _ var none n pre.length
      (int_lt_size_of_lt _ _ hlen hnear)
      (by rw [rd32_append_le32 _ _ _ _ _ rfl]; exact Nat.mod_eq_of_lt hvar) rfl
  | cons f fs ih =>
    intro pre fuel rest len hfuel hnear hlen hvar htag
    obtain ⟨n, rfl⟩ : ∃ n, fuel = n + 1 := ⟨fuel - 1, by omega⟩
    have htot : (pre ++ wire (f :: fs)).length
        = pre.length + (8 + f.payload.length) + (wire fs).length := by
      simp only [wire, Field.wire, List.length_append, le32_length]
      omega
    have hmem0 : pre ++ (wire (f :: fs) ++ (le32 var ++ rest))
        = pre ++ (le32 f.tag ++ (le32 f.payload.length
          ++ (f.payload ++ (wire fs ++ (le32 var ++ rest))))) := by
      simp only [wire, Field.wire, List.append_assoc]
    have hmem : pre ++ (wire (f :: fs) ++ (le32 var ++ rest))
        = (pre ++ le32 f.tag) ++ (le32 f.payload.length
          ++ (f.payload ++ (wire fs ++ (le32 var ++ rest)))) := by
      simp only [wire, Field.wire, List.append_assoc]
    have hmem2 : pre ++ (wire (f :: fs) ++ (le32 var ++ rest))
        = (pre ++ f.wire) ++ (wire fs ++ (le32 var ++ rest)) := by
      simp only [wire, List.append_assoc]
    have htype : rd32 junk (pre ++ (wire (f :: fs) ++ (le32 var ++ rest))) pre.length
        = f.tag := by
      rw [hmem0, rd32_append_le32 _ _ _ _ _ rfl]
      exact Nat.mod_eq_of_lt (htag f (List.mem_cons_self _ _)).1
    have hsize : rd32 junk (pre ++ (wire (f :: fs) ++ (le32 var ++ rest))) (pre.length + 4)
        = f.payload.length := by
      rw [hmem, rd32_append_le32 _ _ _ _ _ (by simp only [List.length_append, le32_length])]
      exact Nat.mod_eq_of_lt (by omega)
    have hlt : int_lt_size pre.length len = true :=
      int_lt_size_of_lt _ _ (by omega) (by omega)
    have hnext : (pre.length + (f.payload.length + 8) % 2 ^ 32) % 2 ^ 32
        = (pre ++ f.wire).length := by
      simp only [Field.wire, List.length_append, le32_length]
      omega
    have hne : var ≠ f.tag := fun h => (htag f (List.mem_cons_self _ _)).2 h.symm
    have hl2 : ((pre ++ f.wire) ++ wire fs).length = (pre ++ wire (f :: fs)).length := by
      simp only [wire, List.append_assoc]
    rw [databuf_get_loop_miss junk _ _ var none n pre.length f.payload.length
      (pre ++ f.wire).length hlt
      (by rw [htype]; simp only [hne, decide_False, Bool.false_and])
      hsize hnext, hmem2, ← hl2]
    exact ih (pre ++ f.wire) n rest len (by simp only [List.length_cons] at hfuel; omega)
      (by rw [hl2]; exact hnear) (by rw [hl2]; exact hlen) hvar
      (fun g hg => htag g (List.mem_cons_of_mem _ hg))


theorem databuf_get_reach (junk : Nat → Nat) (b : Databuf) (fs1 rest : List Field)
    (var fuel : Nat) (payload : List Nat)
    (h : Shaped b (fs1 ++ { tag := var, payload := payload } :: rest)) (hvar : var < 2 ^ 32)
    (htag : ∀ f ∈ fs1, f.tag < 2 ^ 32 ∧ f.tag ≠ var) (hnear : 8 + wire_length fs1 < 2 ^ 31)
    (hfuel : fs1.length < fuel) :
    databuf_get fuel junk (some b) var none = some (some (8 + wire_length fs1 + 8)) := by
  obtain ⟨h1, h2⟩ := h
  have hl : ((le32 DT_RAW
      ++ le32 (wire_length (fs1 ++ { tag := var, payload := payload } :: rest)))
      ++ wire fs1).length = 8 + wire_length fs1 := by
    simp only [List.length_append, le32_length, wire_length_eq]
  have := databuf_get_loop_reach junk var fs1
    (le32 DT_RAW ++ le32 (wire_length (fs1 ++ { tag := var, payload := payload } :: rest)))
    fuel (le32 payload.length ++ (payload ++ wire rest)) b.len hfuel
    (by rw [hl]; exact hnear)
    (by rw [hl, h2, wire_length_append]; simp only [wire_length]; omega) hvar htag
  rw [hl] at this
  simp only [databuf_get, h1, wire_append, wire, Field.wire]
  simpa only [List.append_assoc] using this

theorem databuf_get_absent (junk : Nat → Nat) (b : Databuf) (fs : List Field)
    (var : Nat) (prev : Option Nat) (fuel : Nat) (h : Shaped b fs) (hlen : b.len < 2 ^ 32)
    (hfuel : fs.length ≤ fuel) (htag : ∀ f ∈ fs, f.tag < 2 ^ 32 ∧ f.tag ≠ var) :
    databuf_get fuel junk (some b) var prev = some none := by
  obtain ⟨h1, h2⟩ := h
  have hl : ((le32 DT_RAW ++ le32 (wire_length fs)) ++ wire fs).length = b.len := by
    simp only [List.length_append, le32_length, wire_length_eq, h2]
  have := databuf_get_loop_absent junk var prev fs (le32 DT_RAW ++ le32 (wire_length fs)) fuel
    hfuel (by rw [hl]; exact hlen) htag
  rw [hl] at this
  simp only [databuf_get, h1]
  simpa only [List.append_assoc] using this

theorem rd32_reach (junk : Nat → Nat) (b : Databuf) (fs1 rest : List Field) (var v : Nat)
    (h : Shaped b (fs1 ++ { tag := var, payload := le32 v } :: rest)) :
    rd32 junk (bytes_of (some b)) (8 + wire_length fs1 + 8) = v % 2 ^ 32 := by
  obtain ⟨h1, _⟩ := h
  have e : le32 DT_RAW ++ (le32 (wire_length (fs1 ++ { tag := var, payload := le32 v } :: rest))
      ++ wire (fs1 ++ { tag := var, payload := le32 v } :: rest))
      = (le32 DT_RAW ++ le32 (wire_length (fs1 ++ { tag := var, payload := le32 v } :: rest))
          ++ wire fs1 ++ le32 var ++ le32 (le32 v).length) ++ (le32 v ++ wire rest) := by
    simp only [wire_append, wire, Field.wire, List.append_assoc]
  simp only [bytes_of, h1, Option.getD_some]
  rw [e]
  exact rd32_append_le32 junk _ _ v _
    (by simp only [List.length_append, le32_length, wire_length_eq])


/-! ## The transaction id handed to the backend -/

/-- C20 (amended): for every request that `handle_request` dispatches (the
envelope is valid, the values stored for `MB_REQUEST` and `MB_PROTOCOL` are
not the enumerators `MBIM_UNKOWN` and `MB_PROT_UNKOWN`), whatever transaction
id the request structure holds before the call: when the envelope holds the
header and fields of which the first one with tag `MB_SESSION_TID` begins
below offset 2^31 and carries the four payload bytes of a value `v`, the
backend is called on the request structure with the transaction id `v`; when
the envelope, of fewer than 2^32 bytes, holds the header and fields none of
which has the tag `MB_SESSION_TID`, the backend is called with the
transaction id 0. -/
theorem handle_request_tid (fuel : Nat) (junk : Nat → Nat) (access alloc : Bool)
    (request : Mbim_request) (q1 q2 : Option Nat) (type proto : Nat)
    (hv : databuf_is_valid fuel junk (some request.req) = some true)
    (h1 : databuf_get_uint fuel junk (some request.req) MB_REQUEST MBIM_UNKOWN
      = some (q1, type)) (ht : type ≠ MBIM_UNKOWN)
    (h2 : databuf_get_uint fuel junk (some request.req) MB_PROTOCOL MB_PROT_UNKOWN
      = some (q2, proto)) (hp : proto ≠ MB_PROT_UNKOWN) :
    (∀ (fs1 rest : List Field) (v : Nat),
        Shaped request.req (fs1 ++ { tag := MB_SESSION_TID, payload := le32 v } :: rest) →
        (∀ f ∈ fs1, f.tag < 2 ^ 32 ∧ f.tag ≠ MB_SESSION_TID) →
        8 + wire_length fs1 < 2 ^ 31 → fs1.length < fuel →
        handle_request fuel junk access alloc request
          = some (if proto = MB_PROT_MBIM then
              { request := (mbim_perform_request access alloc
                  { request with type := type, proto := proto, tid := v % 2 ^ 32 }).1,
                backend := some Backend.mbim,
                session := (mbim_perform_request access alloc
                  { request with type := type, proto := proto, tid := v % 2 ^ 32 }).2 }
            else
              { request := (qmi_perform_request access alloc
                  { request with type := type, proto := proto, tid := v % 2 ^ 32 }).1,
                backend := some Backend.qmi,
                session := (qmi_perform_request access alloc
                  { request with type := type, proto := proto, tid := v % 2 ^ 32 }).2 }))
      ∧ (∀ fs : List Field, Shaped request.req fs →
          (∀ f ∈ fs, f.tag < 2 ^ 32 ∧ f.tag ≠ MB_SESSION_TID) →
          request.req.len < 2 ^ 32 → fs.length ≤ fuel →
          handle_request fuel junk access alloc request
            = some (if proto = MB_PROT_MBIM then
                { request := (mbim_perform_request access alloc
                    { request with type := type, proto := proto, tid := 0 }).1,
                  backend := some Backend.mbim,
                  session := (mbim_perform_request access alloc
                    { request with type := type, proto := proto, tid := 0 }).2 }
              else
                { request := (qmi_perform_request access alloc
                    { request with type := type, proto := proto, tid := 0 }).1,
                  backend := some Backend.qmi,
                  session := (qmi_perform_request access alloc
                    { request with type := type, proto := proto, tid := 0 }).2 })) := by
  obtain ⟨q3, tid, hget, hr⟩ := handle_request_dispatch fuel junk access alloc request q1 q2 type
    proto hv h1 ht h2 hp
  constructor
  · intro fs1 rest v hs htag hnear hfuel
    have hg := databuf_get_reach junk request.req fs1 rest MB_SESSION_TID fuel (le32 v) hs
      (by decide) htag hnear hfuel
    rw [databuf_get_uint_some junk fuel request.req MB_SESSION_TID 0 _ (by decide) hg,
      rd32_reach junk request.req fs1 rest MB_SESSION_TID v hs] at hget
    simp only [Option.some.injEq, Prod.mk.injEq] at hget
    rw [hr, ← hget.2]
  · intro fs hs htag hlen hfuel
    have hg := databuf_get_absent junk request.req fs MB_SESSION_TID none fuel hs hlen hfuel htag
    obtain ⟨q, hq⟩ := databuf_get_uint_none junk fuel request.req MB_SESSION_TID 0 hg
    rw [hq] at hget
    simp only [Option.some.injEq, Prod.mk.injEq] at hget
    rw [hr, ← hget.2]

set_option maxRecDepth 8000 in
theorem handle_request_tid_witness :
    stale.tid = 99
      ∧ (handle_request 5 (fun _ => 0) true true (inbound stale tid_envelope)).map
          (fun h => h.request.tid) = some 7
      ∧ handle_request 5 (fun _ => 0) true true (inbound stale tid_envelope)
          = some (if MB_PROT_MBIM = MB_PROT_MBIM then
              { request := (mbim_perform_request true true
                  { inbound stale tid_envelope with
                    type := MBIM_STATUS, proto := MB_PROT_MBIM, tid := 7 % 2 ^ 32 }).1,
                backend := some Backend.mbim,
                session := (mbim_perform_request true true
                  { inbound stale tid_envelope with
                    type := MBIM_STATUS, proto := MB_PROT_MBIM, tid := 7 % 2 ^ 32 }).2 }
            else
              { request := (qmi_perform_request true true
                  { inbound stale tid_envelope with
                    type := MBIM_STATUS, proto := MB_PROT_MBIM, tid := 7 % 2 ^ 32 }).1,
                backend := some Backend.qmi,
                session := (qmi_perform_request true true
                  { inbound stale tid_envelope with
                    type := MBIM_STATUS, proto := MB_PROT_MBIM, tid := 7 % 2 ^ 32 }).2 }) :=
  ⟨rfl, by decide,
    (handle_request_tid 5 (fun _ => 0) true true (inbound stale tid_envelope) (some 16) (some 28)
      MBIM_STATUS MB_PROT_MBIM (by decide) (by decide) (by decide) (by decide) (by decide)).1
      [{ tag := MB_REQUEST, payload := le32 MBIM_STATUS },
       { tag := MB_PROTOCOL, payload := le32 MB_PROT_MBIM }]
      [{ tag := MB_SESSION_TID, payload := le32 9 }] 7
      ⟨by decide, by decide⟩ (by decide) (by decide) (by decide)⟩

set_option maxRecDepth 8000 in
theorem short_tid_dispatch :
    short_tid_envelope
        = le32 DT_RAW ++ (le32 42 ++ wire
            [{ tag := MB_REQUEST, payload := le32 MBIM_STATUS },
             { tag := MB_PROTOCOL, payload := le32 MB_PROT_MBIM },
             { tag := MB_SESSION_TID, payload := [7, 0] },
             { tag := MB_APN, payload := [] }])
      ∧ short_tid_envelope.length = 50
      ∧ databuf_is_valid 5 (fun _ => 0) (some (inbound idle short_tid_envelope).req) = some true
      ∧ handle_request 5 (fun _ => 0) true true (inbound idle short_tid_envelope)
          = some
            { request := (mbim_perform_request true true
                { inbound idle short_tid_envelope with
                  type := MBIM_STATUS, proto := MB_PROT_MBIM, tid := 84082695 }).1,
              backend := some Backend.mbim,
              session := (mbim_perform_request true true
                { inbound idle short_tid_envelope with
                  type := MBIM_STATUS, proto := MB_PROT_MBIM, tid := 84082695 }).2 }
      ∧ 84082695 = 7 + 256 * 0 + 65536 * (MB_APN % 256) + 16777216 * (MB_APN / 256 % 256) := by
  decide


theorem databuf_get_kept_wide (junk : Nat → Nat) (b c : Databuf) (fs gs : List Field)
    (var : Nat) (prev : Option Nat) (fuel pos : Nat) (h : Shaped b fs)
    (h' : Shaped c (fs ++ gs)) (hlen : b.len < 2 ^ 32) (htag : ∀ f ∈ fs, f.tag < 2 ^ 32)
    (hget : databuf_get fuel junk (some b) var prev = some (some pos)) :
    databuf_get fuel junk (some c) var prev = some (some pos)
      ∧ ∃ f ∈ fs, f.tag = var ∧ 16 ≤ pos ∧ pos + f.payload.length ≤ b.len := by
  obtain ⟨h1, h2⟩ := h
  obtain ⟨h1', h2'⟩ := h'
  have hl : ((le32 DT_RAW ++ le32 (wire_length fs)) ++ wire fs).length = b.len := by
    simp only [List.length_append, le32_length, wire_length_eq, h2]
  simp only [databuf_get, h1] at hget
  rw [← List.append_assoc, ← hl] at hget
  obtain ⟨hk, f, hf, hft, hf8, hfp⟩ := databuf_get_loop_kept junk var prev fs
    (le32 DT_RAW ++ le32 (wire_length fs)) (le32 DT_RAW ++ le32 (wire_length (fs ++ gs))) fuel
    (wire gs) c.len pos rfl (by rw [hl]; exact hlen)
    (by rw [hl, h2', h2, wire_length_append]; omega) htag hget
  refine ⟨?_, f, hf, hft, hf8, by rw [← hl]; exact hfp⟩
  simp only [databuf_get, h1', wire_append]
  simpa only [List.append_assoc] using hk


/-! ## What an append leaves in place: the lookups -/

/-- C28 (amended): for every envelope built by `databuf_init` and appends, each
string shorter than 2^31 - 1 characters, whose header and fields take fewer
than 2^32 bytes, and every further call of `databuf_add_uint` or
`databuf_add_string` whose length is not negative as an `int`, the allocation
succeeding: the bytes 0 to 3 and the bytes from 8 up to the old length are
unchanged, the bytes of the new field follow them from the old length on, the
new length does not exceed the capacity, and every lookup that returned a
payload before the call returns the same payload after it: `databuf_get` and
`databuf_get_next_string` the same position, `databuf_get_next_uint` the same
position and the same value, and the string read at a position is the same
when it ends inside the old envelope. -/
theorem append_keeps_lookups (junk : Nat → Nat) (ops : List Append) (op : Append)
    (fuel var : Nat) (prev : Option Nat) (pos : Nat)
    (hpay : ∀ f ∈ fields ops, f.payload.length < 2 ^ 31)
    (hlen : envelope_length ops < 2 ^ 32) (hop : op.len < 2 ^ 31) :
    ∃ mem mem' tail, (build ops).buf = some mem ∧ (op.run (build ops)).buf = some mem'
      ∧ mem.length = (build ops).len ∧ mem'.length = (op.run (build ops)).len
      ∧ mem'.drop 8 = mem.drop 8 ++ tail ∧ mem'.take 4 = mem.take 4
      ∧ (op.run (build ops)).len = (build ops).len + tail.length
      ∧ (op.run (build ops)).len ≤ (op.run (build ops)).size
      ∧ (databuf_get fuel junk (some (build ops)) var prev = some (some pos) →
          databuf_get fuel junk (some (op.run (build ops))) var prev = some (some pos))
      ∧ (databuf_get_next_string fuel junk (some (build ops)) var prev = some (some pos) →
          databuf_get_next_string fuel junk (some (op.run (build ops))) var prev
            = some (some pos))
      ∧ (∀ value v,
          databuf_get_next_uint fuel junk (some (build ops)) var value prev
            = some (some pos, v) →
          databuf_get_next_uint fuel junk (some (op.run (build ops))) var value prev
            = some (some pos, v))
      ∧ (8 ≤ pos → pos ≤ mem.length → 0 ∈ (mem.drop pos).map (fun c => c % 256) →
          string_at mem' pos = string_at mem pos) := by
  have hs := build_shaped ops hpay
  have hb : (build ops).len < 2 ^ 32 := by
    rw [hs.2]
    exact hlen
  obtain ⟨gs, hs', _⟩ := run_shaped_len (build ops) (fields ops) op hs hop
  obtain ⟨mem, mem', hm, hm', hl, hl', hdrop, htake, hgrow⟩ :=
    shaped_frame (build ops) (op.run (build ops)) (fields ops) gs hs hs'
  have kept : ∀ p, databuf_get fuel junk (some (build ops)) var prev = some (some p) →
      databuf_get fuel junk (some (op.run (build ops))) var prev = some (some p)
        ∧ ∃ f ∈ fields ops, f.tag = var ∧ 16 ≤ p ∧ p + f.payload.length ≤ (build ops).len :=
    fun p hp => databuf_get_kept_wide junk _ _ (fields ops) gs var prev fuel p hs hs' hb
      (fields_tag_lt ops) hp
  refine ⟨mem, mem', wire gs, hm, hm', hl, hl', hdrop, htake, hgrow,
    run_len_le_size _ op (build_len_le_size ops hpay (by omega)) (by omega),
    fun h => (kept pos h).1, ?_, ?_, ?_⟩
  · unfold databuf_get_next_string
    split
    · intro h
      cases h
    · exact fun h => (kept pos h).1
  · intro value v h
    unfold databuf_get_next_uint at h ⊢
    by_cases hvar : var % 256 = DT_UINT
    · rw [if_neg (fun hn => hn hvar)] at h ⊢
      cases hg : databuf_get fuel junk (some (build ops)) var prev with
      | none =>
        rw [hg] at h
        cases h
      | some r =>
        cases r with
        | none =>
          rw [hg] at h
          cases h
        | some p =>
          rw [hg] at h
          simp only [Option.some.injEq, Prod.mk.injEq] at h
          obtain ⟨hp, hv⟩ := h
          subst hp
          obtain ⟨hk, f, hf, hft, h16, hfp⟩ := kept p hg
          rw [hk]
          have h4 := fields_uint_payload ops f hf (by rw [hft]; exact hvar)
          have e1 : bytes_of (some (op.run (build ops))) = mem' := by
            simp only [bytes_of, hm', Option.getD_some]
          have e2 : bytes_of (some (build ops)) = mem := by
            simp only [bytes_of, hm, Option.getD_some]
          rw [e2] at hv
          simp only [e1]
          rw [rd32_frame junk mem mem' (wire gs) p hdrop (by omega) (by omega), hv]
    · rw [if_pos hvar] at h
      cases h
  · intro h8 hp hnul
    exact string_at_frame mem mem' (wire gs) pos hdrop h8 hp hnul

theorem append_keeps_lookups_witness :
    ((∀ f ∈ fields sample_ops, f.payload.length < 2 ^ 31) ∧ envelope_length sample_ops < 2 ^ 32
        ∧ (Append.uint MB_SESSION_TID 7).len < 2 ^ 31
        ∧ databuf_get_next_uint 4 (fun _ => 0) (some (build sample_ops)) MB_RESPONSE 0 none
          = some (some 31, 1)
        ∧ (build sample_ops).len = 43
        ∧ ((Append.uint MB_SESSION_TID 7).run (build sample_ops)).len = 55)
      ∧ (∃ mem mem' tail, (build sample_ops).buf = some mem
        ∧ ((Append.uint MB_SESSION_TID 7).run (build sample_ops)).buf = some mem'
        ∧ mem.length = (build sample_ops).len
        ∧ mem'.length = ((Append.uint MB_SESSION_TID 7).run (build sample_ops)).len
        ∧ mem'.drop 8 = mem.drop 8 ++ tail ∧ mem'.take 4 = mem.take 4
        ∧ ((Append.uint MB_SESSION_TID 7).run (build sample_ops)).len
            = (build sample_ops).len + tail.length
        ∧ ((Append.uint MB_SESSION_TID 7).run (build sample_ops)).len
            ≤ ((Append.uint MB_SESSION_TID 7).run (build sample_ops)).size
        ∧ (databuf_get 4 (fun _ => 0) (some (build sample_ops)) MB_RESPONSE none
              = some (some 31) →
            databuf_get 4 (fun _ => 0)
                (some ((Append.uint MB_SESSION_TID 7).run (build sample_ops))) MB_RESPONSE none
              = some (some 31))
        ∧ (databuf_get_next_string 4 (fun _ => 0) (some (build sample_ops)) MB_RESPONSE none
              = some (some 31) →
            databuf_get_next_string 4 (fun _ => 0)
                (some ((Append.uint MB_SESSION_TID 7).run (build sample_ops))) MB_RESPONSE none
              = some (some 31))
        ∧ (∀ value v,
            databuf_get_next_uint 4 (fun _ => 0) (some (build sample_ops)) MB_RESPONSE value
                none = some (some 31, v) →
            databuf_get_next_uint 4 (fun _ => 0)
                (some ((Append.uint MB_SESSION_TID 7).run (build sample_ops))) MB_RESPONSE
                value none = some (some 31, v))
        ∧ (8 ≤ 31 → 31 ≤ mem.length → 0 ∈ (mem.drop 31).map (fun c => c % 256) →
            string_at mem' 31 = string_at mem 31))
      ∧ envelope_length far_ops = 2 ^ 31 + 27
      ∧ (databuf_get 2 (fun _ => 0) (some (build far_ops)) MB_ERROR none = some (some 16) →
          databuf_get 2 (fun _ => 0) (some ((Append.uint MB_RESPONSE 2).run (build far_ops)))
            MB_ERROR none = some (some 16)) :=
  ⟨⟨by decide, by decide, by decide, by decide, by decide, by decide⟩,
    append_keeps_lookups (fun _ => 0) sample_ops (Append.uint MB_SESSION_TID 7) 4 MB_RESPONSE
      none 31 (by decide) (by decide) (by decide),
    envelope_length_far_ops,
    by
      obtain ⟨_, _, _, _, _, _, _, _, _, _, _, hk, _⟩ :=
        append_keeps_lookups (fun _ => 0) far_ops (Append.uint MB_RESPONSE 2) 2 MB_ERROR none 16
          far_ops_payload (by rw [envelope_length_far_ops]; norm_num) (by decide)
      exact hk⟩


/-! ## A lookup behind 2^32 bytes -/

theorem peek_replicate (junk : Nat → Nat) (pre rest : List Nat) (c m i : Nat)
    (h1 : pre.length ≤ i) (h2 : i < pre.length + m) :
    peek junk (pre ++ (List.replicate m c ++ rest)) i = c % 256 := by
  obtain ⟨k, rfl⟩ : ∃ k, i = pre.length + k := ⟨i - pre.length, by omega⟩
  rw [peek_append_right, List.getD_eq_getElem?_getD,
    List.getElem?_append_left (by rw [List.length_replicate]; omega),
    List.getElem?_replicate, if_pos (by omega)]
  rfl

theorem rd32_replicate (junk : Nat → Nat) (pre rest : List Nat) (c m i : Nat)
    (h1 : pre.length ≤ i) (h2 : i + 4 ≤ pre.length + m) :
    rd32 junk (pre ++ (List.replicate m c ++ rest)) i = c % 256 * 16843009 := by
  unfold rd32
  rw [peek_replicate junk pre rest c m i h1 (by omega),
    peek_replicate junk pre rest c m (i + 1) (by omega) (by omega),
    peek_replicate junk pre rest c m (i + 2) (by omega) (by omega),
    peek_replicate junk pre rest c m (i + 3) (by omega) (by omega)]
  omega

theorem databuf_get_loop_wrap (junk : Nat → Nat) (M Q1 P2 R : List Nat)
    (W t1 t n3 var len fuel : Nat)
    (hM : M = le32 DT_RAW ++ (le32 W ++ (le32 t1 ++ (le32 Q1.length ++ (Q1 ++ (le32 t
      ++ (le32 P2.length ++ (P2 ++ (le32 t ++ (le32 n3 ++ R))))))))))
    (hq1 : Q1.length = 4) (hp2 : P2.length = 2 ^ 31 - 29) (hn3 : n3 = 2 ^ 31 - 7)
    (ht1 : t1 % 2 ^ 32 ≠ var) (ht : t % 2 ^ 32 ≠ var) (h0 : DT_RAW % 2 ^ 32 ≠ var)
    (hlen : 2 ^ 31 ≤ len) :
    databuf_get_loop junk M len var none (fuel + 4) 8
      = databuf_get_loop junk M len var none fuel ((W % 2 ^ 32 + 8) % 2 ^ 32) := by
  have r0 : rd32 junk M 0 = DT_RAW % 2 ^ 32 := by
    rw [hM]
    exact rd32_header_type junk _ _
  have r4 : rd32 junk M 4 = W % 2 ^ 32 := by
    rw [hM]
    exact rd32_header_size junk _ _ _
  have r8 : rd32 junk M 8 = t1 % 2 ^ 32 := by
    rw [hM, ← List.append_assoc]
    exact rd32_append_le32 junk _ _ _ _ rfl
  have r12 : rd32 junk M (8 + 4) = 4 := by
    rw [hM, ← List.append_assoc, ← List.append_assoc]
    exact (rd32_append_le32 junk _ _ _ _ rfl).trans (by rw [hq1]; rfl)
  have r20 : rd32 junk M 20 = t % 2 ^ 32 := by
    rw [hM, ← List.append_assoc, ← List.append_assoc, ← List.append_assoc,
      ← List.append_assoc]
    exact rd32_append_le32 junk _ _ _ _
      (by simp only [List.length_append, le32_length, hq1])
  have r24 : rd32 junk M (20 + 4) = 2 ^ 31 - 29 := by
    rw [hM, ← List.append_assoc, ← List.append_assoc, ← List.append_assoc,
      ← List.append_assoc, ← List.append_assoc]
    exact (rd32_append_le32 junk _ _ _ _
      (by simp only [List.length_append, le32_length, hq1])).trans (by rw [hp2]; norm_num)
  have ra : rd32 junk M (2 ^ 31 - 1) = t % 2 ^ 32 := by
    rw [hM, ← List.append_assoc, ← List.append_assoc, ← List.append_assoc,
      ← List.append_assoc, ← List.append_assoc, ← List.append_assoc, ← List.append_assoc]
    exact rd32_append_le32 junk _ _ _ _
      (by simp only [List.length_append, le32_length, hq1, hp2]; omega)
  have rb : rd32 junk M (2 ^ 31 - 1 + 4) = 2 ^ 31 - 7 := by
    rw [hM, ← List.append_assoc, ← List.append_assoc, ← List.append_assoc,
      ← List.append_assoc, ← List.append_assoc, ← List.append_assoc, ← List.append_assoc,
      ← List.append_assoc]
    exact (rd32_append_le32 junk _ _ _ _
      (by simp only [List.length_append, le32_length, hq1, hp2]; omega)).trans
      (by rw [hn3]; norm_num)
  rw [databuf_get_loop_miss junk M len var none (fuel + 3) 8 4 20
      (int_lt_size_of_lt _ _ (by omega) (by norm_num))
      (by rw [r8, decide_eq_false (Ne.symm ht1)]; rfl) r12 (by norm_num),
    databuf_get_loop_miss junk M len var none (fuel + 2) 20 (2 ^ 31 - 29) (2 ^ 31 - 1)
      (int_lt_size_of_lt _ _ (by omega) (by norm_num))
      (by rw [r20, decide_eq_false (Ne.symm ht)]; rfl) r24 (by norm_num),
    databuf_get_loop_miss junk M len var none (fuel + 1) (2 ^ 31 - 1) (2 ^ 31 - 7) 0
      (int_lt_size_of_lt _ _ (by omega) (by norm_num))
      (by rw [ra, decide_eq_false (Ne.symm ht)]; rfl) rb (by norm_num),
    databuf_get_loop_miss junk M len var none fuel 0 (W % 2 ^ 32) ((W % 2 ^ 32 + 8) % 2 ^ 32)
      (int_lt_size_of_lt _ _ (by omega) (by norm_num))
      (by rw [r0, decide_eq_false (Ne.symm h0)]; rfl) r4 (by omega)]

theorem databuf_get_loop_wrap_hit (junk : Nat → Nat) (M P2 R : List Nat)
    (W t1 t n3 v var len fuel : Nat)
    (hM : M = le32 DT_RAW ++ (le32 W ++ (le32 t1 ++ (le32 (le32 v).length ++ (le32 v ++ (le32 t
      ++ (le32 P2.length ++ (P2 ++ (le32 t ++ (le32 n3 ++ R))))))))))
    (hp2 : P2.length = 2 ^ 31 - 29) (hn3 : n3 = 2 ^ 31 - 7)
    (ht1 : t1 % 2 ^ 32 ≠ var) (ht : t % 2 ^ 32 ≠ var) (h0 : DT_RAW % 2 ^ 32 ≠ var)
    (hlen : 2 ^ 31 ≤ len) (hW : W % 2 ^ 32 = 8) (hv : v % 2 ^ 32 = var) :
    databuf_get_loop junk M len var none (fuel + 5) 8 = some (some 24) := by
  have r16 : rd32 junk M 16 = v % 2 ^ 32 := by
    rw [hM, ← List.append_assoc, ← List.append_assoc, ← List.append_assoc]
    exact rd32_append_le32 junk _ _ _ _ rfl
  rw [databuf_get_loop_wrap junk M (le32 v) P2 R W t1 t n3 var len (fuel + 1) hM rfl hp2 hn3
    ht1 ht h0 hlen, hW]
  exact databuf_get_loop_hit junk M len var none fuel 16
    (int_lt_size_of_lt _ _ (by omega) (by norm_num)) (r16.trans hv) rfl

theorem databuf_get_loop_wrap_miss (junk : Nat → Nat) (M Q1 q R : List Nat)
    (W t1 t n3 var len fuel : Nat)
    (hM : M = le32 DT_RAW ++ (le32 W ++ (le32 t1 ++ (le32 Q1.length ++ (Q1 ++ (le32 t
      ++ (le32 (List.replicate (2 ^ 31 - 30) 65 ++ q).length
        ++ ((List.replicate (2 ^ 31 - 30) 65 ++ q) ++ (le32 t ++ (le32 n3 ++ R))))))))))
    (hq1 : Q1.length = 4) (hq : q.length = 1) (hn3 : n3 = 2 ^ 31 - 7)
    (ht1 : t1 % 2 ^ 32 ≠ var) (ht : t % 2 ^ 32 ≠ var) (h0 : DT_RAW % 2 ^ 32 ≠ var)
    (hvar : var ≠ 1094795585)
    (hlen : 2 ^ 31 ≤ len) (hlen2 : len < 2 ^ 63) (hW : W % 2 ^ 32 = 20) :
    databuf_get_loop junk M len var none (fuel + 6) 8 = some none := by
  have hp2 : (List.replicate (2 ^ 31 - 30) 65 ++ q).length = 2 ^ 31 - 29 := by
    rw [List.length_append, List.length_replicate, hq]
    norm_num
  have hM' : M = (le32 DT_RAW ++ le32 W ++ le32 t1 ++ le32 Q1.length ++ Q1 ++ le32 t
      ++ le32 (List.replicate (2 ^ 31 - 30) 65 ++ q).length)
      ++ (List.replicate (2 ^ 31 - 30) 65 ++ (q ++ (le32 t ++ (le32 n3 ++ R)))) := by
    rw [hM]
    simp only [List.append_assoc]
  have hpre : (le32 DT_RAW ++ le32 W ++ le32 t1 ++ le32 Q1.length ++ Q1 ++ le32 t
      ++ le32 (List.replicate (2 ^ 31 - 30) 65 ++ q).length).length = 28 := by
    simp only [List.length_append, le32_length, hq1]
  have rd : ∀ i, 28 ≤ i → i + 4 ≤ 2 ^ 31 - 2 → rd32 junk M i = 1094795585 := by
    intro i h1 h2
    rw [hM']
    exact rd32_replicate junk _ _ 65 (2 ^ 31 - 30) i (by rw [hpre]; exact h1)
      (by rw [hpre]; omega)
  rw [databuf_get_loop_wrap junk M Q1 (List.replicate (2 ^ 31 - 30) 65 ++ q) R W t1 t n3 var len
    (fuel + 2) hM hq1 hp2 hn3 ht1 ht h0 hlen, hW]
  show databuf_get_loop junk M len var none (fuel + 1 + 1) 28 = some none
  rw [databuf_get_loop_miss junk M len var none (fuel + 1) 28 1094795585 1094795621
      (int_lt_size_of_lt _ _ (by omega) (by norm_num))
      (by rw [rd 28 (by norm_num) (by norm_num), decide_eq_false hvar]; rfl)
      (rd (28 + 4) (by norm_num) (by norm_num)) (by norm_num),
    databuf_get_loop_miss junk M len var none fuel 1094795621 1094795585 2189591214
      (int_lt_size_of_lt _ _ (by omega) (by norm_num))
      (by rw [rd 1094795621 (by norm_num) (by norm_num), decide_eq_false hvar]; rfl)
      (rd (1094795621 + 4) (by norm_num) (by norm_num)) (by norm_num)]
  exact databuf_get_loop_done junk M len var none fuel 2189591214
    (int_lt_size_of_neg _ _ (by norm_num) hlen2)


theorem databuf_get_wrap_hit (junk : Nat → Nat) (b : Databuf) (P2 P3 : List Nat)
    (gs : List Field) (fuel : Nat)
    (h : Shaped b ({ tag := MB_RESPONSE, payload := le32 MB_ERROR }
      :: { tag := MB_APN, payload := P2 } :: { tag := MB_APN, payload := P3 } :: gs))
    (hp2 : P2.length = 2 ^ 31 - 29) (hp3 : P3.length = 2 ^ 31 - 7)
    (hgs : wire_length gs = 16) :
    databuf_get (fuel + 5) junk (some b) MB_ERROR none = some (some 24) := by
  obtain ⟨h1, h2⟩ := h
  have hW : wire_length ({ tag := MB_RESPONSE, payload := le32 MB_ERROR }
      :: { tag := MB_APN, payload := P2 } :: { tag := MB_APN, payload := P3 } :: gs)
      = 2 ^ 32 + 8 := by
    simp only [wire_length, hp2, hp3, hgs, le32_length]
    omega
  simp only [databuf_get, h1]
  exact databuf_get_loop_wrap_hit junk _ P2 (P3 ++ wire gs)
    (wire_length ({ tag := MB_RESPONSE, payload := le32 MB_ERROR }
      :: { tag := MB_APN, payload := P2 } :: { tag := MB_APN, payload := P3 } :: gs))
    MB_RESPONSE MB_APN P3.length
    MB_ERROR MB_ERROR b.len fuel (by simp only [wire, Field.wire, List.append_assoc]) hp2 hp3
    (by decide) (by decide) (by decide) (by rw [h2, hW]; norm_num) (by rw [hW]; norm_num)
    (by decide)

theorem databuf_get_wrap_miss (junk : Nat → Nat) (b : Databuf) (q P3 : List Nat)
    (gs : List Field) (fuel : Nat)
    (h : Shaped b ({ tag := MB_RESPONSE, payload := le32 MB_ERROR }
      :: { tag := MB_APN, payload := List.replicate (2 ^ 31 - 30) 65 ++ q }
      :: { tag := MB_APN, payload := P3 } :: gs))
    (hq : q.length = 1) (hp3 : P3.length = 2 ^ 31 - 7) (hgs : wire_length gs = 28) :
    databuf_get (fuel + 6) junk (some b) MB_ERROR none = some none := by
  obtain ⟨h1, h2⟩ := h
  have hW : wire_length ({ tag := MB_RESPONSE, payload := le32 MB_ERROR }
      :: { tag := MB_APN, payload := List.replicate (2 ^ 31 - 30) 65 ++ q }
      :: { tag := MB_APN, payload := P3 } :: gs)
      = 2 ^ 32 + 20 := by
    simp only [wire_length, List.length_append, List.length_replicate, hq, hp3, hgs, le32_length]
    omega
  simp only [databuf_get, h1]
  exact databuf_get_loop_wrap_miss junk _ (le32 MB_ERROR) q (P3 ++ wire gs)
    (wire_length ({ tag := MB_RESPONSE, payload := le32 MB_ERROR }
      :: { tag := MB_APN, payload := List.replicate (2 ^ 31 - 30) 65 ++ q }
      :: { tag := MB_APN, payload := P3 } :: gs))
    MB_RESPONSE MB_APN P3.length MB_ERROR b.len fuel (by simp only [wire, Field.wire, List.append_assoc]) rfl hq hp3
    (by decide) (by decide) (by decide) (by decide) (by rw [h2, hW]; norm_num)
    (by rw [h2, hW]; norm_num) (by rw [hW]; norm_num)

theorem wrap_string_a_eq :
    cstring wrap_string_a = List.replicate (2 ^ 31 - 30) 65 ++ [0] := by
  rw [cstring_eq wrap_string_a, wrap_string_a]
  intro c hc
  rw [wrap_string_a] at hc
  rw [List.eq_of_mem_replicate hc]
  decide

theorem wrap_string_a_length : (cstring wrap_string_a).length = 2 ^ 31 - 29 := by
  rw [cstring_length, wrap_string_a, strlen_replicate _ _ (by decide)]
  norm_num

theorem wrap_string_b_length : (cstring wrap_string_b).length = 2 ^ 31 - 7 := by
  rw [cstring_length, wrap_string_b, strlen_replicate _ _ (by decide)]
  norm_num

theorem fields_wrap_ops : fields wrap_ops =
    [{ tag := MB_RESPONSE, payload := le32 MB_ERROR },
     { tag := MB_APN, payload := cstring wrap_string_a },
     { tag := MB_APN, payload := cstring wrap_string_b },
     { tag := MB_APN, payload := cstring (List.replicate 7 65) }] := by
  have h1 : MB_APN % 256 = DT_STRING := by decide
  have h2 : MB_RESPONSE % 256 = DT_UINT := by decide
  have h3 : MB_APN % 2 ^ 32 = MB_APN := by decide
  have h4 : MB_RESPONSE % 2 ^ 32 = MB_RESPONSE := by decide
  simp only [wrap_ops, fields, List.filterMap_cons, List.filterMap_nil, Append.field, h1, h2, h3,
    h4, if_true]

theorem fields_wrap_more : fields (wrap_ops ++ [Append.uint MB_RESPONSE 1]) =
    [{ tag := MB_RESPONSE, payload := le32 MB_ERROR },
     { tag := MB_APN, payload := cstring wrap_string_a },
     { tag := MB_APN, payload := cstring wrap_string_b },
     { tag := MB_APN, payload := cstring (List.replicate 7 65) },
     { tag := MB_RESPONSE, payload := le32 1 }] := by
  rw [fields_snoc, fields_wrap_ops]
  rfl

theorem wrap_more_payload :
    ∀ f ∈ fields (wrap_ops ++ [Append.uint MB_RESPONSE 1]), f.payload.length < 2 ^ 31 := by
  intro f hf
  rw [fields_wrap_more] at hf
  simp only [List.mem_cons, List.mem_singleton, List.not_mem_nil, or_false] at hf
  rcases hf with rfl | rfl | rfl | rfl | rfl
  · decide
  · show (cstring wrap_string_a).length < 2 ^ 31
    rw [wrap_string_a_length]
    decide
  · show (cstring wrap_string_b).length < 2 ^ 31
    rw [wrap_string_b_length]
    decide
  · decide
  · decide

theorem wrap_ops_payload : ∀ f ∈ fields wrap_ops, f.payload.length < 2 ^ 31 := by
  intro f hf
  apply wrap_more_payload f
  rw [fields_snoc]
  exact List.mem_append_left _ hf

theorem wire_length_wrap (t1 t t4 : Nat) (q1 p2 p3 p4 : List Nat) (h1 : q1.length = 4)
    (h2 : p2.length = 2 ^ 31 - 29) (h3 : p3.length = 2 ^ 31 - 7) (h4 : p4.length = 8) :
    wire_length [{ tag := t1, payload := q1 }, { tag := t, payload := p2 },
      { tag := t, payload := p3 }, { tag := t4, payload := p4 }] = 2 ^ 32 + 8 := by
  simp only [wire_length, h1, h2, h3, h4]
  omega

theorem wire_length_wrap_ops : wire_length (fields wrap_ops) = 2 ^ 32 + 8 := by
  rw [fields_wrap_ops]
  exact wire_length_wrap MB_RESPONSE MB_APN MB_APN (le32 MB_ERROR) (cstring wrap_string_a)
    (cstring wrap_string_b) (cstring (List.replicate 7 65)) rfl wrap_string_a_length
    wrap_string_b_length (by decide)

theorem envelope_length_wrap_ops : envelope_length wrap_ops = 2 ^ 32 + 16 :=
  (envelope_length_eq wrap_ops _ wire_length_wrap_ops).trans (by norm_num)

theorem wrap_ops_get :
    databuf_get 6 (fun _ => 0) (some (build wrap_ops)) MB_ERROR none = some (some 24) := by
  have hs := build_shaped wrap_ops wrap_ops_payload
  rw [fields_wrap_ops] at hs
  exact databuf_get_wrap_hit (fun _ => 0) (build wrap_ops) (cstring wrap_string_a)
    (cstring wrap_string_b) [{ tag := MB_APN, payload := cstring (List.replicate 7 65) }] 1 hs
    wrap_string_a_length wrap_string_b_length (by decide)

theorem wrap_more_get :
    databuf_get 6 (fun _ => 0) (some ((Append.uint MB_RESPONSE 1).run (build wrap_ops))) MB_ERROR
      none = some none := by
  have hs := build_shaped (wrap_ops ++ [Append.uint MB_RESPONSE 1]) wrap_more_payload
  rw [fields_wrap_more, build_snoc, wrap_string_a_eq] at hs
  exact databuf_get_wrap_miss (fun _ => 0) _ [0] (cstring wrap_string_b)
    [{ tag := MB_APN, payload := cstring (List.replicate 7 65) },
     { tag := MB_RESPONSE, payload := le32 1 }] 0 hs rfl wrap_string_b_length (by decide)

/-- C28 (counterexample): the envelope built by `databuf_init`, the append of a
`UInt32` of value `MB_ERROR` under `MB_RESPONSE`, the appends of strings of
2^31 - 30, 2^31 - 8 and 7 letters under `MB_APN` takes 2^32 + 16 bytes, each
string being shorter than 2^31 - 1 characters. The lookup of `MB_ERROR` in it
returns the position 24: the offset of the walk wraps to 0 behind the third
field, the header is taken for a field of 8 bytes, and the value of the first
field is taken for a tag. After the append of a `UInt32` under `MB_RESPONSE`
the header holds another size, and the same lookup returns not-found. -/
theorem wrapped_lookup_is_lost :
    (∀ f ∈ fields wrap_ops, f.payload.length < 2 ^ 31)
      ∧ (Append.uint MB_RESPONSE 1).len < 2 ^ 31
      ∧ envelope_length wrap_ops = 2 ^ 32 + 16
      ∧ databuf_get 6 (fun _ => 0) (some (build wrap_ops)) MB_ERROR none = some (some 24)
      ∧ databuf_get 6 (fun _ => 0) (some ((Append.uint MB_RESPONSE 1).run (build wrap_ops)))
          MB_ERROR none = some none
      ∧ databuf_get_string 6 (fun _ => 0) (some (build wrap_ops)) MB_ERROR = some (some 24)
      ∧ databuf_get_string 6 (fun _ => 0)
          (some ((Append.uint MB_RESPONSE 1).run (build wrap_ops))) MB_ERROR = some none := by
  have hs : MB_ERROR % 256 = DT_STRING := by decide
  refine ⟨wrap_ops_payload, by decide, envelope_length_wrap_ops, wrap_ops_get, wrap_more_get,
    ?_, ?_⟩
  · unfold databuf_get_string databuf_get_next_string
    rw [if_neg (fun h => h hs)]
    exact wrap_ops_get
  · unfold databuf_get_string databuf_get_next_string
    rw [if_neg (fun h => h hs)]
    exact wrap_more_get


theorem databuf_get_loop_beyond (junk : Nat → Nat) (var : Nat) (prev : Option Nat)
    (fs : List Field) :
    ∀ (pre : List Nat) (fuel : Nat) (rest : List Nat) (len : Nat), fs.length ≤ fuel →
      2 ^ 31 ≤ (pre ++ wire fs).length → (pre ++ wire fs).length < 2 ^ 32 →
      (pre ++ wire fs).length ≤ len → len < 2 ^ 63 →
      (∀ f ∈ fs, f.tag < 2 ^ 32 ∧ f.tag ≠ var) →
      databuf_get_loop junk (pre ++ (wire fs ++ rest)) len var prev fuel pre.length
        = some none := by
  induction fs with
  | nil =>
    intro pre fuel rest len _ hfar _ _ hlen _
    simp only [wire, List.append_nil] at hfar
    exact databuf_get_loop_done _ _ _ _ _ _ _ (int_lt_size_of_neg _ _ hfar hlen)
  | cons f fs ih =>
    intro pre fuel rest len hfuel hfar hlt32 hle hlen htag
    have htot : (pre ++ wire (f :: fs)).length
        = pre.length + (8 + f.payload.length) + (wire fs).length := by
      simp only [wire, Field.wire, List.length_append, le32_length]
      omega
    by_cases hnear : pre.length < 2 ^ 31
    · obtain ⟨n, rfl⟩ : ∃ n, fuel = n + 1 :=
        ⟨fuel - 1, by simp only [List.length_cons] at hfuel; omega⟩
      have hmem0 : pre ++ (wire (f :: fs) ++ rest)
          = pre ++ (le32 f.tag ++ (le32 f.payload.length
            ++ (f.payload ++ (wire fs ++ rest)))) := by
        simp only [wire, Field.wire, List.append_assoc]
      have hmem : pre ++ (wire (f :: fs) ++ rest)
          = (pre ++ le32 f.tag) ++ (le32 f.payload.length
            ++ (f.payload ++ (wire fs ++ rest))) := by
        simp only [wire, Field.wire, List.append_assoc]
      have hmem2 : pre ++ (wire (f :: fs) ++ rest)
          = (pre ++ f.wire) ++ (wire fs ++ rest) := by
        simp only [wire, List.append_assoc]
      have htype : rd32 junk (pre ++ (wire (f :: fs) ++ rest)) pre.length = f.tag := by
        rw [hmem0, rd32_append_le32 _ _ _ _ _ rfl]
        exact Nat.mod_eq_of_lt (htag f (List.mem_cons_self _ _)).1
      have hsize : rd32 junk (pre ++ (wire (f :: fs) ++ rest)) (pre.length + 4)
          = f.payload.length := by
        rw [hmem, rd32_append_le32 _ _ _ _ _ (by simp only [List.length_append, le32_length])]
        exact Nat.mod_eq_of_lt (by omega)
      have hlt : int_lt_size pre.length len = true :=
        int_lt_size_of_lt _ _ (by omega) hnear
      have hnext : (pre.length + (f.payload.length + 8) % 2 ^ 32) % 2 ^ 32
          = (pre ++ f.wire).length := by
        simp only [Field.wire, List.length_append, le32_length]
        omega
      have hne : var ≠ f.tag := fun h => (htag f (List.mem_cons_self _ _)).2 h.symm
      have hl2 : ((pre ++ f.wire) ++ wire fs).length = (pre ++ wire (f :: fs)).length := by
        simp only [wire, List.append_assoc]
      rw [databuf_get_loop_miss junk _ _ var prev n pre.length f.payload.length
        (pre ++ f.wire).length hlt
        (by rw [htype]; simp only [hne, decide_False, Bool.false_and])
        hsize hnext, hmem2]
      exact ih (pre ++ f.wire) n rest len (by simp only [List.length_cons] at hfuel; omega)
        (by rw [hl2]; exact hfar) (by rw [hl2]; exact hlt32) (by rw [hl2]; exact hle) hlen
        (fun g hg => htag g (List.mem_cons_of_mem _ hg))
    · exact databuf_get_loop_done _ _ _ _ _ _ _
        (int_lt_size_of_neg _ _ (by omega) hlen)

theorem databuf_get_beyond (junk : Nat → Nat) (b : Databuf) (fs1 rest : List Field)
    (var : Nat) (prev : Option Nat) (fuel : Nat) (h : Shaped b (fs1 ++ rest))
    (hfar : 2 ^ 31 ≤ 8 + wire_length fs1) (hlt : 8 + wire_length fs1 < 2 ^ 32)
    (hlen : b.len < 2 ^ 63) (hfuel : fs1.length ≤ fuel)
    (htag : ∀ f ∈ fs1, f.tag < 2 ^ 32 ∧ f.tag ≠ var) :
    databuf_get fuel junk (some b) var prev = some none := by
  obtain ⟨h1, h2⟩ := h
  have hl : ((le32 DT_RAW ++ le32 (wire_length (fs1 ++ rest))) ++ wire fs1).length
      = 8 + wire_length fs1 := by
    simp only [List.length_append, le32_length, wire_length_eq]
  have := databuf_get_loop_beyond junk var prev fs1
    (le32 DT_RAW ++ le32 (wire_length (fs1 ++ rest))) fuel (wire rest) b.len hfuel
    (by rw [hl]; exact hfar) (by rw [hl]; exact hlt)
    (by rw [hl, h2, wire_length_append]; omega) hlen htag
  simp only [databuf_get, h1, wire_append]
  simpa only [List.append_assoc] using this


/-! ## A transaction id behind 2^31 bytes -/

theorem fields_far_tid_ops : fields far_tid_ops =
    [{ tag := MB_REQUEST, payload := le32 MBIM_STATUS },
     { tag := MB_PROTOCOL, payload := le32 MB_PROT_MBIM },
     { tag := MB_APN, payload := cstring far_string },
     { tag := MB_SESSION_TID, payload := le32 7 }] := by
  have h1 : MB_APN % 256 = DT_STRING := by decide
  have h2 : MB_REQUEST % 256 = DT_UINT := by decide
  have h3 : MB_PROTOCOL % 256 = DT_UINT := by decide
  have h4 : MB_SESSION_TID % 256 = DT_UINT := by decide
  have h5 : MB_APN % 2 ^ 32 = MB_APN := by decide
  have h6 : MB_REQUEST % 2 ^ 32 = MB_REQUEST := by decide
  have h7 : MB_PROTOCOL % 2 ^ 32 = MB_PROTOCOL := by decide
  have h8 : MB_SESSION_TID % 2 ^ 32 = MB_SESSION_TID := by decide
  simp only [far_tid_ops, fields, List.filterMap_cons, List.filterMap_nil, Append.field, h1, h2,
    h3, h4, h5, h6, h7, h8, if_true]

theorem far_tid_ops_payload : ∀ f ∈ fields far_tid_ops, f.payload.length < 2 ^ 31 := by
  intro f hf
  rw [fields_far_tid_ops] at hf
  simp only [List.mem_cons, List.mem_singleton, List.not_mem_nil, or_false] at hf
  rcases hf with rfl | rfl | rfl | rfl
  · decide
  · decide
  · show (cstring far_string).length < 2 ^ 31
    rw [far_string_length]
    decide
  · decide

theorem wire_length_far_tid (t1 t2 t3 t4 : Nat) (p1 p2 p3 p4 : List Nat) (h1 : p1.length = 4)
    (h2 : p2.length = 4) (h3 : p3.length = 2 ^ 31 - 1) (h4 : p4.length = 4) :
    wire_length [{ tag := t1, payload := p1 }, { tag := t2, payload := p2 },
        { tag := t3, payload := p3 }, { tag := t4, payload := p4 }] = 2 ^ 31 + 43
      ∧ wire_length [{ tag := t1, payload := p1 }, { tag := t2, payload := p2 },
        { tag := t3, payload := p3 }] = 2 ^ 31 + 31 := by
  simp only [wire_length, h1, h2, h3, h4]
  omega

theorem received_shaped (buffer : List Nat) (fs : List Field)
    (h : buffer = le32 DT_RAW ++ (le32 (wire_length fs) ++ wire fs)) :
    Shaped (received buffer) fs := by
  constructor
  · show some buffer = _
    rw [h]
  · show buffer.length = _
    rw [h, List.length_append, List.length_append, le32_length, le32_length, wire_length_eq]
    omega

theorem built_bytes (b : Databuf) (fs : List Field) (h : Shaped b fs) :
    b.buf.getD [] = le32 DT_RAW ++ (le32 (wire_length fs) ++ wire fs) := by
  rw [h.1]
  rfl

theorem far_tid_shaped :
    Shaped (inbound idle far_tid_envelope).req
      [{ tag := MB_REQUEST, payload := le32 MBIM_STATUS },
       { tag := MB_PROTOCOL, payload := le32 MB_PROT_MBIM },
       { tag := MB_APN, payload := cstring far_string },
       { tag := MB_SESSION_TID, payload := le32 7 }] := by
  have hs := build_shaped far_tid_ops far_tid_ops_payload
  rw [fields_far_tid_ops] at hs
  rw [inbound_req]
  exact received_shaped _ _ (built_bytes _ _ hs)

theorem far_tid_length : (inbound idle far_tid_envelope).req.len = 2 ^ 31 + 51 := by
  have hw := wire_length_far_tid MB_REQUEST MB_PROTOCOL MB_APN MB_SESSION_TID (le32 MBIM_STATUS)
    (le32 MB_PROT_MBIM) (cstring far_string) (le32 7) rfl rfl far_string_length rfl
  rw [far_tid_shaped.2, hw.1]
  norm_num

theorem far_tid_dispatch :
    handle_request 4 (fun _ => 0) true true (inbound idle far_tid_envelope)
      = some
        { request := (mbim_perform_request true true
            { inbound idle far_tid_envelope with
              type := MBIM_STATUS, proto := MB_PROT_MBIM, tid := 0 }).1,
          backend := some Backend.mbim,
          session := (mbim_perform_request true true
            { inbound idle far_tid_envelope with
              type := MBIM_STATUS, proto := MB_PROT_MBIM, tid := 0 }).2 } := by
  have hs := far_tid_shaped
  have hw := wire_length_far_tid MB_REQUEST MB_PROTOCOL MB_APN MB_SESSION_TID (le32 MBIM_STATUS)
    (le32 MB_PROT_MBIM) (cstring far_string) (le32 7) rfl rfl far_string_length rfl
  have hlen : (inbound idle far_tid_envelope).req.len < 2 ^ 32 := by
    rw [hs.2, hw.1]
    norm_num
  have hv := databuf_is_valid_shaped_wide (fun _ => 0) _ _ 4 hs hlen (Nat.le_refl 4)
  have g1 := databuf_get_reach (fun _ => 0) (inbound idle far_tid_envelope).req []
    [{ tag := MB_PROTOCOL, payload := le32 MB_PROT_MBIM },
     { tag := MB_APN, payload := cstring far_string },
     { tag := MB_SESSION_TID, payload := le32 7 }] MB_REQUEST 4 (le32 MBIM_STATUS) hs
    (by decide) (fun f hf => absurd hf (List.not_mem_nil f)) (by decide) (by decide)
  have h1 := databuf_get_uint_some (fun _ => 0) 4 (inbound idle far_tid_envelope).req MB_REQUEST
    MBIM_UNKOWN _ (by decide) g1
  rw [rd32_reach (fun _ => 0) (inbound idle far_tid_envelope).req []
    [{ tag := MB_PROTOCOL, payload := le32 MB_PROT_MBIM },
     { tag := MB_APN, payload := cstring far_string },
     { tag := MB_SESSION_TID, payload := le32 7 }] MB_REQUEST MBIM_STATUS hs] at h1
  have g2 := databuf_get_reach (fun _ => 0) (inbound idle far_tid_envelope).req
    [{ tag := MB_REQUEST, payload := le32 MBIM_STATUS }]
    [{ tag := MB_APN, payload := cstring far_string },
     { tag := MB_SESSION_TID, payload := le32 7 }] MB_PROTOCOL 4 (le32 MB_PROT_MBIM) hs
    (by decide) (by decide) (by decide) (by decide)
  have h2 := databuf_get_uint_some (fun _ => 0) 4 (inbound idle far_tid_envelope).req MB_PROTOCOL
    MB_PROT_UNKOWN _ (by decide) g2
  rw [rd32_reach (fun _ => 0) (inbound idle far_tid_envelope).req
    [{ tag := MB_REQUEST, payload := le32 MBIM_STATUS }]
    [{ tag := MB_APN, payload := cstring far_string },
     { tag := MB_SESSION_TID, payload := le32 7 }] MB_PROTOCOL MB_PROT_MBIM hs] at h2
  obtain ⟨q3, tid, hget, hr⟩ := handle_request_dispatch 4 (fun _ => 0) true true
    (inbound idle far_tid_envelope) _ _ _ _ hv h1 (by decide) h2 (by decide)
  have g3 := databuf_get_beyond (fun _ => 0) (inbound idle far_tid_envelope).req
    [{ tag := MB_REQUEST, payload := le32 MBIM_STATUS },
     { tag := MB_PROTOCOL, payload := le32 MB_PROT_MBIM },
     { tag := MB_APN, payload := cstring far_string }]
    [{ tag := MB_SESSION_TID, payload := le32 7 }] MB_SESSION_TID none 4 hs
    (by rw [hw.2]; norm_num) (by rw [hw.2]; norm_num) (by omega) (by decide)
    (by
      intro f hf
      simp only [List.mem_cons, List.mem_singleton, List.not_mem_nil, or_false] at hf
      rcases hf with rfl | rfl | rfl <;> decide)
  obtain ⟨q, hq⟩ := databuf_get_uint_none (fun _ => 0) 4 (inbound idle far_tid_envelope).req
    MB_SESSION_TID 0 g3
  rw [hq] at hget
  simp only [Option.some.injEq, Prod.mk.injEq] at hget
  rw [hr, ← hget.2]
  rfl

/-- C20 (counterexample): a request of 50 bytes holds the header and the fields
`MB_REQUEST = MBIM_STATUS`, `MB_PROTOCOL = MB_PROT_MBIM`, a field
`MB_SESSION_TID` with the two payload bytes 7 and 0, and an empty field
`MB_APN`. `databuf_is_valid` accepts it, `handle_request` dispatches it to the
MBIM backend, and the transaction id handed to the backend is 84082695
(0x05030007): the two payload bytes and the first two bytes of the tag of the
field that follows. A request of 2^31 + 51 bytes holds the header and the
fields `MB_REQUEST = MBIM_STATUS`, `MB_PROTOCOL = MB_PROT_MBIM`, a string of
2^31 - 2 letters under `MB_APN` and `MB_SESSION_TID = 7`; `handle_request`
dispatches it to the MBIM backend with the transaction id 0. -/
theorem tid_is_not_the_field_value :
    (short_tid_envelope
        = le32 DT_RAW ++ (le32 42 ++ wire
            [{ tag := MB_REQUEST, payload := le32 MBIM_STATUS },
             { tag := MB_PROTOCOL, payload := le32 MB_PROT_MBIM },
             { tag := MB_SESSION_TID, payload := [7, 0] },
             { tag := MB_APN, payload := [] }])
      ∧ short_tid_envelope.length = 50
      ∧ databuf_is_valid 5 (fun _ => 0) (some (inbound idle short_tid_envelope).req) = some true
      ∧ handle_request 5 (fun _ => 0) true true (inbound idle short_tid_envelope)
          = some
            { request := (mbim_perform_request true true
                { inbound idle short_tid_envelope with
                  type := MBIM_STATUS, proto := MB_PROT_MBIM, tid := 84082695 }).1,
              backend := some Backend.mbim,
              session := (mbim_perform_request true true
                { inbound idle short_tid_envelope with
                  type := MBIM_STATUS, proto := MB_PROT_MBIM, tid := 84082695 }).2 }
      ∧ 84082695 = 7 + 256 * 0 + 65536 * (MB_APN % 256) + 16777216 * (MB_APN / 256 % 256))
    ∧ Shaped (inbound idle far_tid_envelope).req
        [{ tag := MB_REQUEST, payload := le32 MBIM_STATUS },
         { tag := MB_PROTOCOL, payload := le32 MB_PROT_MBIM },
         { tag := MB_APN, payload := cstring far_string },
         { tag := MB_SESSION_TID, payload := le32 7 }]
    ∧ (inbound idle far_tid_envelope).req.len = 2 ^ 31 + 51
    ∧ handle_request 4 (fun _ => 0) true true (inbound idle far_tid_envelope)
        = some
          { request := (mbim_perform_request true true
              { inbound idle far_tid_envelope with
                type := MBIM_STATUS, proto := MB_PROT_MBIM, tid := 0 }).1,
            backend := some Backend.mbim,
            session := (mbim_perform_request true true
              { inbound idle far_tid_envelope with
                type := MBIM_STATUS, proto := MB_PROT_MBIM, tid := 0 }).2 } :=
  ⟨short_tid_dispatch, far_tid_shaped, far_tid_length, far_tid_dispatch⟩

end MbimNng
